import Mathlib

/-!
# onnx2daq: the ONNX to DAQ lowering pass (`tools/onnx2daq/OnnxConverter.cpp`)

A shallow embedding of `OnnxConverter` and theorems about it.

* C++ exceptions, failed `CHECK`s and undefined behaviour (an index past the
  end of a vector or of a repeated protobuf field, a division by zero) are all
  modelled as the `throw` outcome.  The converter object outlives an
  exception, so a `throw` still carries the converter state reached so far.
* `std::map` and `StrKeyMap` are association lists: writing a key conses a new
  pair in front, reading takes the first pair with that key.
* `int` is `Int`, `uint32_t` is `Nat`; the places where the source mixes the
  two go through `u32` and `i32`.
* A `float` is kept as its IEEE-754 bit pattern.
-/

namespace OnnxConverter

/-! ## Execution model -/

/-- Result of running a piece of the converter from a state: either a value
and the new state, or an exception and the state at the moment it was
raised. -/
inductive Outcome (S α : Type) where
  | ok : α → S → Outcome S α
  | throw : String → S → Outcome S α
deriving DecidableEq, Repr

/-- State-passing computations that may throw. -/
def Exec (S α : Type) : Type := S → Outcome S α

/-- Sequencing: run `x`, and on success continue with `f`. -/
def Exec.bind {S α β : Type} (x : Exec S α) (f : α → Exec S β) : Exec S β :=
  fun s =>
    match x s with
    | Outcome.ok a s1 => f a s1
    | Outcome.throw e s1 => Outcome.throw e s1

instance {S : Type} : Monad (Exec S) where
  pure a := fun s => Outcome.ok a s
  bind := Exec.bind

instance {S : Type} : LawfulMonad (Exec S) :=
  LawfulMonad.mk' (Exec S)
    (by
      intro α x
      funext s
      show Exec.bind x (fun a => pure (id a)) s = x s
      unfold Exec.bind
      cases x s <;> rfl)
    (by
      intro α β a f
      rfl)
    (by
      intro α β γ x f g
      funext s
      show Exec.bind (Exec.bind x f) g s = Exec.bind x (fun a => Exec.bind (f a) g) s
      unfold Exec.bind
      cases x s <;> rfl)

/-- The C++ `throw std::invalid_argument(what)` (also used for aborts and
undefined behaviour). -/
def raise {S α : Type} (what : String) : Exec S α :=
  fun s => Outcome.throw what s

/-- Read the whole state. -/
def getState {S : Type} : Exec S S :=
  fun s => Outcome.ok s s

/-- Update the state. -/
def modifyState {S : Type} (f : S → S) : Exec S Unit :=
  fun s => Outcome.ok () (f s)

/-- Element `i` of a vector or repeated field; past the end it is undefined
behaviour, modelled as a throw. -/
def at_ {S α : Type} (xs : List α) (i : Nat) : Exec S α :=
  match xs.get? i with
  | some x => pure x
  | none => raise "index out of range"

/-! ## Machine integers -/

/-- Conversion of an integer value to `uint32_t`. -/
def u32 (x : Int) : Nat := (x % 4294967296).toNat

/-- Conversion of an unsigned value to `int` / `int32_t` (two's complement). -/
def i32 (x : Nat) : Int :=
  if x % 4294967296 < 2147483648 then ((x % 4294967296 : Nat) : Int)
  else ((x % 4294967296 : Nat) : Int) - 4294967296

/-- Result of `int` arithmetic stored back into an `int` (two's complement
wrap-around). -/
def wrap32 (x : Int) : Int := i32 (u32 x)

/-! ## The source graph (protobuf messages) -/

/-- The type `Shaper::Shape`, a `std::vector<uint32_t>`. -/
abbrev Shape : Type := List Nat

/-- An `onnx::AttributeProto`: every typed field is present and has the
protobuf default when unset. -/
structure AttributeProto where
  name : String
  i : Int := 0
  f : Nat := 0
  ints : List Int := []
deriving DecidableEq, Repr

/-- An `onnx::NodeProto`. -/
structure NodeProto where
  name : String
  op_type : String
  input : List String
  output : List String
  attrs : List AttributeProto := []
deriving DecidableEq, Repr

/-- An `onnx::TensorProto`; `raw_data` is the byte string already viewed as
an array of floats, which is how the converter reads it. -/
structure TensorProto where
  name : String
  data_type : Nat
  dims : List Int
  float_data : List Nat := []
  raw_data : List Nat := []
deriving DecidableEq, Repr

/-- The constant `TensorProto_DataType_FLOAT`. -/
def TensorProto_DataType_FLOAT : Nat := 1

/-- An `onnx::TensorShapeProto::Dimension`: the `value` oneof. -/
inductive Dimension where
  | kDimValue (dim_value : Int)
  | kDimParam (dim_param : String)
  | VALUE_NOT_SET
deriving DecidableEq, Repr

/-- An `onnx::ValueInfoProto` of tensor type: a name and the declared dims. -/
structure ValueInfoProto where
  name : String
  dim : List Dimension
deriving DecidableEq, Repr

/-- An `onnx::GraphProto`. -/
structure GraphProto where
  node : List NodeProto
  initializer : List TensorProto := []
  input : List ValueInfoProto := []
deriving DecidableEq, Repr

/-- An `onnx::ModelProto`. -/
structure ModelProto where
  graph : GraphProto
deriving DecidableEq, Repr

/-! ## The lowered model (the flatbuffers objects of `daq.fbs`) -/

/-- The converter's own `OnnxConverter::FuseCode`. -/
inductive FuseCode where
  | FUSED_NONE
  | FUSED_RELU
  | FUSED_RELU1
  | FUSED_RELU6
deriving DecidableEq, Repr

/-- A float tensor held by the converter: `FTensor`. -/
structure FTensor where
  data : List Nat
  shape : Shape
deriving DecidableEq, Repr

namespace DNN

/-- The serialized `DNN::FuseCode`. -/
inductive FuseCode where
  | None
  | Relu
  | Relu1
  | Relu6
deriving DecidableEq, Repr

/-- The `DNN::DataType` tag of a serialized tensor. -/
inductive DataType where
  | Float32
deriving DecidableEq, Repr

/-- A `DNN::Layer`: one case per `DNN::LayerType` the converter writes, with
the arguments given to the matching `Create...Direct` call, in that order. -/
inductive Layer where
  | Conv2D (input weight : String) (bias : Option String) (pads strides : List Int)
      (fuse : FuseCode) (output : String)
  | AvePool (input : String) (kernel_shape pads strides : List Int)
      (fuse : FuseCode) (output : String)
  | MaxPool (input : String) (kernel_shape pads strides : List Int)
      (fuse : FuseCode) (output : String)
  | Relu (input output : String)
  | Softmax (input output : String)
  | FC (input weight : String) (bias : Option String) (fuse : FuseCode) (output : String)
  | Add (input1 input2 : String) (fuse : FuseCode) (output : String)
  | Concat (inputs : List String) (axis : Nat) (output : String)
  | DepthwiseConv2D (input weight : String) (bias : Option String) (pads strides : List Int)
      (multiplier : Nat) (fuse : FuseCode) (output : String)
  | BatchToSpace (input : String) (block_sizes : List Int) (output : String)
  | SpaceToBatch (input : String) (block_sizes pads : List Int) (output : String)
  | StridedSlice (input : String) (starts ends strides : List Int)
      (begin_mask end_mask shrink_axis_mask : Int) (output : String)
deriving DecidableEq, Repr

/-- A `DNN::Tensor`. -/
structure Tensor where
  data_type : DataType
  float32_data : List Nat
  shape : Shape
  name : String
deriving DecidableEq, Repr

/-- A `DNN::Input`. -/
structure Input where
  shape : Shape
  name : String
deriving DecidableEq, Repr

/-- A `DNN::Model`: what `Convert` writes to the file. -/
structure Model where
  layers : List Layer
  tensors : List Tensor
  inputs : List Input
deriving DecidableEq, Repr

end DNN

/-! ## External collaborators -/

/-- Modelled from the spec: the external shape service (`common/Shaper.h` is
not among the sources).  It is stateful, keyed by operand name; the converter
calls one operation per lowered layer kind, and every operation may fail (for
instance on an operand whose shape is unknown).  The operations are taken as
given; their arguments are those of the calls in `OnnxConverter.cpp`. -/
structure Shaper (σ : Type) where
  AddShape : σ → String → Shape → Except String σ
  Conv : σ → String → Int → Int → Int → Int → Int → Int → Int → Int → String → String →
    Except String σ
  DepthwiseConv : σ → String → Int → Int → Int → Int → Int → Int → Int → Int → String →
    String → Except String σ
  Pool : σ → String → Int → Int → Int → Int → Int → Int → Int → Int → String →
    Except String σ
  Relu : σ → String → String → Except String σ
  Eltwise : σ → String → String → String → Except String σ
  FC : σ → String → String → String → Except String σ
  Softmax : σ → String → String → Except String σ
  Concat : σ → List String → Int → String → Except String σ
  SpaceToBatch : σ → String → List Int → List Int → String → Except String σ
  BatchToSpace : σ → String → List Int → String → Except String σ
  StridedSlice : σ → String → List Int → List Int → List Int → Int → Int → Int → String →
    Except String σ
  get : σ → String → Except String Shape

/-- Everything `OnnxConverter.cpp` calls but does not define: the shape
service, the two weight layout converters declared in `OnnxConverter.h`, and
the ONNX optimizer pass run at the start of `Convert`. -/
structure Env (σ : Type) where
  shaper : Shaper σ
  OnnxToNnapiVanilla : FTensor → FTensor
  OnnxToNnapiDw : FTensor → FTensor
  Optimize : ModelProto → ModelProto

/-- Modelled from the spec: the external attribute reader (`NodeAttrHelper.h`
is not among the sources), which given a node and an attribute name returns a
typed value or the default supplied by the caller.  This is the
`vector<int>` overload of `NodeAttrHelper::get`. -/
def helper_get_ints (node : NodeProto) (key : String) (def_val : List Int) : List Int :=
  match node.attrs.find? (fun a => a.name = key) with
  | some a => a.ints
  | none => def_val

/-- Modelled from the spec: the `int` overload of `NodeAttrHelper::get`. -/
def helper_get_int (node : NodeProto) (key : String) (def_val : Int) : Int :=
  match node.attrs.find? (fun a => a.name = key) with
  | some a => a.i
  | none => def_val

/-- Modelled from the spec: the `float` overload of `NodeAttrHelper::get`. -/
def helper_get_float (node : NodeProto) (key : String) (def_val : Nat) : Nat :=
  match node.attrs.find? (fun a => a.name = key) with
  | some a => a.f
  | none => def_val

/-- Modelled from the spec: the presence test `NodeAttrHelper::has_attr`. -/
def helper_has_attr (node : NodeProto) (key : String) : Bool :=
  node.attrs.any (fun a => a.name = key)

/-- The bit pattern of the float literal `1.0f`, the only pattern that
compares equal to it. -/
def float_one : Nat := 1065353216

/-- Modelled from the spec: `Product` of `common/helper.h`, the product of the
dims in `uint32_t` arithmetic. -/
def Product (shape : Shape) : Nat :=
  shape.foldl (fun acc d => (acc * d) % 4294967296) 1

/-! ## The converter object -/

/-- The data members of `OnnxConverter` that `OnnxConverter.cpp` uses. -/
structure Converter (σ : Type) where
  name_map_ : List (String × String)
  onnx_tensors_ : List (String × FTensor)
  nnapi_tensors_ : List (String × FTensor)
  operands_ : List String
  shaper_ : σ
  layers_ : List DNN.Layer
  tensors_ : List DNN.Tensor

/-- A freshly constructed converter around a given (empty) shape table. -/
def Converter.fresh {σ : Type} (shaper0 : σ) : Converter σ :=
  { name_map_ := [], onnx_tensors_ := [], nnapi_tensors_ := [], operands_ := [],
    shaper_ := shaper0, layers_ := [], tensors_ := [] }

/-- A call `shaper_.Op(...)`: the shape table is replaced by the result, or
the exception of the shape service propagates. -/
def callShaper {σ : Type} (op : σ → Except String σ) : Exec (Converter σ) Unit :=
  fun ctx =>
    match op ctx.shaper_ with
    | Except.ok sh => Outcome.ok () { ctx with shaper_ := sh }
    | Except.error e => Outcome.throw e ctx

/-- The read `shaper_[name]`. -/
def shaperAt {σ : Type} (env : Env σ) (name : String) : Exec (Converter σ) Shape :=
  fun ctx =>
    match env.shaper.get ctx.shaper_ name with
    | Except.ok shape => Outcome.ok shape ctx
    | Except.error e => Outcome.throw e ctx

/-- The read `onnx_tensors_.at(name)`, which throws on a missing key. -/
def onnxTensorAt {σ : Type} (name : String) : Exec (Converter σ) FTensor :=
  fun ctx =>
    match ctx.onnx_tensors_.lookup name with
    | some t => Outcome.ok t ctx
    | none => Outcome.throw "key not found" ctx

/-- The statement `layers_.push_back(layer)`. -/
def pushLayer {σ : Type} (layer : DNN.Layer) : Exec (Converter σ) Unit :=
  modifyState (fun ctx => { ctx with layers_ := ctx.layers_ ++ [layer] })

/-- The statement `tensors_.push_back(flat_tensor)`. -/
def pushTensor {σ : Type} (flat_tensor : DNN.Tensor) : Exec (Converter σ) Unit :=
  modifyState (fun ctx => { ctx with tensors_ := ctx.tensors_ ++ [flat_tensor] })

/-- The statement `nnapi_tensors_[name] = tensor`. -/
def setNnapiTensor {σ : Type} (name : String) (tensor : FTensor) : Exec (Converter σ) Unit :=
  modifyState (fun ctx => { ctx with nnapi_tensors_ := (name, tensor) :: ctx.nnapi_tensors_ })

/-- `DNN::CreateTensorDirect(builder_, DataType::Float32, nullptr, &data, &shape, name)`. -/
def CreateTensorDirect (tensor : FTensor) (name : String) : DNN.Tensor :=
  { data_type := DNN.DataType.Float32, float32_data := tensor.data,
    shape := tensor.shape, name := name }

/-! ## `OnnxConverter.cpp` -/

/-- `OnnxConverter::m`: the stored alias when `str` is a key of the name map,
`str` itself otherwise. -/
def m (name_map_ : List (String × String)) (str : String) : String :=
  match name_map_.lookup str with
  | some alias_ => alias_
  | none => str

/-- The call `m(str)` on the converter. -/
def resolve {σ : Type} (str : String) : Exec (Converter σ) String :=
  fun ctx => Outcome.ok (m ctx.name_map_ str) ctx

/-- `OnnxConverter::ConvertFuseCodeType`. -/
def ConvertFuseCodeType (fuse_code : FuseCode) : DNN.FuseCode :=
  match fuse_code with
  | FuseCode.FUSED_NONE => DNN.FuseCode.None
  | FuseCode.FUSED_RELU => DNN.FuseCode.Relu
  | FuseCode.FUSED_RELU1 => DNN.FuseCode.Relu1
  | FuseCode.FUSED_RELU6 => DNN.FuseCode.Relu6

/-- The condition of the `if` in the loop of `FindActivation`: `_node` is a
Relu whose first input is the first output of `node`. -/
def isActivationOf (node _node : NodeProto) : Prop :=
  node.output ≠ [] ∧ _node.input ≠ [] ∧ node.output.head? = _node.input.head? ∧
    _node.op_type = "Relu"

instance (node _node : NodeProto) : Decidable (isActivationOf node _node) := by
  unfold isActivationOf
  infer_instance

/-- The loop of `OnnxConverter::FindActivation` over the remaining nodes, with
the current value of the local `activation`. -/
def FindActivationLoop (node : NodeProto) :
    List NodeProto → Option String × FuseCode → Option String × FuseCode
  | [], activation => activation
  | _node :: rest, activation =>
    if isActivationOf node _node then
      if activation.2 ≠ FuseCode.FUSED_NONE then
        (none, FuseCode.FUSED_NONE)
      else
        FindActivationLoop node rest (some _node.name, FuseCode.FUSED_RELU)
    else
      FindActivationLoop node rest activation

/-- `OnnxConverter::FindActivation`. -/
def FindActivation (model_proto : ModelProto) (node : NodeProto) : Option String × FuseCode :=
  FindActivationLoop node model_proto.graph.node (none, FuseCode.FUSED_NONE)

/-- A value that exists only when the C++ expression computing it has
defined behaviour. -/
def defined {S α : Type} (x : Option α) : Exec S α :=
  match x with
  | some a => pure a
  | none => raise "undefined behaviour"

/-- The right-hand side of lines 69 and 70 of `AddConv`,
`(n + p + (d - 1)) / d * d - n` with `n` a `uint32_t` and `p`, `d` of type
`int`: the whole expression is evaluated in `uint32_t` and the result is
stored in an `int`. -/
def adjusted_pad (n : Nat) (p d : Int) : Int :=
  i32 (u32 (((u32 ((n : Int) + p + (d - 1)) / u32 d * u32 d : Nat) : Int) - (n : Int)))

/-- Lines 67 to 70 of `AddConv`: `new_pads` is a copy of `pads` whose entries
1 and 3 are replaced.  There is no value when an index is past the end or a
dilation is zero. -/
def new_pads (input_shape : Shape) (pads dilations : List Int) : Option (List Int) := do
  let h ← input_shape.get? 1
  let p1 ← pads.get? 1
  let d0 ← dilations.get? 0
  if u32 d0 = 0 then none
  let w ← input_shape.get? 2
  let p3 ← pads.get? 3
  let d1 ← dilations.get? 1
  if u32 d1 = 0 then none
  pure ((pads.set 1 (adjusted_pad h p1 d0)).set 3 (adjusted_pad w p3 d1))

/-- Lines 91 to 94 of `AddConv`: the vector `ends` of the strided slice. -/
def ends (b2s_shape : Shape) (new_pads pads : List Int) : Option (List Int) := do
  let b0 ← b2s_shape.get? 0
  let b1 ← b2s_shape.get? 1
  let np1 ← new_pads.get? 1
  let p0 ← pads.get? 0
  let b2 ← b2s_shape.get? 2
  let np3 ← new_pads.get? 3
  let p3 ← pads.get? 3
  let b3 ← b2s_shape.get? 3
  pure [i32 b0, wrap32 (i32 b1 - (np1 - p0)), wrap32 (i32 b2 - (np3 - p3)), i32 b3]

set_option linter.unusedVariables false in
/-- `OnnxConverter::AddConv`. -/
def AddConv {σ : Type} (env : Env σ) (input_name : String) (strides pads dilations : List Int)
    (group : Int) (activation : Option String × FuseCode) (ori_weight_name : String)
    (bias_name : Option String) (output_name : String) : Exec (Converter σ) Unit :=
  if hd : dilations ≠ [1, 1] then do
    if strides ≠ [1, 1] then
      raise "Both dilations and strides > 1 is not supported for now"
    let s2b_name := input_name ++ "_s2b"
    let im_name := input_name ++ "_conv_imm"
    let b2s_name := input_name ++ "_b2s"
    let input_shape ← shaperAt env input_name
    let new_pads ← defined (new_pads input_shape pads dilations)
    callShaper (fun sh => env.shaper.SpaceToBatch sh input_name dilations new_pads s2b_name)
    pushLayer (DNN.Layer.SpaceToBatch input_name dilations new_pads s2b_name)
    -- paddings are applied in spacetobatch
    AddConv env s2b_name strides [0, 0, 0, 0] [1, 1] group activation ori_weight_name
      bias_name im_name
    callShaper (fun sh => env.shaper.BatchToSpace sh im_name dilations b2s_name)
    pushLayer (DNN.Layer.BatchToSpace im_name dilations b2s_name)
    let b2s_shape ← shaperAt env b2s_name
    let starts : List Int := [0, 0, 0, 0]
    let ends ← defined (ends b2s_shape new_pads pads)
    let strides_in_ss : List Int := [1, 1, 1, 1]
    let begin_mask : Int := 0
    let end_mask : Int := 0
    let shrink_axis_mask : Int := 0
    callShaper (fun sh => env.shaper.StridedSlice sh b2s_name starts ends strides_in_ss
      begin_mask end_mask shrink_axis_mask output_name)
    pushLayer (DNN.Layer.StridedSlice b2s_name starts ends strides_in_ss
      begin_mask end_mask shrink_axis_mask output_name)
  else do
    let onnx_weight ← onnxTensorAt ori_weight_name
    let (weight_name, weight_tensor, layer) ←
      (if group = 1 then do
        let weight_name := ori_weight_name ++ "_conv_w"
        let weight_tensor := env.OnnxToNnapiVanilla onnx_weight
        callShaper (fun sh => env.shaper.AddShape sh weight_name weight_tensor.shape)
        let strides1 ← at_ strides 1
        let strides0 ← at_ strides 0
        let pads2 ← at_ pads 2
        let pads3 ← at_ pads 3
        let pads0 ← at_ pads 0
        let pads1 ← at_ pads 1
        callShaper (fun sh => env.shaper.Conv sh input_name strides1 strides0 1 1
          pads2 pads3 pads0 pads1 weight_name output_name)
        setNnapiTensor weight_name weight_tensor
        pure (weight_name, weight_tensor,
          DNN.Layer.Conv2D input_name weight_name bias_name pads strides
            (ConvertFuseCodeType activation.2) output_name)
      else do
        let onnx_weight_shape1 ← at_ onnx_weight.shape 1
        if onnx_weight_shape1 = 1 then do
          -- depthwise
          let weight_name := ori_weight_name ++ "_dwconv_w"
          let weight_tensor := env.OnnxToNnapiDw onnx_weight
          callShaper (fun sh => env.shaper.AddShape sh weight_name weight_tensor.shape)
          let strides1 ← at_ strides 1
          let strides0 ← at_ strides 0
          let pads2 ← at_ pads 2
          let pads3 ← at_ pads 3
          let pads0 ← at_ pads 0
          let pads1 ← at_ pads 1
          callShaper (fun sh => env.shaper.DepthwiseConv sh input_name strides1 strides0 1 1
            pads2 pads3 pads0 pads1 weight_name output_name)
          setNnapiTensor weight_name weight_tensor
          let weight_shape3 ← at_ weight_tensor.shape 3
          if u32 group = 0 then
            raise "division by zero"
          let multiplier := weight_shape3 / u32 group
          pure (weight_name, weight_tensor,
            DNN.Layer.DepthwiseConv2D input_name weight_name bias_name pads strides
              multiplier (ConvertFuseCodeType activation.2) output_name)
        else
          -- TODO: Support it
          raise "group != 1 is not supported" :
        Exec (Converter σ) (String × FTensor × DNN.Layer))
    pushTensor (CreateTensorDirect weight_tensor weight_name)
    pushLayer layer
termination_by (if dilations = [1, 1] then 0 else 1)
decreasing_by simp [hd]

/-- `AddConv` with an explicit bound on the depth of the recursion: the same
body, in which the recursive call is given one unit less.  It agrees with
`AddConv` from depth 2 on (`AddConv_eq_AddConvN`) and, being structurally
recursive, can be evaluated on concrete inputs. -/
def AddConvN {σ : Type} (env : Env σ) (depth : Nat) (input_name : String) (strides pads dilations : List Int)
    (group : Int) (activation : Option String × FuseCode) (ori_weight_name : String)
    (bias_name : Option String) (output_name : String) : Exec (Converter σ) Unit :=
  match depth with
  | 0 => raise "recursion depth exceeded"
  | depth + 1 =>
  if dilations ≠ [1, 1] then do
    if strides ≠ [1, 1] then
      raise "Both dilations and strides > 1 is not supported for now"
    let s2b_name := input_name ++ "_s2b"
    let im_name := input_name ++ "_conv_imm"
    let b2s_name := input_name ++ "_b2s"
    let input_shape ← shaperAt env input_name
    let new_pads ← defined (new_pads input_shape pads dilations)
    callShaper (fun sh => env.shaper.SpaceToBatch sh input_name dilations new_pads s2b_name)
    pushLayer (DNN.Layer.SpaceToBatch input_name dilations new_pads s2b_name)
    -- paddings are applied in spacetobatch
    AddConvN env depth s2b_name strides [0, 0, 0, 0] [1, 1] group activation ori_weight_name
      bias_name im_name
    callShaper (fun sh => env.shaper.BatchToSpace sh im_name dilations b2s_name)
    pushLayer (DNN.Layer.BatchToSpace im_name dilations b2s_name)
    let b2s_shape ← shaperAt env b2s_name
    let starts : List Int := [0, 0, 0, 0]
    let ends ← defined (ends b2s_shape new_pads pads)
    let strides_in_ss : List Int := [1, 1, 1, 1]
    let begin_mask : Int := 0
    let end_mask : Int := 0
    let shrink_axis_mask : Int := 0
    callShaper (fun sh => env.shaper.StridedSlice sh b2s_name starts ends strides_in_ss
      begin_mask end_mask shrink_axis_mask output_name)
    pushLayer (DNN.Layer.StridedSlice b2s_name starts ends strides_in_ss
      begin_mask end_mask shrink_axis_mask output_name)
  else do
    let onnx_weight ← onnxTensorAt ori_weight_name
    let (weight_name, weight_tensor, layer) ←
      (if group = 1 then do
        let weight_name := ori_weight_name ++ "_conv_w"
        let weight_tensor := env.OnnxToNnapiVanilla onnx_weight
        callShaper (fun sh => env.shaper.AddShape sh weight_name weight_tensor.shape)
        let strides1 ← at_ strides 1
        let strides0 ← at_ strides 0
        let pads2 ← at_ pads 2
        let pads3 ← at_ pads 3
        let pads0 ← at_ pads 0
        let pads1 ← at_ pads 1
        callShaper (fun sh => env.shaper.Conv sh input_name strides1 strides0 1 1
          pads2 pads3 pads0 pads1 weight_name output_name)
        setNnapiTensor weight_name weight_tensor
        pure (weight_name, weight_tensor,
          DNN.Layer.Conv2D input_name weight_name bias_name pads strides
            (ConvertFuseCodeType activation.2) output_name)
      else do
        let onnx_weight_shape1 ← at_ onnx_weight.shape 1
        if onnx_weight_shape1 = 1 then do
          -- depthwise
          let weight_name := ori_weight_name ++ "_dwconv_w"
          let weight_tensor := env.OnnxToNnapiDw onnx_weight
          callShaper (fun sh => env.shaper.AddShape sh weight_name weight_tensor.shape)
          let strides1 ← at_ strides 1
          let strides0 ← at_ strides 0
          let pads2 ← at_ pads 2
          let pads3 ← at_ pads 3
          let pads0 ← at_ pads 0
          let pads1 ← at_ pads 1
          callShaper (fun sh => env.shaper.DepthwiseConv sh input_name strides1 strides0 1 1
            pads2 pads3 pads0 pads1 weight_name output_name)
          setNnapiTensor weight_name weight_tensor
          let weight_shape3 ← at_ weight_tensor.shape 3
          if u32 group = 0 then
            raise "division by zero"
          let multiplier := weight_shape3 / u32 group
          pure (weight_name, weight_tensor,
            DNN.Layer.DepthwiseConv2D input_name weight_name bias_name pads strides
              multiplier (ConvertFuseCodeType activation.2) output_name)
        else
          -- TODO: Support it
          raise "group != 1 is not supported" :
        Exec (Converter σ) (String × FTensor × DNN.Layer))
    pushTensor (CreateTensorDirect weight_tensor weight_name)
    pushLayer layer

/-- The access `node.input(i)` followed by `m`. -/
def m_input {σ : Type} (node : NodeProto) (i : Nat) : Exec (Converter σ) String := do
  let name ← at_ node.input i
  resolve name

/-- The access `node.output(i)` followed by `m`. -/
def m_output {σ : Type} (node : NodeProto) (i : Nat) : Exec (Converter σ) String := do
  let name ← at_ node.output i
  resolve name

/-- The two statements that follow every call of `FindActivation` in
`Convert`: the name of a found activation is appended to `skipped_act`. -/
def push_skipped (skipped_act : List String) (activation : Option String × FuseCode) :
    List String :=
  match activation.1 with
  | some name => skipped_act ++ [name]
  | none => skipped_act

/-- The `op == "Conv"` branch of the node loop of `Convert`. -/
def ConvertConv {σ : Type} (env : Env σ) (optimized : ModelProto) (node : NodeProto)
    (skipped_act : List String) : Exec (Converter σ) (List String) := do
  let strides := helper_get_ints node "strides" [1, 1]
  let pads := helper_get_ints node "pads" [0, 0, 0, 0]
  let dilations := helper_get_ints node "dilations" [1, 1]
  if pads.length ≠ 4 then
    raise "Check failed: pads.size() == 4ul"
  if strides.length ≠ 2 then
    raise "Check failed: strides.size() == 2ul"
  if dilations.length ≠ 2 then
    raise "Check failed: dilations.size() == 2ul"
  let group := helper_get_int node "group" 1
  let activation := FindActivation optimized node
  let skipped_act := push_skipped skipped_act activation
  let bias_name ←
    (if node.input.length ≥ 3 then do
      let ori_bias_name ← m_input node 2
      let bias_name := ori_bias_name ++ "_conv_b"
      let bias_tensor ← onnxTensorAt ori_bias_name
      setNnapiTensor bias_name bias_tensor
      pushTensor (CreateTensorDirect bias_tensor bias_name)
      pure (some bias_name)
    else
      pure none : Exec (Converter σ) (Option String))
  let ori_weight_name ← m_input node 1
  let input_name ← m_input node 0
  let output_name ← m_output node 0
  AddConv env input_name strides pads dilations group activation ori_weight_name bias_name
    output_name
  pure skipped_act

/-- The pooling branch of the node loop of `Convert` (`AveragePool`, `MaxPool`,
`GlobalAveragePool`, `GlobalMaxPool`). -/
def ConvertPool {σ : Type} (env : Env σ) (optimized : ModelProto) (node : NodeProto)
    (skipped_act : List String) : Exec (Converter σ) (List String) := do
  let op := node.op_type
  let input_name ← m_input node 0
  let output_name ← m_output node 0
  let (strides, pads, kernel_shape) ←
    (if op = "AveragePool" ∨ op = "MaxPool" then do
      let strides := helper_get_ints node "strides" [1, 1]
      let pads := helper_get_ints node "pads" [0, 0, 0, 0]
      let kernel_shape := helper_get_ints node "kernel_shape" [0, 0]
      let count_include_pad := helper_get_int node "count_include_pad" 0
      if count_include_pad = 1 then
        raise "count_include_pad == 1 is not supported"
      let storage_order := helper_get_int node "storage_order" 0
      if storage_order = 1 then
        raise "storage_order == 1 is not supported"
      if helper_has_attr node "auto_pad" then
        raise "auto_pad is not supported"
      pure (strides, pads, kernel_shape)
    else
      pure ([0, 0], [0, 0, 0, 0], [-1, -1]) :
        Exec (Converter σ) (List Int × List Int × List Int))
  if pads.length ≠ 4 then
    raise "Check failed: pads.size() == 4ul"
  if kernel_shape.length ≠ 2 then
    raise "Check failed: kernel_shape.size() == 2ul"
  if strides.length ≠ 2 then
    raise "Check failed: strides.size() == 2ul"
  let activation := FindActivation optimized node
  let skipped_act := push_skipped skipped_act activation
  let strides1 ← at_ strides 1
  let strides0 ← at_ strides 0
  let pads2 ← at_ pads 2
  let pads3 ← at_ pads 3
  let pads0 ← at_ pads 0
  let pads1 ← at_ pads 1
  let kernel_shape0 ← at_ kernel_shape 0
  let kernel_shape1 ← at_ kernel_shape 1
  callShaper (fun sh => env.shaper.Pool sh input_name strides1 strides0 pads2 pads3 pads0 pads1
    kernel_shape0 kernel_shape1 output_name)
  let layer :=
    if op = "AveragePool" ∨ op = "GlobalAveragePool" then
      DNN.Layer.AvePool input_name kernel_shape pads strides
        (ConvertFuseCodeType activation.2) output_name
    else
      DNN.Layer.MaxPool input_name kernel_shape pads strides
        (ConvertFuseCodeType activation.2) output_name
  pushLayer layer
  pure skipped_act

/-- The `op == "Relu"` branch of the node loop of `Convert`. -/
def ConvertRelu {σ : Type} (env : Env σ) (node : NodeProto) : Exec (Converter σ) Unit := do
  let input_name ← m_input node 0
  let output_name ← m_output node 0
  callShaper (fun sh => env.shaper.Relu sh input_name output_name)
  pushLayer (DNN.Layer.Relu input_name output_name)

/-- The `op == "Add"` branch of the node loop of `Convert`. -/
def ConvertAdd {σ : Type} (env : Env σ) (optimized : ModelProto) (node : NodeProto)
    (skipped_act : List String) : Exec (Converter σ) (List String) := do
  let input1_name ← m_input node 0
  let input2_name ← m_input node 1
  let output_name ← m_output node 0
  callShaper (fun sh => env.shaper.Eltwise sh input1_name input2_name output_name)
  let activation := FindActivation optimized node
  let skipped_act := push_skipped skipped_act activation
  pushLayer (DNN.Layer.Add input1_name input2_name (ConvertFuseCodeType activation.2)
    output_name)
  pure skipped_act

/-- The `op == "Gemm"` branch of the node loop of `Convert`. -/
def ConvertGemm {σ : Type} (env : Env σ) (optimized : ModelProto) (node : NodeProto)
    (skipped_act : List String) : Exec (Converter σ) (List String) := do
  let transA := helper_get_int node "transA" 0
  let transB := helper_get_int node "transB" 0
  let alpha := helper_get_float node "alpha" float_one
  let beta := helper_get_float node "beta" float_one
  if transA = 0 ∧ transB = 1 ∧ alpha = float_one ∧ beta = float_one then do
    let input_name ← m_input node 0
    let weight_name ← m_input node 1
    let weight_tensor ← onnxTensorAt weight_name
    setNnapiTensor weight_name weight_tensor
    callShaper (fun sh => env.shaper.AddShape sh weight_name weight_tensor.shape)
    pushTensor (CreateTensorDirect weight_tensor weight_name)
    let bias_name ←
      (if node.input.length ≥ 3 then do
        let bias_name ← m_input node 2
        let bias_tensor ← onnxTensorAt bias_name
        setNnapiTensor bias_name bias_tensor
        pushTensor (CreateTensorDirect bias_tensor bias_name)
        pure (some bias_name)
      else
        pure none : Exec (Converter σ) (Option String))
    let activation := FindActivation optimized node
    let skipped_act := push_skipped skipped_act activation
    let output_name ← m_output node 0
    callShaper (fun sh => env.shaper.FC sh input_name weight_name output_name)
    pushLayer (DNN.Layer.FC input_name weight_name bias_name
      (ConvertFuseCodeType activation.2) output_name)
    pure skipped_act
  else
    raise "Only transA == 0, transB == 1, alpha == 1.0 and beta == 1.0 is supported."

/-- The `op == "Softmax"` branch of the node loop of `Convert`. -/
def ConvertSoftmax {σ : Type} (env : Env σ) (node : NodeProto) : Exec (Converter σ) Unit := do
  let input_name ← m_input node 0
  let output_name ← m_output node 0
  callShaper (fun sh => env.shaper.Softmax sh input_name output_name)
  pushLayer (DNN.Layer.Softmax input_name output_name)

/-- The call `builder_.CreateString(str.c_str(), len)`: the first `len`
bytes of the buffer of `str`, which holds the bytes of `str` and one
terminating zero byte.  Reading further is undefined behaviour.  Names are
byte strings: one `Char` per byte. -/
def CreateString (str : String) (len : Nat) : Option String :=
  if len ≤ str.length then some (String.mk (str.data.take len))
  else if len = str.length + 1 then some (String.mk (str.data ++ [Char.ofNat 0]))
  else none

/-- The vector `concat_inputs` built by the loop over `node.input()` in the
Concat branch. -/
def concat_inputs (name_map_ : List (String × String)) : List String → Option (List String)
  | [] => some []
  | onnx_input :: rest => do
    let flat_input ← CreateString (m name_map_ onnx_input) onnx_input.length
    let others ← concat_inputs name_map_ rest
    pure (flat_input :: others)

/-- The table `axis_nchw_to_nhwc` of the Concat branch. -/
def axis_nchw_to_nhwc : List Nat := [0, 3, 1, 2]

/-- The `op == "Concat"` branch of the node loop of `Convert`. -/
def ConvertConcat {σ : Type} (env : Env σ) (node : NodeProto) : Exec (Converter σ) Unit := do
  let ctx ← getState
  let concat_inputs_str := node.input
  let concat_inputs ← defined (concat_inputs ctx.name_map_ node.input)
  let axis := helper_get_int node "axis" 1
  let output_name ← m_output node 0
  callShaper (fun sh => env.shaper.Concat sh concat_inputs_str axis output_name)
  if axis < 0 then
    raise "undefined behaviour"
  let nhwc_axis ← at_ axis_nchw_to_nhwc axis.toNat
  pushLayer (DNN.Layer.Concat concat_inputs nhwc_axis output_name)

/-- The `op == "Dropout"` branch of the node loop of `Convert`. -/
def ConvertDropout {σ : Type} (node : NodeProto) : Exec (Converter σ) Unit := do
  -- Dropout does nothing, so the output is the same as the input
  let alias_ ← m_input node 0
  let key ← at_ node.output 0
  modifyState (fun ctx => { ctx with name_map_ := (key, alias_) :: ctx.name_map_ })

/-- The body of the node loop of `Convert` after the `has_reshape` check: the
dispatch on `node.op_type()`.  The result is the new value of the locals
`skipped_act` and `has_reshape`; the loop runs this body only while
`has_reshape` is still false. -/
def ConvertNode {σ : Type} (env : Env σ) (optimized : ModelProto) (node : NodeProto)
    (skipped_act : List String) : Exec (Converter σ) (List String × Bool) :=
  let op := node.op_type
  if op = "Conv" then do
    let skipped_act ← ConvertConv env optimized node skipped_act
    pure (skipped_act, false)
  else if op = "AveragePool" ∨ op = "MaxPool" ∨ op = "GlobalAveragePool" ∨
      op = "GlobalMaxPool" then do
    let skipped_act ← ConvertPool env optimized node skipped_act
    pure (skipped_act, false)
  else if op = "Relu" then do
    ConvertRelu env node
    pure (skipped_act, false)
  else if op = "Add" then do
    let skipped_act ← ConvertAdd env optimized node skipped_act
    pure (skipped_act, false)
  else if op = "Gemm" then do
    let skipped_act ← ConvertGemm env optimized node skipped_act
    pure (skipped_act, false)
  else if op = "Softmax" then do
    ConvertSoftmax env node
    pure (skipped_act, false)
  else if op = "Concat" then do
    ConvertConcat env node
    pure (skipped_act, false)
  else if op = "Dropout" then do
    ConvertDropout node
    pure (skipped_act, false)
  else if op = "Reshape" then
    pure (skipped_act, true)
  else
    raise ("Unsupported operator " ++ op)

/-- The node loop of `Convert` over the remaining nodes, from the current
values of the locals `skipped_act` and `has_reshape`. -/
def ConvertLoop {σ : Type} (env : Env σ) (optimized : ModelProto) :
    List NodeProto → List String → Bool → Exec (Converter σ) (List String × Bool)
  | [], skipped_act, has_reshape => pure (skipped_act, has_reshape)
  | node :: rest, skipped_act, has_reshape =>
    if has_reshape then
      raise "Reshape can only be the last layer for now"
    else do
      let (skipped_act, has_reshape) ← ConvertNode env optimized node skipped_act
      ConvertLoop env optimized rest skipped_act has_reshape

/-- The body of the first loop of `Convert`, over the initializers. -/
def ingestInitializer {σ : Type} (tensor : TensorProto) : Exec (Converter σ) Unit := do
  if tensor.data_type = TensorProto_DataType_FLOAT then do
    let ptr := if tensor.float_data.isEmpty then tensor.raw_data else tensor.float_data
    let shape : Shape := tensor.dims.map u32
    if ptr.length < Product shape then
      raise "undefined behaviour"
    let data_vec := ptr.take (Product shape)
    modifyState (fun ctx =>
      { ctx with onnx_tensors_ := (tensor.name, { data := data_vec, shape := shape }) ::
          ctx.onnx_tensors_ })
  modifyState (fun ctx => { ctx with operands_ := ctx.operands_ ++ [tensor.name] })

/-- The first loop of `Convert`. -/
def ingestInitializers {σ : Type} : List TensorProto → Exec (Converter σ) Unit
  | [] => pure ()
  | tensor :: rest => do
    ingestInitializer tensor
    ingestInitializers rest

/-- The inner loop of the second loop of `Convert`: the dims of a declared
graph input, each of which must carry a value. -/
def inputShape {σ : Type} : List Dimension → Exec (Converter σ) Shape
  | [] => pure []
  | Dimension.kDimValue dim_value :: rest => do
    let shape ← inputShape rest
    pure (u32 dim_value :: shape)
  | _ :: _ => raise "The input of graph doesn't have dim_value"

/-- The second loop of `Convert`, over the declared graph inputs, from the
current value of the local `inputs`. -/
def ingestInputs {σ : Type} (env : Env σ) :
    List ValueInfoProto → List DNN.Input → Exec (Converter σ) (List DNN.Input)
  | [], inputs => pure inputs
  | input :: rest, inputs => do
    let ctx ← getState
    if input.name ∈ ctx.operands_ then
      ingestInputs env rest inputs
    else do
      let shape ← inputShape input.dim
      let shape0 ← at_ shape 0
      let shape2 ← at_ shape 2
      let shape3 ← at_ shape 3
      let shape1 ← at_ shape 1
      let nnapi_shape : Shape := [shape0, shape2, shape3, shape1]
      callShaper (fun sh => env.shaper.AddShape sh input.name nnapi_shape)
      ingestInputs env rest (inputs ++ [{ shape := nnapi_shape, name := input.name }])

/-- `OnnxConverter::Convert`.  The result is the model written to `filepath`;
nothing is written when an exception leaves the function. -/
def Convert {σ : Type} (env : Env σ) (model_proto : ModelProto) :
    Exec (Converter σ) DNN.Model := do
  let optimized := env.Optimize model_proto
  ingestInitializers optimized.graph.initializer
  let inputs ← ingestInputs env optimized.graph.input []
  let _ ← ConvertLoop env optimized optimized.graph.node [] false
  let ctx ← getState
  pure { layers := ctx.layers_, tensors := ctx.tensors_, inputs := inputs }

/-! ## A table-backed instance of the collaborators

The theorems below hold for every `Env`.  To run the converter on concrete
graphs an instance is needed; this one keeps shapes in an association list and
uses the usual output-shape formulas of a channel-last runtime. -/

namespace Reference

/-- Dimension `i` of a shape as an integer (0 when absent). -/
def dim (shape : Shape) (i : Nat) : Int := ((shape.getD i 0 : Nat) : Int)

/-- Shape lookup; an unknown operand is a failure. -/
def shapeOf (tbl : List (String × Shape)) (name : String) : Except String Shape :=
  match tbl.lookup name with
  | some shape => Except.ok shape
  | none => Except.error ("unknown operand " ++ name)

/-- Record the shape of `output`, computed from the shape of `input`. -/
def derive (tbl : List (String × Shape)) (input output : String) (f : Shape → List Int) :
    Except String (List (String × Shape)) :=
  match shapeOf tbl input with
  | Except.ok shape => Except.ok ((output, (f shape).map Int.toNat) :: tbl)
  | Except.error e => Except.error e

/-- Record the shape of `output`, computed from the shapes of two operands. -/
def derive2 (tbl : List (String × Shape)) (input other output : String)
    (f : Shape → Shape → List Int) : Except String (List (String × Shape)) :=
  match shapeOf tbl input, shapeOf tbl other with
  | Except.ok shape, Except.ok shape2 => Except.ok ((output, (f shape shape2).map Int.toNat) :: tbl)
  | Except.error e, _ => Except.error e
  | _, Except.error e => Except.error e

/-- Modelled from the spec: an instance of the external shape service, keyed by
operand name, failing on an operand whose shape is unknown. -/
def shaper : Shaper (List (String × Shape)) where
  AddShape := fun tbl name shape => Except.ok ((name, shape) :: tbl)
  Conv := fun tbl input strideX strideY _ _ padL padR padT padB weight output =>
    derive2 tbl input weight output (fun i w =>
      [dim i 0, (dim i 1 - dim w 1 + padT + padB) / strideY + 1,
        (dim i 2 - dim w 2 + padL + padR) / strideX + 1, dim w 0])
  DepthwiseConv := fun tbl input strideX strideY _ _ padL padR padT padB weight output =>
    derive2 tbl input weight output (fun i w =>
      [dim i 0, (dim i 1 - dim w 1 + padT + padB) / strideY + 1,
        (dim i 2 - dim w 2 + padL + padR) / strideX + 1, dim w 3])
  Pool := fun tbl input strideX strideY padL padR padT padB height width output =>
    derive tbl input output (fun i =>
      if height = -1 ∧ width = -1 then [dim i 0, 1, 1, dim i 3]
      else [dim i 0, (dim i 1 - height + padT + padB) / strideY + 1,
        (dim i 2 - width + padL + padR) / strideX + 1, dim i 3])
  Relu := fun tbl input output => derive tbl input output (fun i => i.map Int.ofNat)
  Eltwise := fun tbl input1 input2 output =>
    derive2 tbl input1 input2 output (fun i _ => i.map Int.ofNat)
  FC := fun tbl input weight output =>
    derive2 tbl input weight output (fun i w => [dim i 0, dim w 0])
  Softmax := fun tbl input output => derive tbl input output (fun i => i.map Int.ofNat)
  Concat := fun tbl inputs axis output =>
    match inputs.mapM (shapeOf tbl) with
    | Except.ok (first :: others) =>
      Except.ok ((output,
        first.set axis.toNat (((first :: others).map (fun s => s.getD axis.toNat 0)).sum)) :: tbl)
    | Except.ok [] => Except.error "no operand"
    | Except.error e => Except.error e
  SpaceToBatch := fun tbl input block pads output =>
    derive tbl input output (fun i =>
      [dim i 0 * block.getD 0 1 * block.getD 1 1,
        (dim i 1 + pads.getD 0 0 + pads.getD 1 0) / block.getD 0 1,
        (dim i 2 + pads.getD 2 0 + pads.getD 3 0) / block.getD 1 1, dim i 3])
  BatchToSpace := fun tbl input block output =>
    derive tbl input output (fun i =>
      [dim i 0 / (block.getD 0 1 * block.getD 1 1), dim i 1 * block.getD 0 1,
        dim i 2 * block.getD 1 1, dim i 3])
  StridedSlice := fun tbl input starts ends _ _ _ _ output =>
    derive tbl input output (fun _ => List.zipWith (fun e s => e - s) ends starts)
  get := shapeOf

/-- Reorder the flat data of a 4-D tensor of dims `[d0, d1, d2, d3]` so that
the axes come in the order `[d0, d2, d3, d1]`. -/
def toChannelLast (data : List Nat) (d0 d1 d2 d3 : Nat) : List Nat :=
  (List.range d0).flatMap (fun a => (List.range d2).flatMap (fun c =>
    (List.range d3).flatMap (fun d => (List.range d1).map (fun b =>
      data.getD (((a * d1 + b) * d2 + c) * d3 + d) 0))))

/-- Modelled from the spec: the vanilla layout converter, from the source
layout `[out, in, h, w]` to the target layout `[out, h, w, in]`. -/
def OnnxToNnapiVanilla (src : FTensor) : FTensor :=
  let d (i : Nat) : Nat := src.shape.getD i 0
  { data := toChannelLast src.data (d 0) (d 1) (d 2) (d 3), shape := [d 0, d 2, d 3, d 1] }

/-- Modelled from the spec: the depthwise layout converter, from the source
layout `[out, 1, h, w]` to the target layout `[1, h, w, out]`. -/
def OnnxToNnapiDw (src : FTensor) : FTensor :=
  let d (i : Nat) : Nat := src.shape.getD i 0
  { data := toChannelLast src.data 1 (d 0) (d 2) (d 3), shape := [1, d 2, d 3, d 0] }

/-- The instance: table-backed shapes, the two layout converters, and an
optimizer pass that finds nothing to fuse. -/
def env : Env (List (String × Shape)) where
  shaper := shaper
  OnnxToNnapiVanilla := OnnxToNnapiVanilla
  OnnxToNnapiDw := OnnxToNnapiDw
  Optimize := fun model_proto => model_proto

/-- A freshly constructed converter of the instance. -/
def fresh : Converter (List (String × Shape)) := Converter.fresh []

end Reference

/-! ## Vocabulary of the statements -/

/-- An outcome that is an exception: no value, hence no model, is produced. -/
def Outcome.fails {S α : Type} (o : Outcome S α) : Prop :=
  match o with
  | Outcome.throw _ _ => True
  | Outcome.ok _ _ => False

/-- The state carried by an outcome, normal or exceptional. -/
def Outcome.state {S α : Type} (o : Outcome S α) : S :=
  match o with
  | Outcome.ok _ s => s
  | Outcome.throw _ s => s

/-- The match of the activation analyzer in the words of the specification:
`r` has op type Relu, has a first input, and that first input is the first
output of `p`. -/
def feedsRelu (p r : NodeProto) : Prop :=
  r.op_type = "Relu" ∧ r.input.head?.isSome = true ∧ r.input.head? = p.output.head?

instance (p r : NodeProto) : Decidable (feedsRelu p r) := by
  unfold feedsRelu
  infer_instance

/-- The op types for which the node loop of `Convert` has a branch. -/
def supportedOps : List String :=
  ["Conv", "AveragePool", "MaxPool", "GlobalAveragePool", "GlobalMaxPool", "Relu", "Add", "Gemm",
    "Softmax", "Concat", "Dropout", "Reshape"]

/-- The state `ctx` after a step that left the shape table at `sh`, wrote the
pairs `nn` to `nnapi_tensors_` and appended `layers` and `tensors`. -/
def Converter.extend {σ : Type} (ctx : Converter σ) (sh : σ) (nn : List (String × FTensor))
    (layers : List DNN.Layer) (tensors : List DNN.Tensor) : Converter σ :=
  { ctx with shaper_ := sh, nnapi_tensors_ := nn ++ ctx.nnapi_tensors_,
             layers_ := ctx.layers_ ++ layers, tensors_ := ctx.tensors_ ++ tensors }

/-- What no step of `AddConv` and no branch of the node loop other than
Dropout changes: the name map, the source tensors and the operand list stay
as they are, and the layer and tensor lists only grow at the end. -/
def Frame {σ : Type} (s t : Converter σ) : Prop :=
  t.name_map_ = s.name_map_ ∧ t.onnx_tensors_ = s.onnx_tensors_ ∧ t.operands_ = s.operands_ ∧
    s.layers_ <+: t.layers_ ∧ s.tensors_ <+: t.tensors_

/-- The computation `x` relates every start state to the state it ends in,
whether it returns or throws. -/
def Keeps {S α : Type} (R : S → S → Prop) (x : Exec S α) : Prop :=
  ∀ s, R s (x s).state

/-- The end of the strided slice on one spatial axis in the words of the
specification: `batch_to_space_output_dim - (adjusted_pad - original_pad)`,
where `original_pad` is the high-side pad from which `adjusted_pad` was
computed. -/
def trimmed (batch_to_space_output_dim : Nat) (adjusted_pad original_pad : Int) : Int :=
  (batch_to_space_output_dim : Int) - (adjusted_pad - original_pad)

/-- The two ingestion loops at the start of `Convert`; the result is the local
`inputs`. -/
def ingest {σ : Type} (env : Env σ) (model_proto : ModelProto) :
    Exec (Converter σ) (List DNN.Input) := do
  let optimized := env.Optimize model_proto
  ingestInitializers optimized.graph.initializer
  ingestInputs env optimized.graph.input []

/-- The run of `Convert` up to, and excluding, the node of index `k`: the two
ingestion loops, then the node loop over the first `k` nodes.  Its result is
the value of the locals `skipped_act` and `has_reshape` and the converter
state in which node `k` is processed. -/
def runTo {σ : Type} (env : Env σ) (model_proto : ModelProto) (k : Nat) :
    Exec (Converter σ) (List String × Bool) := do
  let optimized := env.Optimize model_proto
  ingestInitializers optimized.graph.initializer
  let _ ← ingestInputs env optimized.graph.input []
  ConvertLoop env optimized (optimized.graph.node.take k) [] false

/-- The `DNN::LayerType` given to `DNN::CreateLayer`. -/
inductive DNN.LayerType where
  | Conv2D
  | AvePool
  | MaxPool
  | Relu
  | Softmax
  | FC
  | Add
  | Concat
  | DepthwiseConv2D
  | BatchToSpace
  | SpaceToBatch
  | StridedSlice
deriving DecidableEq, Repr

/-- The type tag of a layer. -/
def DNN.Layer.type : DNN.Layer → DNN.LayerType
  | DNN.Layer.Conv2D .. => DNN.LayerType.Conv2D
  | DNN.Layer.AvePool .. => DNN.LayerType.AvePool
  | DNN.Layer.MaxPool .. => DNN.LayerType.MaxPool
  | DNN.Layer.Relu .. => DNN.LayerType.Relu
  | DNN.Layer.Softmax .. => DNN.LayerType.Softmax
  | DNN.Layer.FC .. => DNN.LayerType.FC
  | DNN.Layer.Add .. => DNN.LayerType.Add
  | DNN.Layer.Concat .. => DNN.LayerType.Concat
  | DNN.Layer.DepthwiseConv2D .. => DNN.LayerType.DepthwiseConv2D
  | DNN.Layer.BatchToSpace .. => DNN.LayerType.BatchToSpace
  | DNN.Layer.SpaceToBatch .. => DNN.LayerType.SpaceToBatch
  | DNN.Layer.StridedSlice .. => DNN.LayerType.StridedSlice

/-- The fuse code carried by a layer, for the layer types that have one. -/
def DNN.Layer.fuse? : DNN.Layer → Option DNN.FuseCode
  | DNN.Layer.Conv2D _ _ _ _ _ fuse _ => some fuse
  | DNN.Layer.AvePool _ _ _ _ fuse _ => some fuse
  | DNN.Layer.MaxPool _ _ _ _ fuse _ => some fuse
  | DNN.Layer.FC _ _ _ fuse _ => some fuse
  | DNN.Layer.Add _ _ fuse _ => some fuse
  | DNN.Layer.DepthwiseConv2D _ _ _ _ _ _ fuse _ => some fuse
  | _ => none

/-- The data operands a layer reads (weights and biases are not counted). -/
def DNN.Layer.inputs : DNN.Layer → List String
  | DNN.Layer.Conv2D input _ _ _ _ _ _ => [input]
  | DNN.Layer.AvePool input _ _ _ _ _ => [input]
  | DNN.Layer.MaxPool input _ _ _ _ _ => [input]
  | DNN.Layer.Relu input _ => [input]
  | DNN.Layer.Softmax input _ => [input]
  | DNN.Layer.FC input _ _ _ _ => [input]
  | DNN.Layer.Add input1 input2 _ _ => [input1, input2]
  | DNN.Layer.Concat inputs _ _ => inputs
  | DNN.Layer.DepthwiseConv2D input _ _ _ _ _ _ _ => [input]
  | DNN.Layer.BatchToSpace input _ _ => [input]
  | DNN.Layer.SpaceToBatch input _ _ _ => [input]
  | DNN.Layer.StridedSlice input _ _ _ _ _ _ _ => [input]

/-- The operand a layer writes. -/
def DNN.Layer.output : DNN.Layer → String
  | DNN.Layer.Conv2D _ _ _ _ _ _ output => output
  | DNN.Layer.AvePool _ _ _ _ _ output => output
  | DNN.Layer.MaxPool _ _ _ _ _ output => output
  | DNN.Layer.Relu _ output => output
  | DNN.Layer.Softmax _ output => output
  | DNN.Layer.FC _ _ _ _ output => output
  | DNN.Layer.Add _ _ _ output => output
  | DNN.Layer.Concat _ _ output => output
  | DNN.Layer.DepthwiseConv2D _ _ _ _ _ _ _ output => output
  | DNN.Layer.BatchToSpace _ _ output => output
  | DNN.Layer.SpaceToBatch _ _ _ output => output
  | DNN.Layer.StridedSlice _ _ _ _ _ _ _ output => output

/-- A chain of consecutive Dropout nodes leading from operand `x` to operand
`y`: each node is a Dropout, the first reads `x`, each next one reads the first
output of the one before, and the last writes `y`. -/
def DropoutChain : String → List NodeProto → String → Prop
  | x, [], y => x = y
  | x, d :: rest, y =>
    d.op_type = "Dropout" ∧ d.input.head? = some x ∧
      ∃ z, d.output.head? = some z ∧ DropoutChain z rest y

/-- The rounding of the specification, `ceil_to_multiple(x, d)`: `x` rounded
up to the next multiple of `d`. -/
def ceil_to_multiple (x d : Nat) : Nat :=
  if x % d = 0 then x else x + (d - x % d)

/-- The entry `o` of the input list is the record of the declared graph input
`i`: it has the name of `i`, every declared dim of `i` carries a value, and
its shape is made of the declared dims 0, 2, 3 and 1, in this order, as
`uint32_t` values. -/
def Recorded (i : ValueInfoProto) (o : DNN.Input) : Prop :=
  o.name = i.name ∧
    ∃ (vals : List Int) (d0 d1 d2 d3 : Int), i.dim = vals.map Dimension.kDimValue ∧
      vals.get? 0 = some d0 ∧ vals.get? 1 = some d1 ∧ vals.get? 2 = some d2 ∧
      vals.get? 3 = some d3 ∧ o.shape = [u32 d0, u32 d2, u32 d3, u32 d1]

/-- The shape table after the shapes of `inputs` have been registered with the
shape service, one after the other, from the table `sh` on. -/
def addShapes {σ : Type} (env : Env σ) : List DNN.Input → σ → Except String σ
  | [], sh => Except.ok sh
  | input :: rest, sh =>
    match env.shaper.AddShape sh input.name input.shape with
    | Except.ok sh1 => addShapes env rest sh1
    | Except.error e => Except.error e

/-- Every alias stored in the name map is fully resolved: resolving a stored
target gives the target again. -/
def Resolved (name_map_ : List (String × String)) : Prop :=
  ∀ key t, name_map_.lookup key = some t → m name_map_ t = t

/-- No Dropout node of the list writes, as its first output, a name that an
earlier Dropout node of the list reads as its first input. -/
def DropoutsInOrder (nodes : List NodeProto) : Prop :=
  nodes.Pairwise (fun a b =>
    ¬ (a.op_type = "Dropout" ∧ b.op_type = "Dropout" ∧ a.input.head?.isSome = true ∧
      b.output.head? = a.input.head?))

instance (nodes : List NodeProto) : Decidable (DropoutsInOrder nodes) := by
  unfold DropoutsInOrder
  infer_instance

/-! ## Sample graphs -/

namespace Sample

/-- A 1x1 convolution followed by a Relu that is the only consumer of its
output. -/
def convRelu : ModelProto :=
  { graph :=
    { node :=
        [ { name := "conv1", op_type := "Conv", input := ["x", "w"], output := ["c"] },
          { name := "relu1", op_type := "Relu", input := ["c"], output := ["y"] } ],
      initializer :=
        [ { name := "w", data_type := 1, dims := [1, 1, 1, 1], float_data := [float_one] } ],
      input :=
        [ { name := "x",
            dim := [Dimension.kDimValue 1, Dimension.kDimValue 1, Dimension.kDimValue 4,
              Dimension.kDimValue 4] } ] } }

/-- A converter that has ingested a 3x3 weight `w` and a 7x7 graph input `x`
with one channel. -/
def ready : Converter (List (String × Shape)) :=
  { Reference.fresh with
    onnx_tensors_ := [("w", { data := List.replicate 9 float_one, shape := [1, 1, 3, 3] })],
    operands_ := ["w"],
    shaper_ := [("x", [1, 7, 7, 1])] }

/-- A converter that has ingested a weight `w` of dims `[4, 3, 3, 3]` (second
dimension 3) and an 8x8 graph input `x` with six channels. -/
def readyGrouped : Converter (List (String × Shape)) :=
  { Reference.fresh with
    onnx_tensors_ := [("w", { data := List.replicate 108 float_one, shape := [4, 3, 3, 3] })],
    operands_ := ["w"],
    shaper_ := [("x", [1, 8, 8, 6])] }

/-- The state reached from `ready` by the dilated convolution of `x` with `w`,
dilations `(2,2)`, strides `(1,1)` and pads `[0, 1, 0, 1]`. -/
def readyDilated : Converter (List (String × Shape)) :=
  ready.extend
    [("c", [1, 3, 4, 1]), ("x_b2s", [1, 4, 4, 1]), ("x_conv_imm", [4, 2, 2, 1]),
      ("w_conv_w", [1, 3, 3, 1]), ("x_s2b", [4, 4, 4, 1]), ("x", [1, 7, 7, 1])]
    [("w_conv_w", { data := List.replicate 9 float_one, shape := [1, 3, 3, 1] })]
    [DNN.Layer.SpaceToBatch "x" [2, 2] [0, 1, 0, 1] "x_s2b",
      DNN.Layer.Conv2D "x_s2b" "w_conv_w" none [0, 0, 0, 0] [1, 1] DNN.FuseCode.None "x_conv_imm",
      DNN.Layer.BatchToSpace "x_conv_imm" [2, 2] "x_b2s",
      DNN.Layer.StridedSlice "x_b2s" [0, 0, 0, 0] [1, 3, 4, 1] [1, 1, 1, 1] 0 0 0 "c"]
    [{ data_type := DNN.DataType.Float32, float32_data := List.replicate 9 float_one,
       shape := [1, 3, 3, 1], name := "w_conv_w" }]

/-- A Reshape that is not the last node: it is followed by a Relu. -/
def reshapeRelu : ModelProto :=
  { graph :=
    { node :=
        [ { name := "reshape1", op_type := "Reshape", input := ["x", "shape"], output := ["r"] },
          { name := "relu1", op_type := "Relu", input := ["r"], output := ["y"] } ],
      input :=
        [ { name := "x",
            dim := [Dimension.kDimValue 1, Dimension.kDimValue 1, Dimension.kDimValue 4,
              Dimension.kDimValue 4] } ] } }

/-- A Relu followed by a node of an op type the converter has no branch for. -/
def reluSigmoid : ModelProto :=
  { graph :=
    { node :=
        [ { name := "relu1", op_type := "Relu", input := ["x"], output := ["r"] },
          { name := "sigmoid1", op_type := "Sigmoid", input := ["r"], output := ["y"] } ],
      input :=
        [ { name := "x",
            dim := [Dimension.kDimValue 1, Dimension.kDimValue 1, Dimension.kDimValue 4,
              Dimension.kDimValue 4] } ] } }

/-- The model written for `convRelu`. -/
def convReluModel : DNN.Model :=
  { layers :=
      [DNN.Layer.Conv2D "x" "w_conv_w" none [0, 0, 0, 0] [1, 1] DNN.FuseCode.Relu "c",
        DNN.Layer.Relu "c" "y"],
    tensors :=
      [{ data_type := DNN.DataType.Float32, float32_data := [float_one], shape := [1, 1, 1, 1],
         name := "w_conv_w" }],
    inputs := [{ shape := [1, 4, 4, 1], name := "x" }] }

/-- The converter after the conversion of `convRelu`. -/
def convReluFinal : Converter (List (String × Shape)) :=
  { name_map_ := [],
    onnx_tensors_ := [("w", { data := [float_one], shape := [1, 1, 1, 1] })],
    nnapi_tensors_ := [("w_conv_w", { data := [float_one], shape := [1, 1, 1, 1] })],
    operands_ := ["w"],
    shaper_ :=
      [("y", [1, 4, 4, 1]), ("c", [1, 4, 4, 1]), ("w_conv_w", [1, 1, 1, 1]), ("x", [1, 4, 4, 1])],
    layers_ := convReluModel.layers,
    tensors_ := convReluModel.tensors }

/-- A Relu `A`, two consecutive Dropout nodes, and a Relu `B` reading the
output of the second Dropout. -/
def dropoutChain : ModelProto :=
  { graph :=
    { node :=
        [ { name := "A", op_type := "Relu", input := ["x"], output := ["a"] },
          { name := "drop1", op_type := "Dropout", input := ["a"], output := ["d1"] },
          { name := "drop2", op_type := "Dropout", input := ["d1"], output := ["d2"] },
          { name := "B", op_type := "Relu", input := ["d2"], output := ["y"] } ],
      input :=
        [ { name := "x",
            dim := [Dimension.kDimValue 1, Dimension.kDimValue 1, Dimension.kDimValue 4,
              Dimension.kDimValue 4] } ] } }

/-- The model written for `dropoutChain`. -/
def dropoutChainModel : DNN.Model :=
  { layers := [DNN.Layer.Relu "x" "a", DNN.Layer.Relu "a" "y"],
    tensors := [],
    inputs := [{ shape := [1, 4, 4, 1], name := "x" }] }

/-- The converter after the conversion of `dropoutChain`. -/
def dropoutChainFinal : Converter (List (String × Shape)) :=
  { name_map_ := [("d2", "a"), ("d1", "a")],
    onnx_tensors_ := [],
    nnapi_tensors_ := [],
    operands_ := [],
    shaper_ := [("y", [1, 4, 4, 1]), ("a", [1, 4, 4, 1]), ("x", [1, 4, 4, 1])],
    layers_ := dropoutChainModel.layers,
    tensors_ := [] }

/-- A 1x1 convolution whose output is read by two Relu nodes. -/
def convTwoRelu : ModelProto :=
  { graph :=
    { node :=
        [ { name := "conv1", op_type := "Conv", input := ["x", "w"], output := ["c"] },
          { name := "relu1", op_type := "Relu", input := ["c"], output := ["y1"] },
          { name := "relu2", op_type := "Relu", input := ["c"], output := ["y2"] } ],
      initializer :=
        [ { name := "w", data_type := 1, dims := [1, 1, 1, 1], float_data := [float_one] } ],
      input :=
        [ { name := "x",
            dim := [Dimension.kDimValue 1, Dimension.kDimValue 1, Dimension.kDimValue 4,
              Dimension.kDimValue 4] } ] } }

/-- The model written for `convTwoRelu`. -/
def convTwoReluModel : DNN.Model :=
  { layers :=
      [DNN.Layer.Conv2D "x" "w_conv_w" none [0, 0, 0, 0] [1, 1] DNN.FuseCode.None "c",
        DNN.Layer.Relu "c" "y1", DNN.Layer.Relu "c" "y2"],
    tensors :=
      [{ data_type := DNN.DataType.Float32, float32_data := [float_one], shape := [1, 1, 1, 1],
         name := "w_conv_w" }],
    inputs := [{ shape := [1, 4, 4, 1], name := "x" }] }

/-- The converter after the conversion of `convTwoRelu`. -/
def convTwoReluFinal : Converter (List (String × Shape)) :=
  { name_map_ := [],
    onnx_tensors_ := [("w", { data := [float_one], shape := [1, 1, 1, 1] })],
    nnapi_tensors_ := [("w_conv_w", { data := [float_one], shape := [1, 1, 1, 1] })],
    operands_ := ["w"],
    shaper_ :=
      [("y2", [1, 4, 4, 1]), ("y1", [1, 4, 4, 1]), ("c", [1, 4, 4, 1]),
        ("w_conv_w", [1, 1, 1, 1]), ("x", [1, 4, 4, 1])],
    layers_ := convTwoReluModel.layers,
    tensors_ := convTwoReluModel.tensors }

/-- A converter that has ingested a depthwise 1x1 weight `w` of dims
`[4, 1, 1, 1]` (second dimension 1) and a 7x7 graph input `x` with two
channels. -/
def readyDw : Converter (List (String × Shape)) :=
  { Reference.fresh with
    onnx_tensors_ := [("w", { data := List.replicate 4 float_one, shape := [4, 1, 1, 1] })],
    operands_ := ["w"],
    shaper_ := [("x", [1, 7, 7, 2])] }

/-- A converter whose shape table knows two operands `a` and `b` that differ
in dimension 1 only. -/
def readyConcat : Converter (List (String × Shape)) :=
  { Reference.fresh with shaper_ := [("b", [1, 3, 4, 4]), ("a", [1, 2, 4, 4])] }

/-- A Concat of `a` and `b` along the source axis 1. -/
def concatNode : NodeProto :=
  { name := "cat", op_type := "Concat", input := ["a", "b"], output := ["y"],
    attrs := [{ name := "axis", i := 1 }] }

/-- A converter that has ingested a 2x3 weight `w`, a bias `b` of two entries
and an input `x` of shape `[1, 3]`. -/
def readyGemm : Converter (List (String × Shape)) :=
  { Reference.fresh with
    onnx_tensors_ :=
      [("b", { data := List.replicate 2 float_one, shape := [2] }),
        ("w", { data := List.replicate 6 float_one, shape := [2, 3] })],
    operands_ := ["w", "b"],
    shaper_ := [("x", [1, 3])] }

/-- A Gemm in the supported orientation: `transB = 1`, the other attributes
at their defaults. -/
def gemmNode : NodeProto :=
  { name := "fc", op_type := "Gemm", input := ["x", "w", "b"], output := ["y"],
    attrs := [{ name := "transB", i := 1 }] }

/-- A Gemm without attributes, hence with `transB = 0`. -/
def gemmPlain : NodeProto :=
  { name := "fc", op_type := "Gemm", input := ["x", "w", "b"], output := ["y"] }

/-- A MaxPool that carries an `auto_pad` attribute. -/
def poolAutoPad : NodeProto :=
  { name := "pool", op_type := "MaxPool", input := ["x"], output := ["y"],
    attrs := [{ name := "kernel_shape", ints := [2, 2] }, { name := "auto_pad" }] }

/-- A GlobalAveragePool that carries attributes of a windowed pool. -/
def globalPool : NodeProto :=
  { name := "gap", op_type := "GlobalAveragePool", input := ["x"], output := ["y"],
    attrs :=
      [{ name := "kernel_shape", ints := [2, 2] }, { name := "strides", ints := [2, 2] },
        { name := "pads", ints := [1, 1, 1, 1] }, { name := "count_include_pad", i := 1 }] }

/-- A graph without nodes that declares three graph inputs, the second of
which is also an initializer. -/
def threeInputs : ModelProto :=
  { graph :=
    { node := [],
      initializer :=
        [ { name := "w", data_type := 1, dims := [1, 1, 1, 1], float_data := [float_one] } ],
      input :=
        [ { name := "x",
            dim := [Dimension.kDimValue 1, Dimension.kDimValue 3, Dimension.kDimValue 4,
              Dimension.kDimValue 5] },
          { name := "w",
            dim := [Dimension.kDimValue 1, Dimension.kDimValue 1, Dimension.kDimValue 1,
              Dimension.kDimValue 1] },
          { name := "z",
            dim := [Dimension.kDimValue 2, Dimension.kDimValue 6, Dimension.kDimValue 8,
              Dimension.kDimValue 9] } ] } }

/-- The converter after the conversion of `threeInputs`. -/
def threeInputsFinal : Converter (List (String × Shape)) :=
  { Reference.fresh with
    onnx_tensors_ := [("w", { data := [float_one], shape := [1, 1, 1, 1] })],
    operands_ := ["w"],
    shaper_ := [("z", [2, 8, 9, 6]), ("x", [1, 4, 5, 3])] }

/-- A graph whose only declared graph input, `w`, is also an initializer and
has a symbolic first dimension. -/
def symbolicWeight : ModelProto :=
  { graph :=
    { node := [],
      initializer :=
        [ { name := "w", data_type := 1, dims := [1, 1, 1, 1], float_data := [float_one] } ],
      input :=
        [ { name := "w",
            dim := [Dimension.kDimParam "N", Dimension.kDimValue 1, Dimension.kDimValue 1,
              Dimension.kDimValue 1] } ] } }

/-- The converter after the conversion of `symbolicWeight`. -/
def symbolicWeightFinal : Converter (List (String × Shape)) :=
  { Reference.fresh with
    onnx_tensors_ := [("w", { data := [float_one], shape := [1, 1, 1, 1] })],
    operands_ := ["w"] }

/-- A graph whose declared graph input `x`, not an initializer, has a symbolic
first dimension. -/
def symbolicInput : ModelProto :=
  { graph :=
    { node := [ { name := "relu1", op_type := "Relu", input := ["x"], output := ["y"] } ],
      initializer :=
        [ { name := "w", data_type := 1, dims := [1, 1, 1, 1], float_data := [float_one] } ],
      input :=
        [ { name := "x",
            dim := [Dimension.kDimParam "N", Dimension.kDimValue 3, Dimension.kDimValue 4,
              Dimension.kDimValue 4] } ] } }

/-- Two Dropout nodes, the second of which writes the operand `a` that the
first one reads. -/
def dropoutRewrite : ModelProto :=
  { graph :=
    { node :=
        [ { name := "drop1", op_type := "Dropout", input := ["a"], output := ["b"] },
          { name := "drop2", op_type := "Dropout", input := ["c"], output := ["a"] } ] } }

/-- Two dilated 1x1 convolutions, with different dilations, that read the same
graph input `x`. -/
def twoDilated : ModelProto :=
  { graph :=
    { node :=
        [ { name := "conv1", op_type := "Conv", input := ["x", "w1"], output := ["c1"],
            attrs := [{ name := "dilations", ints := [2, 2] }] },
          { name := "conv2", op_type := "Conv", input := ["x", "w2"], output := ["c2"],
            attrs := [{ name := "dilations", ints := [4, 4] }] } ],
      initializer :=
        [ { name := "w1", data_type := 1, dims := [1, 1, 1, 1], float_data := [float_one] },
          { name := "w2", data_type := 1, dims := [1, 1, 1, 1], float_data := [float_one] } ],
      input :=
        [ { name := "x",
            dim := [Dimension.kDimValue 1, Dimension.kDimValue 1, Dimension.kDimValue 4,
              Dimension.kDimValue 4] } ] } }

/-- The model written for `twoDilated`. -/
def twoDilatedModel : DNN.Model :=
  { layers :=
      [DNN.Layer.SpaceToBatch "x" [2, 2] [0, 0, 0, 0] "x_s2b",
        DNN.Layer.Conv2D "x_s2b" "w1_conv_w" none [0, 0, 0, 0] [1, 1] DNN.FuseCode.None
          "x_conv_imm",
        DNN.Layer.BatchToSpace "x_conv_imm" [2, 2] "x_b2s",
        DNN.Layer.StridedSlice "x_b2s" [0, 0, 0, 0] [1, 4, 4, 1] [1, 1, 1, 1] 0 0 0 "c1",
        DNN.Layer.SpaceToBatch "x" [4, 4] [0, 0, 0, 0] "x_s2b",
        DNN.Layer.Conv2D "x_s2b" "w2_conv_w" none [0, 0, 0, 0] [1, 1] DNN.FuseCode.None
          "x_conv_imm",
        DNN.Layer.BatchToSpace "x_conv_imm" [4, 4] "x_b2s",
        DNN.Layer.StridedSlice "x_b2s" [0, 0, 0, 0] [1, 4, 4, 1] [1, 1, 1, 1] 0 0 0 "c2"],
    tensors :=
      [{ data_type := DNN.DataType.Float32, float32_data := [float_one], shape := [1, 1, 1, 1],
         name := "w1_conv_w" },
        { data_type := DNN.DataType.Float32, float32_data := [float_one], shape := [1, 1, 1, 1],
          name := "w2_conv_w" }],
    inputs := [{ shape := [1, 4, 4, 1], name := "x" }] }

/-- The converter after the conversion of `twoDilated`. -/
def twoDilatedFinal : Converter (List (String × Shape)) :=
  { name_map_ := [],
    onnx_tensors_ :=
      [("w2", { data := [float_one], shape := [1, 1, 1, 1] }),
        ("w1", { data := [float_one], shape := [1, 1, 1, 1] })],
    nnapi_tensors_ :=
      [("w2_conv_w", { data := [float_one], shape := [1, 1, 1, 1] }),
        ("w1_conv_w", { data := [float_one], shape := [1, 1, 1, 1] })],
    operands_ := ["w1", "w2"],
    shaper_ :=
      [("c2", [1, 4, 4, 1]), ("x_b2s", [1, 4, 4, 1]), ("x_conv_imm", [16, 1, 1, 1]),
        ("w2_conv_w", [1, 1, 1, 1]), ("x_s2b", [16, 1, 1, 1]), ("c1", [1, 4, 4, 1]),
        ("x_b2s", [1, 4, 4, 1]), ("x_conv_imm", [4, 2, 2, 1]), ("w1_conv_w", [1, 1, 1, 1]),
        ("x_s2b", [4, 2, 2, 1]), ("x", [1, 4, 4, 1])],
    layers_ := twoDilatedModel.layers,
    tensors_ := twoDilatedModel.tensors }

/-- A Dropout that aliases the operand `d` to the graph input `input`, followed
by a Concat that reads `d`; `d` is declared as a graph input as well, so the
shape table knows it. -/
def concatAlias : ModelProto :=
  { graph :=
    { node :=
        [ { name := "drop", op_type := "Dropout", input := ["input"], output := ["d"] },
          { name := "cat", op_type := "Concat", input := ["d", "y"], output := ["out"],
            attrs := [{ name := "axis", i := 1 }] } ],
      input :=
        [ { name := "input",
            dim := [Dimension.kDimValue 1, Dimension.kDimValue 4, Dimension.kDimValue 2,
              Dimension.kDimValue 4] },
          { name := "d",
            dim := [Dimension.kDimValue 1, Dimension.kDimValue 4, Dimension.kDimValue 2,
              Dimension.kDimValue 4] },
          { name := "y",
            dim := [Dimension.kDimValue 1, Dimension.kDimValue 4, Dimension.kDimValue 3,
              Dimension.kDimValue 4] } ] } }

/-- The model written for `concatAlias`. -/
def concatAliasModel : DNN.Model :=
  { layers := [DNN.Layer.Concat ["i", "y"] 3 "out"],
    tensors := [],
    inputs :=
      [{ shape := [1, 2, 4, 4], name := "input" }, { shape := [1, 2, 4, 4], name := "d" },
        { shape := [1, 3, 4, 4], name := "y" }] }

/-- The converter after the conversion of `concatAlias`. -/
def concatAliasFinal : Converter (List (String × Shape)) :=
  { Reference.fresh with
    name_map_ := [("d", "input")],
    shaper_ :=
      [("out", [1, 5, 4, 4]), ("y", [1, 3, 4, 4]), ("d", [1, 2, 4, 4]),
        ("input", [1, 2, 4, 4])],
    layers_ := concatAliasModel.layers }

/-- A Conv node whose `group` attribute is -1. -/
def convGroupNeg : NodeProto :=
  { name := "conv", op_type := "Conv", input := ["x", "w"], output := ["c"],
    attrs := [{ name := "group", i := -1 }] }

/-- A Conv node whose `group` attribute is 0. -/
def convGroupZero : NodeProto :=
  { name := "conv", op_type := "Conv", input := ["x", "w"], output := ["c"],
    attrs := [{ name := "group", i := 0 }] }

end Sample

/-! # Theorems -/

/-! ## Running `Exec` -/

@[simp] theorem pure_run {S α : Type} (a : α) (s : S) :
    (pure a : Exec S α) s = Outcome.ok a s := rfl

@[simp] theorem raise_run {S α : Type} (what : String) (s : S) :
    (raise what : Exec S α) s = Outcome.throw what s := rfl

@[simp] theorem getState_run {S : Type} (s : S) :
    (getState : Exec S S) s = Outcome.ok s s := rfl

@[simp] theorem modifyState_run {S : Type} (f : S → S) (s : S) :
    modifyState f s = Outcome.ok () (f s) := rfl

theorem bind_run {S α β : Type} (x : Exec S α) (f : α → Exec S β) (s : S) :
    (x >>= f) s =
      match x s with
      | Outcome.ok a s1 => f a s1
      | Outcome.throw e s1 => Outcome.throw e s1 := rfl

theorem bind_run_ok {S α β : Type} {x : Exec S α} {f : α → Exec S β} {s s1 : S} {a : α}
    (h : x s = Outcome.ok a s1) : (x >>= f) s = f a s1 := by
  rw [bind_run, h]

theorem bind_run_throw {S α β : Type} {x : Exec S α} {f : α → Exec S β} {s s1 : S}
    {e : String} (h : x s = Outcome.throw e s1) : (x >>= f) s = Outcome.throw e s1 := by
  rw [bind_run, h]

theorem fails_bind_of_fails {S α β : Type} {x : Exec S α} (f : α → Exec S β) {s : S}
    (h : (x s).fails) : ((x >>= f) s).fails := by
  rw [bind_run]
  cases hx : x s with
  | ok a s1 => rw [hx] at h; exact h.elim
  | throw e s1 => trivial

@[simp] theorem fails_throw {S α : Type} (e : String) (s : S) :
    (Outcome.throw e s : Outcome S α).fails := trivial

@[simp] theorem not_fails_ok {S α : Type} (a : α) (s : S) :
    ¬ (Outcome.ok a s : Outcome S α).fails := fun h => h

/-! ## Laws of `Exec` and of the primitive steps -/

theorem bind_eq_ok {S α β : Type} (x : Exec S α) (f : α → Exec S β) (s s2 : S) (b : β) :
    (x >>= f) s = Outcome.ok b s2 ↔ ∃ a s1, x s = Outcome.ok a s1 ∧ f a s1 = Outcome.ok b s2 := by
  rw [bind_run]
  cases hx : x s with
  | ok a s1 =>
    constructor
    · intro h
      exact ⟨a, s1, rfl, h⟩
    · rintro ⟨a2, s3, h1, h2⟩
      cases h1
      exact h2
  | throw e s1 =>
    constructor
    · intro h
      cases h
    · rintro ⟨a2, s3, h1, _⟩
      cases h1

theorem raise_bind {S α β : Type} (e : String) (f : α → Exec S β) :
    (raise e >>= f) = raise e := rfl

theorem modifyState_bind_run {S β : Type} (g : S → S) (f : Unit → Exec S β) (s : S) :
    (modifyState g >>= f) s = f () (g s) := rfl

theorem getState_bind_run {S β : Type} (f : S → Exec S β) (s : S) :
    (getState >>= f) s = f s s := rfl

theorem resolve_run {σ : Type} (str : String) (s : Converter σ) :
    resolve str s = Outcome.ok (m s.name_map_ str) s := rfl

theorem resolve_bind_run {σ β : Type} (str : String) (f : String → Exec (Converter σ) β)
    (s : Converter σ) : (resolve str >>= f) s = f (m s.name_map_ str) s := rfl

theorem pushLayer_run {σ : Type} (layer : DNN.Layer) (s : Converter σ) :
    pushLayer layer s = Outcome.ok () { s with layers_ := s.layers_ ++ [layer] } := rfl

theorem pushLayer_bind_run {σ β : Type} (layer : DNN.Layer) (f : Unit → Exec (Converter σ) β)
    (s : Converter σ) :
    (pushLayer layer >>= f) s = f () { s with layers_ := s.layers_ ++ [layer] } := rfl

theorem pushTensor_bind_run {σ β : Type} (t : DNN.Tensor) (f : Unit → Exec (Converter σ) β)
    (s : Converter σ) :
    (pushTensor t >>= f) s = f () { s with tensors_ := s.tensors_ ++ [t] } := rfl

theorem setNnapiTensor_bind_run {σ β : Type} (name : String) (t : FTensor)
    (f : Unit → Exec (Converter σ) β) (s : Converter σ) :
    (setNnapiTensor name t >>= f) s =
      f () { s with nnapi_tensors_ := (name, t) :: s.nnapi_tensors_ } := rfl

theorem at__run {S α : Type} (xs : List α) (i : Nat) (s : S) :
    (at_ xs i : Exec S α) s =
      match xs.get? i with
      | some a => Outcome.ok a s
      | none => Outcome.throw "index out of range" s := by
  unfold at_
  cases xs.get? i <;> rfl

theorem at__bind_run {S α β : Type} (xs : List α) (i : Nat) (f : α → Exec S β) (s : S) :
    (at_ xs i >>= f) s =
      match xs.get? i with
      | some a => f a s
      | none => Outcome.throw "index out of range" s := by
  rw [bind_run, at__run]
  cases xs.get? i <;> rfl

theorem defined_bind_run {S α β : Type} (x : Option α) (f : α → Exec S β) (s : S) :
    (defined x >>= f) s =
      match x with
      | some a => f a s
      | none => Outcome.throw "undefined behaviour" s := by
  cases x <;> rfl

theorem shaperAt_bind_run {σ β : Type} (env : Env σ) (name : String)
    (f : Shape → Exec (Converter σ) β) (s : Converter σ) :
    (shaperAt env name >>= f) s =
      match env.shaper.get s.shaper_ name with
      | Except.ok shape => f shape s
      | Except.error e => Outcome.throw e s := by
  rw [bind_run]
  unfold shaperAt
  cases env.shaper.get s.shaper_ name <;> rfl

theorem onnxTensorAt_bind_run {σ β : Type} (name : String) (f : FTensor → Exec (Converter σ) β)
    (s : Converter σ) :
    (onnxTensorAt name >>= f) s =
      match s.onnx_tensors_.lookup name with
      | some t => f t s
      | none => Outcome.throw "key not found" s := by
  rw [bind_run]
  unfold onnxTensorAt
  cases s.onnx_tensors_.lookup name <;> rfl

theorem callShaper_run {σ : Type} (op : σ → Except String σ) (s : Converter σ) :
    callShaper op s =
      match op s.shaper_ with
      | Except.ok sh => Outcome.ok () { s with shaper_ := sh }
      | Except.error e => Outcome.throw e s := rfl

theorem callShaper_bind_run {σ β : Type} (op : σ → Except String σ)
    (f : Unit → Exec (Converter σ) β) (s : Converter σ) :
    (callShaper op >>= f) s =
      match op s.shaper_ with
      | Except.ok sh => f () { s with shaper_ := sh }
      | Except.error e => Outcome.throw e s := by
  rw [bind_run, callShaper_run]
  cases op s.shaper_ <;> rfl

theorem at__bind_eq_ok {S α β : Type} (xs : List α) (i : Nat) (f : α → Exec S β) (s s2 : S)
    (b : β) :
    (at_ xs i >>= f) s = Outcome.ok b s2 ↔
      ∃ a, xs.get? i = some a ∧ f a s = Outcome.ok b s2 := by
  rw [at__bind_run]
  cases xs.get? i <;> simp

theorem defined_bind_eq_ok {S α β : Type} (x : Option α) (f : α → Exec S β) (s s2 : S)
    (b : β) :
    (defined x >>= f) s = Outcome.ok b s2 ↔ ∃ a, x = some a ∧ f a s = Outcome.ok b s2 := by
  rw [defined_bind_run]
  cases x <;> simp

theorem shaperAt_bind_eq_ok {σ β : Type} (env : Env σ) (name : String)
    (f : Shape → Exec (Converter σ) β) (s s2 : Converter σ) (b : β) :
    (shaperAt env name >>= f) s = Outcome.ok b s2 ↔
      ∃ shape, env.shaper.get s.shaper_ name = Except.ok shape ∧ f shape s = Outcome.ok b s2 := by
  rw [shaperAt_bind_run]
  cases env.shaper.get s.shaper_ name <;> simp

theorem onnxTensorAt_bind_eq_ok {σ β : Type} (name : String)
    (f : FTensor → Exec (Converter σ) β) (s s2 : Converter σ) (b : β) :
    (onnxTensorAt name >>= f) s = Outcome.ok b s2 ↔
      ∃ t, s.onnx_tensors_.lookup name = some t ∧ f t s = Outcome.ok b s2 := by
  rw [onnxTensorAt_bind_run]
  cases s.onnx_tensors_.lookup name <;> simp

theorem callShaper_bind_eq_ok {σ β : Type} (op : σ → Except String σ)
    (f : Unit → Exec (Converter σ) β) (s s2 : Converter σ) (b : β) :
    (callShaper op >>= f) s = Outcome.ok b s2 ↔
      ∃ sh, op s.shaper_ = Except.ok sh ∧ f () { s with shaper_ := sh } = Outcome.ok b s2 := by
  rw [callShaper_bind_run]
  cases op s.shaper_ <;> simp

theorem callShaper_eq_ok {σ : Type} (op : σ → Except String σ) (u : Unit)
    (s s2 : Converter σ) :
    callShaper op s = Outcome.ok u s2 ↔
      ∃ sh, op s.shaper_ = Except.ok sh ∧ s2 = { s with shaper_ := sh } := by
  rw [callShaper_run]
  cases op s.shaper_ <;> simp [eq_comm]

/-! ## `FindActivation` -/

theorem isActivationOf_iff (p r : NodeProto) : isActivationOf p r ↔ feedsRelu p r := by
  unfold isActivationOf feedsRelu
  cases hp : p.output <;> cases hr : r.input <;> simp
  tauto

theorem FindActivationLoop_found (p : NodeProto) (nodes : List NodeProto) (a : Option String) :
    FindActivationLoop p nodes (a, FuseCode.FUSED_RELU) =
      if nodes.filter (fun r => decide (feedsRelu p r)) = [] then (a, FuseCode.FUSED_RELU)
      else (none, FuseCode.FUSED_NONE) := by
  induction nodes with
  | nil => simp [FindActivationLoop]
  | cons r rest ih =>
    by_cases h : feedsRelu p r
    · simp [FindActivationLoop, isActivationOf_iff, h]
    · simp [FindActivationLoop, isActivationOf_iff, h, ih]

theorem FindActivationLoop_start (p : NodeProto) (nodes : List NodeProto) :
    FindActivationLoop p nodes (none, FuseCode.FUSED_NONE) =
      match nodes.filter (fun r => decide (feedsRelu p r)) with
      | [r] => (some r.name, FuseCode.FUSED_RELU)
      | _ => (none, FuseCode.FUSED_NONE) := by
  induction nodes with
  | nil => simp [FindActivationLoop]
  | cons r rest ih =>
    by_cases h : feedsRelu p r
    · simp only [FindActivationLoop, isActivationOf_iff, h, if_true, List.filter_cons,
        decide_True]
      simp only [ne_eq, not_true_eq_false, if_false, FindActivationLoop_found]
      cases hf : rest.filter (fun r => decide (feedsRelu p r)) <;> simp
    · simp [FindActivationLoop, isActivationOf_iff, h, ih]

/-- C2: `FindActivation` returns the name of `r` with fuse code Relu when
exactly one node `r` of the node list is a Relu whose first input is the first
output of `p`; it returns no name and fuse code None when no node matches,
when two or more match, and when `p` has no output. -/
theorem FindActivation_cases (model_proto : ModelProto) (p : NodeProto) :
    (∀ r, model_proto.graph.node.filter (fun r => decide (feedsRelu p r)) = [r] →
      FindActivation model_proto p = (some r.name, FuseCode.FUSED_RELU)) ∧
    (model_proto.graph.node.filter (fun r => decide (feedsRelu p r)) = [] →
      FindActivation model_proto p = (none, FuseCode.FUSED_NONE)) ∧
    (2 ≤ (model_proto.graph.node.filter (fun r => decide (feedsRelu p r))).length →
      FindActivation model_proto p = (none, FuseCode.FUSED_NONE)) ∧
    (p.output = [] → FindActivation model_proto p = (none, FuseCode.FUSED_NONE)) := by
  have key := FindActivationLoop_start p model_proto.graph.node
  refine ⟨?_, ?_, ?_, ?_⟩
  · intro r hr
    rw [FindActivation, key, hr]
  · intro h0
    rw [FindActivation, key, h0]
  · intro h2
    rw [FindActivation, key]
    cases hf : model_proto.graph.node.filter (fun r => decide (feedsRelu p r)) with
    | nil => rfl
    | cons a l =>
      cases l with
      | nil => rw [hf] at h2; simp at h2
      | cons b l => rfl
  · intro hp
    have h0 : model_proto.graph.node.filter (fun r => decide (feedsRelu p r)) = [] := by
      simp [feedsRelu, hp]
    rw [FindActivation, key, h0]

/-- Witness of C2 on `Sample.convRelu`: the convolution has exactly one
matching Relu, and a node without outputs has none. -/
theorem FindActivation_cases_witness :
    FindActivation Sample.convRelu
        { name := "conv1", op_type := "Conv", input := ["x", "w"], output := ["c"] } =
      (some "relu1", FuseCode.FUSED_RELU) ∧
    FindActivation Sample.convRelu
        { name := "sink", op_type := "Conv", input := ["x", "w"], output := [] } =
      (none, FuseCode.FUSED_NONE) :=
  ⟨(FindActivation_cases Sample.convRelu _).1
      { name := "relu1", op_type := "Relu", input := ["c"], output := ["y"] } (by decide),
   (FindActivation_cases Sample.convRelu _).2.2.2 rfl⟩

/-! ## The frame of a step -/

theorem Frame.refl {σ : Type} (s : Converter σ) : Frame s s :=
  ⟨rfl, rfl, rfl, List.prefix_refl _, List.prefix_refl _⟩

theorem Frame.trans {σ : Type} {s t u : Converter σ} (h1 : Frame s t) (h2 : Frame t u) :
    Frame s u :=
  ⟨h2.1.trans h1.1, h2.2.1.trans h1.2.1, h2.2.2.1.trans h1.2.2.1,
    h1.2.2.2.1.trans h2.2.2.2.1, h1.2.2.2.2.trans h2.2.2.2.2⟩

theorem keeps_pure {σ α : Type} (a : α) : Keeps Frame (pure a : Exec (Converter σ) α) :=
  fun s => Frame.refl s

theorem keeps_raise {σ α : Type} (e : String) : Keeps Frame (raise e : Exec (Converter σ) α) :=
  fun s => Frame.refl s

theorem keeps_bind {σ α β : Type} {x : Exec (Converter σ) α} {f : α → Exec (Converter σ) β}
    (hx : Keeps Frame x) (hf : ∀ a, Keeps Frame (f a)) : Keeps Frame (x >>= f) := by
  intro s
  have h1 := hx s
  rw [bind_run]
  cases hxs : x s with
  | ok a s1 =>
    rw [hxs] at h1
    exact Frame.trans h1 (hf a s1)
  | throw e s1 =>
    rw [hxs] at h1
    exact h1

theorem keeps_callShaper {σ : Type} (op : σ → Except String σ) :
    Keeps Frame (callShaper op) := by
  intro s
  rw [callShaper_run]
  cases op s.shaper_ <;> exact Frame.refl s

theorem keeps_shaperAt {σ : Type} (env : Env σ) (name : String) :
    Keeps Frame (shaperAt env name) := by
  intro s
  unfold shaperAt
  cases env.shaper.get s.shaper_ name <;> exact Frame.refl s

theorem keeps_onnxTensorAt {σ : Type} (name : String) :
    Keeps Frame (onnxTensorAt name : Exec (Converter σ) FTensor) := by
  intro s
  unfold onnxTensorAt
  cases s.onnx_tensors_.lookup name <;> exact Frame.refl s

theorem keeps_pushLayer {σ : Type} (l : DNN.Layer) :
    Keeps Frame (pushLayer l : Exec (Converter σ) Unit) :=
  fun _ => ⟨rfl, rfl, rfl, List.prefix_append _ _, List.prefix_refl _⟩

theorem keeps_pushTensor {σ : Type} (t : DNN.Tensor) :
    Keeps Frame (pushTensor t : Exec (Converter σ) Unit) :=
  fun _ => ⟨rfl, rfl, rfl, List.prefix_refl _, List.prefix_append _ _⟩

theorem keeps_setNnapiTensor {σ : Type} (name : String) (t : FTensor) :
    Keeps Frame (setNnapiTensor name t : Exec (Converter σ) Unit) :=
  fun s => Frame.refl s

theorem keeps_at_ {σ α : Type} (xs : List α) (i : Nat) :
    Keeps Frame (at_ xs i : Exec (Converter σ) α) := by
  intro s
  rw [at__run]
  cases xs.get? i <;> exact Frame.refl s

theorem keeps_defined {σ α : Type} (x : Option α) :
    Keeps Frame (defined x : Exec (Converter σ) α) := by
  intro s
  cases x <;> exact Frame.refl s

theorem keeps_resolve {σ : Type} (str : String) :
    Keeps Frame (resolve str : Exec (Converter σ) String) :=
  fun s => Frame.refl s

theorem keeps_getState {σ : Type} :
    Keeps Frame (getState : Exec (Converter σ) (Converter σ)) :=
  fun s => Frame.refl s

theorem keeps_m_input {σ : Type} (node : NodeProto) (i : Nat) :
    Keeps Frame (m_input node i : Exec (Converter σ) String) :=
  keeps_bind (keeps_at_ _ _) (fun _ => keeps_resolve _)

theorem keeps_m_output {σ : Type} (node : NodeProto) (i : Nat) :
    Keeps Frame (m_output node i : Exec (Converter σ) String) :=
  keeps_bind (keeps_at_ _ _) (fun _ => keeps_resolve _)

theorem AddConv_plain_keeps {σ : Type} (env : Env σ) (input_name : String)
    (strides pads : List Int) (group : Int) (activation : Option String × FuseCode)
    (ori_weight_name : String) (bias_name : Option String) (output_name : String) :
    Keeps Frame (AddConv env input_name strides pads [1, 1] group activation ori_weight_name
      bias_name output_name) := by
  rw [AddConv]
  simp only [ne_eq, not_true_eq_false, dite_false]
  repeat' first
    | exact keeps_pure _
    | exact keeps_raise _
    | exact keeps_callShaper _
    | exact keeps_onnxTensorAt _
    | exact keeps_pushLayer _
    | exact keeps_pushTensor _
    | exact keeps_setNnapiTensor _ _
    | exact keeps_at_ _ _
    | refine keeps_bind ?_ (fun _ => ?_)
    | split

theorem AddConv_keeps {σ : Type} (env : Env σ) (input_name : String)
    (strides pads dilations : List Int) (group : Int) (activation : Option String × FuseCode)
    (ori_weight_name : String) (bias_name : Option String) (output_name : String) :
    Keeps Frame (AddConv env input_name strides pads dilations group activation ori_weight_name
      bias_name output_name) := by
  by_cases hd : dilations = [1, 1]
  · subst hd
    exact AddConv_plain_keeps env _ _ _ _ _ _ _ _
  · rw [AddConv]
    simp only [ne_eq, hd, not_false_eq_true, dite_true]
    repeat' first
      | exact keeps_pure _
      | exact keeps_raise _
      | exact AddConv_plain_keeps _ _ _ _ _ _ _ _ _
      | exact keeps_callShaper _
      | exact keeps_shaperAt _ _
      | exact keeps_pushLayer _
      | exact keeps_defined _
      | refine keeps_bind ?_ (fun _ => ?_)
      | split

/-! ## `AddConv` -/

theorem AddConv_plain_eq_AddConvN {σ : Type} (env : Env σ) (depth : Nat) (input_name : String)
    (strides pads : List Int) (group : Int) (activation : Option String × FuseCode)
    (ori_weight_name : String) (bias_name : Option String) (output_name : String) :
    AddConv env input_name strides pads [1, 1] group activation ori_weight_name bias_name
        output_name =
      AddConvN env (depth + 1) input_name strides pads [1, 1] group activation ori_weight_name
        bias_name output_name := by
  rw [AddConv, AddConvN]
  simp only [ne_eq, not_true_eq_false, dite_false, if_false]

theorem AddConv_eq_AddConvN {σ : Type} (env : Env σ) (depth : Nat) (input_name : String)
    (strides pads dilations : List Int) (group : Int) (activation : Option String × FuseCode)
    (ori_weight_name : String) (bias_name : Option String) (output_name : String) :
    AddConv env input_name strides pads dilations group activation ori_weight_name bias_name
        output_name =
      AddConvN env (depth + 2) input_name strides pads dilations group activation
        ori_weight_name bias_name output_name := by
  by_cases hd : dilations = [1, 1]
  · subst hd
    exact AddConv_plain_eq_AddConvN env (depth + 1) _ _ _ _ _ _ _ _
  · rw [AddConv, AddConvN]
    simp only [ne_eq, hd, not_false_eq_true, dite_true, if_true,
      AddConv_plain_eq_AddConvN env depth]

theorem AddConv_bind_eq_ok {σ β : Type} (env : Env σ) (input_name : String)
    (strides pads dilations : List Int) (group : Int) (activation : Option String × FuseCode)
    (ori_weight_name : String) (bias_name : Option String) (output_name : String)
    (f : Unit → Exec (Converter σ) β) (s s2 : Converter σ) (b : β) :
    (AddConv env input_name strides pads dilations group activation ori_weight_name bias_name
        output_name >>= f) s = Outcome.ok b s2 ↔
      ∃ s1, AddConv env input_name strides pads dilations group activation ori_weight_name
        bias_name output_name s = Outcome.ok () s1 ∧ f () s1 = Outcome.ok b s2 := by
  rw [bind_eq_ok]
  constructor
  · rintro ⟨_, s1, h1, h2⟩
    exact ⟨s1, h1, h2⟩
  · rintro ⟨s1, h1, h2⟩
    exact ⟨(), s1, h1, h2⟩

/-- A successful `AddConv` without dilation: the weight is among the source
tensors, and the state is extended by one layer and one tensor, a Conv2D for
group 1 and a DepthwiseConv2D otherwise. -/
theorem AddConv_plain_ok {σ : Type} (env : Env σ) (input_name : String)
    (strides pads : List Int) (group : Int) (activation : Option String × FuseCode)
    (ori_weight_name : String) (bias_name : Option String) (output_name : String)
    (ctx s : Converter σ)
    (h : AddConv env input_name strides pads [1, 1] group activation ori_weight_name
      bias_name output_name ctx = Outcome.ok () s) :
    ∃ onnx_weight sh,
      ctx.onnx_tensors_.lookup ori_weight_name = some onnx_weight ∧
      ((group = 1 ∧
        s = ctx.extend sh [(ori_weight_name ++ "_conv_w", env.OnnxToNnapiVanilla onnx_weight)]
          [DNN.Layer.Conv2D input_name (ori_weight_name ++ "_conv_w")
            bias_name pads strides (ConvertFuseCodeType activation.2) output_name]
          [CreateTensorDirect (env.OnnxToNnapiVanilla onnx_weight)
            (ori_weight_name ++ "_conv_w")]) ∨
      (group ≠ 1 ∧ onnx_weight.shape.get? 1 = some 1 ∧ u32 group ≠ 0 ∧
        ∃ weight_shape3, (env.OnnxToNnapiDw onnx_weight).shape.get? 3 = some weight_shape3 ∧
        s = ctx.extend sh [(ori_weight_name ++ "_dwconv_w", env.OnnxToNnapiDw onnx_weight)]
          [DNN.Layer.DepthwiseConv2D input_name (ori_weight_name ++ "_dwconv_w")
            bias_name pads strides (weight_shape3 / u32 group)
            (ConvertFuseCodeType activation.2) output_name]
          [CreateTensorDirect (env.OnnxToNnapiDw onnx_weight)
            (ori_weight_name ++ "_dwconv_w")])) := by
  rw [AddConv] at h
  simp only [ne_eq, not_true_eq_false, dite_false] at h
  by_cases hg : group = 1
  · simp only [hg, if_true, bind_assoc, pure_bind,
      onnxTensorAt_bind_eq_ok, callShaper_bind_eq_ok, at__bind_eq_ok, setNnapiTensor_bind_run,
      pushTensor_bind_run, pushLayer_run, Outcome.ok.injEq, true_and] at h
    obtain ⟨w, hw, sh1, _, a1, _, a0, _, a2, _, a3, _, b0, _, b1, _, sh2, _, rfl⟩ := h
    exact ⟨w, sh2, hw, Or.inl ⟨hg, rfl⟩⟩
  · simp only [hg, if_false, bind_assoc, onnxTensorAt_bind_eq_ok, at__bind_eq_ok] at h
    obtain ⟨w, hw, d, hd1, h⟩ := h
    by_cases hd : d = 1
    · subst hd
      by_cases hz : u32 group = 0
      · simp only [if_true, bind_assoc, pure_bind, callShaper_bind_eq_ok, at__bind_eq_ok,
          setNnapiTensor_bind_run, hz, raise_bind, raise_run] at h
        obtain ⟨sh1, _, a1, _, a0, _, a2, _, a3, _, b0, _, b1, _, sh2, _, s3, _, h⟩ := h
        cases h
      · simp only [if_true, bind_assoc, pure_bind, callShaper_bind_eq_ok, at__bind_eq_ok,
          setNnapiTensor_bind_run, hz, if_false, pushTensor_bind_run, pushLayer_run,
          Outcome.ok.injEq, true_and] at h
        obtain ⟨sh1, _, a1, _, a0, _, a2, _, a3, _, b0, _, b1, _, sh2, _, s3, hs3, rfl⟩ := h
        exact ⟨w, sh2, hw, Or.inr ⟨hg, hd1, hz, s3, hs3, rfl⟩⟩
    · simp only [hd, if_false, raise_bind, raise_run] at h
      cases h


/-- A successful `AddConv` with dilation: strides are `(1,1)`, and the state is
extended by SpaceToBatch, the layer and tensor of the undilated convolution on
the intermediate operand, BatchToSpace and StridedSlice, in this order. -/
theorem AddConv_dilated_ok {σ : Type} (env : Env σ) (input_name : String)
    (strides pads dilations : List Int) (group : Int) (activation : Option String × FuseCode)
    (ori_weight_name : String) (bias_name : Option String) (output_name : String)
    (ctx s : Converter σ) (hd : dilations ≠ [1, 1])
    (h : AddConv env input_name strides pads dilations group activation ori_weight_name
      bias_name output_name ctx = Outcome.ok () s) :
    strides = [1, 1] ∧
    ∃ input_shape new_pads_ sh1 s2 sh3 b2s_shape ends_ sh4,
      env.shaper.get ctx.shaper_ input_name = Except.ok input_shape ∧
      new_pads input_shape pads dilations = some new_pads_ ∧
      AddConv env (input_name ++ "_s2b") strides [0, 0, 0, 0] [1, 1] group activation
        ori_weight_name bias_name (input_name ++ "_conv_imm")
        (ctx.extend sh1 []
          [DNN.Layer.SpaceToBatch input_name dilations new_pads_ (input_name ++ "_s2b")] []) =
        Outcome.ok () s2 ∧
      env.shaper.BatchToSpace s2.shaper_ (input_name ++ "_conv_imm") dilations
        (input_name ++ "_b2s") = Except.ok sh3 ∧
      env.shaper.get sh3 (input_name ++ "_b2s") = Except.ok b2s_shape ∧
      ends b2s_shape new_pads_ pads = some ends_ ∧
      s = s2.extend sh4 []
        [DNN.Layer.BatchToSpace (input_name ++ "_conv_imm") dilations (input_name ++ "_b2s"),
          DNN.Layer.StridedSlice (input_name ++ "_b2s") [0, 0, 0, 0] ends_ [1, 1, 1, 1] 0 0 0
            output_name] [] := by
  rw [AddConv] at h
  simp only [ne_eq, hd, not_false_eq_true, dite_true] at h
  by_cases hs : strides = [1, 1]
  · subst hs
    refine ⟨rfl, ?_⟩
    simp only [not_true_eq_false, if_false, pure_bind, shaperAt_bind_eq_ok,
      defined_bind_eq_ok, callShaper_bind_eq_ok, pushLayer_bind_run, AddConv_bind_eq_ok,
      callShaper_eq_ok, pushLayer_run, Outcome.ok.injEq, true_and] at h
    obtain ⟨input_shape, h1, np, h2, sh1, _, s2, h4, sh3, h5, b2s_shape, h6, e, h7, sh4, _,
      rfl⟩ := h
    refine ⟨input_shape, np, sh1, s2, sh3, b2s_shape, e, sh4, h1, h2, ?_, h5, h6, h7, ?_⟩
    · simpa [Converter.extend] using h4
    · simp [Converter.extend]
  · simp only [hs, not_false_eq_true, if_true, raise_bind, raise_run] at h
    cases h

theorem fails_of_not_ok {S α : Type} {o : Outcome S α} (h : ∀ a s, o ≠ Outcome.ok a s) :
    o.fails := by
  cases o with
  | ok a s => exact (h a s rfl).elim
  | throw e s => trivial

theorem AddConv_plain_grouped_throws {σ : Type} (env : Env σ) (input_name : String)
    (strides pads : List Int) (group : Int) (activation : Option String × FuseCode)
    (ori_weight_name : String) (bias_name : Option String) (output_name : String)
    (ctx : Converter σ) (hg : 1 < group)
    (hw : ∀ t, ctx.onnx_tensors_.lookup ori_weight_name = some t → t.shape.get? 1 ≠ some 1) :
    (AddConv env input_name strides pads [1, 1] group activation ori_weight_name bias_name
      output_name ctx).fails := by
  apply fails_of_not_ok
  intro u s h
  obtain ⟨w, sh, hlook, hcase⟩ := AddConv_plain_ok env _ _ _ _ _ _ _ _ ctx s h
  rcases hcase with ⟨h1, _⟩ | ⟨_, h1, _⟩
  · omega
  · exact hw w hlook h1

theorem AddConv_grouped_throws {σ : Type} (env : Env σ) (input_name : String)
    (strides pads dilations : List Int) (group : Int) (activation : Option String × FuseCode)
    (ori_weight_name : String) (bias_name : Option String) (output_name : String)
    (ctx : Converter σ) (hg : 1 < group)
    (hw : ∀ t, ctx.onnx_tensors_.lookup ori_weight_name = some t → t.shape.get? 1 ≠ some 1) :
    (AddConv env input_name strides pads dilations group activation ori_weight_name bias_name
      output_name ctx).fails := by
  by_cases hd : dilations = [1, 1]
  · subst hd
    exact AddConv_plain_grouped_throws env _ _ _ _ _ _ _ _ ctx hg hw
  · apply fails_of_not_ok
    intro u s h
    obtain ⟨_, _, np, sh1, s2, _, _, _, _, _, _, h3, _⟩ :=
      AddConv_dilated_ok env _ _ _ _ _ _ _ _ _ ctx s hd h
    have hf := AddConv_plain_grouped_throws env (input_name ++ "_s2b") strides [0, 0, 0, 0] group
      activation ori_weight_name bias_name (input_name ++ "_conv_imm")
      (ctx.extend sh1 [] [DNN.Layer.SpaceToBatch input_name dilations np (input_name ++ "_s2b")]
        []) hg hw
    rw [h3] at hf
    exact hf

/-- C8: with dilations other than `(1,1)` and strides other than `(1,1)`,
`AddConv` throws at its first statement, in an unchanged converter state (no
layer or tensor appended, shape table untouched).  With strides `(1,1)` the
run goes past this check: a failure of the shape lookup on the next line is
what `AddConv` throws, and once the shape service has accepted SpaceToBatch
the SpaceToBatch layer is in the layer list. -/
theorem AddConv_dilation_with_stride {σ : Type} (env : Env σ) (input_name : String)
    (strides pads dilations : List Int) (group : Int) (activation : Option String × FuseCode)
    (ori_weight_name : String) (bias_name : Option String) (output_name : String)
    (ctx : Converter σ) (hd : dilations ≠ [1, 1]) :
    (strides ≠ [1, 1] →
      AddConv env input_name strides pads dilations group activation ori_weight_name bias_name
        output_name ctx =
        Outcome.throw "Both dilations and strides > 1 is not supported for now" ctx) ∧
    (strides = [1, 1] →
      (∀ e, env.shaper.get ctx.shaper_ input_name = Except.error e →
        AddConv env input_name strides pads dilations group activation ori_weight_name
          bias_name output_name ctx = Outcome.throw e ctx) ∧
      (∀ input_shape new_pads_ sh1,
        env.shaper.get ctx.shaper_ input_name = Except.ok input_shape →
        new_pads input_shape pads dilations = some new_pads_ →
        env.shaper.SpaceToBatch ctx.shaper_ input_name dilations new_pads_
          (input_name ++ "_s2b") = Except.ok sh1 →
        ctx.layers_ ++
            [DNN.Layer.SpaceToBatch input_name dilations new_pads_ (input_name ++ "_s2b")] <+:
          (AddConv env input_name strides pads dilations group activation ori_weight_name
            bias_name output_name ctx).state.layers_)) := by
  refine ⟨?_, ?_⟩
  · intro hs
    rw [AddConv]
    simp only [ne_eq, hd, not_false_eq_true, dite_true, hs, if_true, raise_bind, raise_run]
  · intro hs
    refine ⟨?_, ?_⟩
    · intro e he
      rw [AddConv]
      simp only [ne_eq, hd, not_false_eq_true, dite_true, hs, not_true_eq_false, if_false,
        pure_bind, shaperAt_bind_run, he]
    · intro input_shape np sh1 h1 h2 h3
      rw [AddConv]
      simp only [ne_eq, hd, not_false_eq_true, dite_true, hs, not_true_eq_false, if_false,
        pure_bind, shaperAt_bind_run, h1, defined_bind_run, h2, callShaper_bind_run, h3,
        pushLayer_bind_run]
      have hk : Keeps Frame
          (AddConv env (input_name ++ "_s2b") [1, 1] [0, 0, 0, 0] [1, 1] group activation
            ori_weight_name bias_name (input_name ++ "_conv_imm") >>= fun _ =>
            callShaper (fun sh => env.shaper.BatchToSpace sh (input_name ++ "_conv_imm")
              dilations (input_name ++ "_b2s")) >>= fun _ =>
            pushLayer (DNN.Layer.BatchToSpace (input_name ++ "_conv_imm") dilations
              (input_name ++ "_b2s")) >>= fun _ =>
            shaperAt env (input_name ++ "_b2s") >>= fun b2s_shape =>
            defined (ends b2s_shape np pads) >>= fun ends_ =>
            callShaper (fun sh => env.shaper.StridedSlice sh (input_name ++ "_b2s") [0, 0, 0, 0]
              ends_ [1, 1, 1, 1] 0 0 0 output_name) >>= fun _ =>
            pushLayer (DNN.Layer.StridedSlice (input_name ++ "_b2s") [0, 0, 0, 0] ends_
              [1, 1, 1, 1] 0 0 0 output_name)) := by
        repeat' first
          | exact keeps_pure _
          | exact AddConv_plain_keeps _ _ _ _ _ _ _ _ _
          | exact keeps_callShaper _
          | exact keeps_shaperAt _ _
          | exact keeps_pushLayer _
          | exact keeps_defined _
          | refine keeps_bind ?_ (fun _ => ?_)
      exact (hk { ctx with
        shaper_ := sh1,
        layers_ := ctx.layers_ ++
          [DNN.Layer.SpaceToBatch input_name dilations np (input_name ++ "_s2b")] }).2.2.2.1

theorem m_input_bind_eq_ok {σ β : Type} (node : NodeProto) (i : Nat)
    (f : String → Exec (Converter σ) β) (s s2 : Converter σ) (b : β) :
    (m_input node i >>= f) s = Outcome.ok b s2 ↔
      ∃ name, node.input.get? i = some name ∧ f (m s.name_map_ name) s = Outcome.ok b s2 := by
  unfold m_input
  simp only [bind_assoc, at__bind_eq_ok, resolve_bind_run]

theorem m_output_bind_eq_ok {σ β : Type} (node : NodeProto) (i : Nat)
    (f : String → Exec (Converter σ) β) (s s2 : Converter σ) (b : β) :
    (m_output node i >>= f) s = Outcome.ok b s2 ↔
      ∃ name, node.output.get? i = some name ∧ f (m s.name_map_ name) s = Outcome.ok b s2 := by
  unfold m_output
  simp only [bind_assoc, at__bind_eq_ok, resolve_bind_run]

/-- A successful Conv branch: the three size checks hold, the operands exist,
the bias (when there is a third input) is registered as a tensor, and
`AddConv` has run on the resolved names with the result of `FindActivation`. -/
theorem ConvertConv_ok {σ : Type} (env : Env σ) (g : ModelProto) (node : NodeProto)
    (sa r : List String) (ctx s : Converter σ)
    (h : ConvertConv env g node sa ctx = Outcome.ok r s) :
    r = push_skipped sa (FindActivation g node) ∧
    (helper_get_ints node "pads" [0, 0, 0, 0]).length = 4 ∧
    (helper_get_ints node "strides" [1, 1]).length = 2 ∧
    (helper_get_ints node "dilations" [1, 1]).length = 2 ∧
    ∃ input weight output bias_name nn tensors,
      node.input.get? 0 = some input ∧ node.input.get? 1 = some weight ∧
      node.output.get? 0 = some output ∧
      ((node.input.length < 3 ∧ bias_name = none ∧ nn = [] ∧ tensors = []) ∨
        (∃ bias t, node.input.get? 2 = some bias ∧
          ctx.onnx_tensors_.lookup (m ctx.name_map_ bias) = some t ∧
          bias_name = some (m ctx.name_map_ bias ++ "_conv_b") ∧
          nn = [(m ctx.name_map_ bias ++ "_conv_b", t)] ∧
          tensors = [CreateTensorDirect t (m ctx.name_map_ bias ++ "_conv_b")])) ∧
      AddConv env (m ctx.name_map_ input) (helper_get_ints node "strides" [1, 1])
        (helper_get_ints node "pads" [0, 0, 0, 0]) (helper_get_ints node "dilations" [1, 1])
        (helper_get_int node "group" 1) (FindActivation g node) (m ctx.name_map_ weight)
        bias_name (m ctx.name_map_ output) (ctx.extend ctx.shaper_ nn [] tensors) =
        Outcome.ok () s := by
  unfold ConvertConv at h
  by_cases hp : (helper_get_ints node "pads" [0, 0, 0, 0]).length = 4
  swap
  · simp only [ne_eq, hp, not_false_eq_true, if_true, raise_bind, raise_run] at h
    cases h
  by_cases hs : (helper_get_ints node "strides" [1, 1]).length = 2
  swap
  · simp only [ne_eq, hp, hs, not_true_eq_false, not_false_eq_true, if_true, if_false,
      pure_bind, raise_bind, raise_run] at h
    cases h
  by_cases hdl : (helper_get_ints node "dilations" [1, 1]).length = 2
  swap
  · simp only [ne_eq, hp, hs, hdl, not_true_eq_false, not_false_eq_true, if_true, if_false,
      pure_bind, raise_bind, raise_run] at h
    cases h
  simp only [ne_eq, hp, hs, hdl, not_true_eq_false, if_false, pure_bind] at h
  by_cases hb : node.input.length ≥ 3
  · simp only [hb, if_true, bind_assoc, pure_bind, m_input_bind_eq_ok, m_output_bind_eq_ok,
      onnxTensorAt_bind_eq_ok, setNnapiTensor_bind_run, pushTensor_bind_run,
      AddConv_bind_eq_ok, pure_run, Outcome.ok.injEq] at h
    obtain ⟨bias, hbias, t, ht, w, hw, i, hi, o, ho, s1, hadd, hr, rfl⟩ := h
    refine ⟨hr.symm, hp, hs, hdl, i, w, o, _, _, _, hi, hw, ho,
      Or.inr ⟨bias, t, hbias, ht, rfl, rfl, rfl⟩, ?_⟩
    simpa [Converter.extend] using hadd
  · simp only [hb, if_false, pure_bind, m_input_bind_eq_ok, m_output_bind_eq_ok,
      AddConv_bind_eq_ok, pure_run, Outcome.ok.injEq] at h
    obtain ⟨w, hw, i, hi, o, ho, s1, hadd, hr, rfl⟩ := h
    refine ⟨hr.symm, hp, hs, hdl, i, w, o, none, [], [], hi, hw, ho,
      Or.inl ⟨by omega, rfl, rfl, rfl⟩, ?_⟩
    simpa [Converter.extend] using hadd

theorem ConvertNode_Conv {σ : Type} (env : Env σ) (g : ModelProto) (node : NodeProto)
    (sa : List String) (hop : node.op_type = "Conv") :
    ConvertNode env g node sa =
      (ConvertConv env g node sa >>= fun skipped_act => pure (skipped_act, false)) := by
  simp [ConvertNode, hop]

/-- C7: a convolution with group > 1 whose weight has a second dimension
other than 1 makes `AddConv` throw, whatever the strides, pads and dilations
(on the dilated path too, where the throw comes from the recursive call), and
so the Conv branch of the node loop throws for a node with such a weight. -/
theorem AddConv_fails_grouped {σ : Type} (env : Env σ) (group : Int) (hg : 1 < group) :
    (∀ (input_name : String) (strides pads dilations : List Int)
        (activation : Option String × FuseCode) (ori_weight_name : String)
        (bias_name : Option String) (output_name : String) (ctx : Converter σ),
      (∀ t, ctx.onnx_tensors_.lookup ori_weight_name = some t →
        ∃ d, t.shape.get? 1 = some d ∧ d ≠ 1) →
      (AddConv env input_name strides pads dilations group activation ori_weight_name
        bias_name output_name ctx).fails) ∧
    (∀ (g : ModelProto) (node : NodeProto) (sa : List String) (ctx : Converter σ),
      node.op_type = "Conv" → helper_get_int node "group" 1 = group →
      (∀ weight t, node.input.get? 1 = some weight →
        ctx.onnx_tensors_.lookup (m ctx.name_map_ weight) = some t →
        ∃ d, t.shape.get? 1 = some d ∧ d ≠ 1) →
      (ConvertNode env g node sa ctx).fails) := by
  have key : ∀ (t : FTensor), (∃ d, t.shape.get? 1 = some d ∧ d ≠ 1) →
      t.shape.get? 1 ≠ some 1 := by
    rintro t ⟨d, hd, hne⟩ h1
    rw [hd] at h1
    exact hne (Option.some.inj h1)
  refine ⟨?_, ?_⟩
  · intro input_name strides pads dilations activation ori_weight_name bias_name output_name ctx hw
    exact AddConv_grouped_throws env _ _ _ _ _ _ _ _ _ ctx hg (fun t ht => key t (hw t ht))
  · intro g node sa ctx hop hgroup hw
    apply fails_of_not_ok
    intro r s h
    rw [ConvertNode_Conv env g node sa hop, bind_eq_ok] at h
    obtain ⟨r1, s1, h1, _⟩ := h
    obtain ⟨_, _, _, _, i, w, o, bias_name, nn, tensors, _, hwi, _, _, hadd⟩ :=
      ConvertConv_ok env g node sa r1 ctx s1 h1
    have hf := AddConv_grouped_throws env (m ctx.name_map_ i)
      (helper_get_ints node "strides" [1, 1]) (helper_get_ints node "pads" [0, 0, 0, 0])
      (helper_get_ints node "dilations" [1, 1]) (helper_get_int node "group" 1)
      (FindActivation g node) (m ctx.name_map_ w) bias_name (m ctx.name_map_ o)
      (ctx.extend ctx.shaper_ nn [] tensors) (by omega) (fun t ht => key t (hw w t hwi ht))
    rw [hadd] at hf
    exact hf

/-- C9: a successful `AddConv` with dilations other than `(1,1)` and group 1
has strides `(1,1)` and its weight among the source tensors, and appends
exactly four layers, in this order: SpaceToBatch (input to input+"_s2b",
block = dilations, pads = the adjusted pads), Conv2D (input+"_s2b" to
input+"_conv_imm", pads all zero, strides `(1,1)`, the fuse code of the
caller), BatchToSpace (input+"_conv_imm" to input+"_b2s", block = dilations),
StridedSlice (input+"_b2s" to the output name, starts 0, strides 1, masks 0);
and it appends exactly one tensor, the converted weight. -/
theorem AddConv_dilated_layers {σ : Type} (env : Env σ) (input_name : String)
    (strides pads dilations : List Int) (activation : Option String × FuseCode)
    (ori_weight_name : String) (bias_name : Option String) (output_name : String)
    (ctx s : Converter σ) (hd : dilations ≠ [1, 1])
    (hok : AddConv env input_name strides pads dilations 1 activation ori_weight_name
      bias_name output_name ctx = Outcome.ok () s) :
    strides = [1, 1] ∧
    ∃ input_shape new_pads_ b2s_shape ends_ onnx_weight,
      env.shaper.get ctx.shaper_ input_name = Except.ok input_shape ∧
      new_pads input_shape pads dilations = some new_pads_ ∧
      ends b2s_shape new_pads_ pads = some ends_ ∧
      ctx.onnx_tensors_.lookup ori_weight_name = some onnx_weight ∧
      s.layers_ = ctx.layers_ ++
        [DNN.Layer.SpaceToBatch input_name dilations new_pads_ (input_name ++ "_s2b"),
          DNN.Layer.Conv2D (input_name ++ "_s2b") (ori_weight_name ++ "_conv_w") bias_name
            [0, 0, 0, 0] [1, 1] (ConvertFuseCodeType activation.2) (input_name ++ "_conv_imm"),
          DNN.Layer.BatchToSpace (input_name ++ "_conv_imm") dilations (input_name ++ "_b2s"),
          DNN.Layer.StridedSlice (input_name ++ "_b2s") [0, 0, 0, 0] ends_ [1, 1, 1, 1] 0 0 0
            output_name] ∧
      s.tensors_ = ctx.tensors_ ++
        [CreateTensorDirect (env.OnnxToNnapiVanilla onnx_weight)
          (ori_weight_name ++ "_conv_w")] := by
  obtain ⟨hs, input_shape, np, sh1, s2, sh3, b2s_shape, e, sh4, h1, h2, h3, _, _, h6, rfl⟩ :=
    AddConv_dilated_ok env _ _ _ _ _ _ _ _ _ ctx s hd hok
  subst hs
  obtain ⟨w, sh, hw, hcase⟩ := AddConv_plain_ok env _ _ _ _ _ _ _ _ _ s2 h3
  rcases hcase with ⟨_, rfl⟩ | ⟨hne, _⟩
  · refine ⟨rfl, input_shape, np, b2s_shape, e, w, h1, h2, h6, hw, ?_, ?_⟩
    · simp [Converter.extend]
    · simp [Converter.extend]
  · exact (hne rfl).elim

/-- Witness of C9: the dilated convolution of `Sample.ready` succeeds and ends
in `Sample.readyDilated`, whose four new layers and one new tensor are those
of the theorem. -/
theorem AddConv_dilated_layers_witness :
    AddConv Reference.env "x" [1, 1] [0, 1, 0, 1] [2, 2] 1 (none, FuseCode.FUSED_NONE) "w" none
        "c" Sample.ready = Outcome.ok () Sample.readyDilated ∧
    (([1, 1] : List Int) = [1, 1] ∧
      ∃ input_shape new_pads_ b2s_shape ends_ onnx_weight,
        Reference.env.shaper.get Sample.ready.shaper_ "x" = Except.ok input_shape ∧
        new_pads input_shape [0, 1, 0, 1] [2, 2] = some new_pads_ ∧
        ends b2s_shape new_pads_ [0, 1, 0, 1] = some ends_ ∧
        Sample.ready.onnx_tensors_.lookup "w" = some onnx_weight ∧
        Sample.readyDilated.layers_ = Sample.ready.layers_ ++
          [DNN.Layer.SpaceToBatch "x" [2, 2] new_pads_ ("x" ++ "_s2b"),
            DNN.Layer.Conv2D ("x" ++ "_s2b") ("w" ++ "_conv_w") none
              [0, 0, 0, 0] [1, 1] (ConvertFuseCodeType FuseCode.FUSED_NONE) ("x" ++ "_conv_imm"),
            DNN.Layer.BatchToSpace ("x" ++ "_conv_imm") [2, 2] ("x" ++ "_b2s"),
            DNN.Layer.StridedSlice ("x" ++ "_b2s") [0, 0, 0, 0] ends_ [1, 1, 1, 1] 0 0 0 "c"] ∧
        Sample.readyDilated.tensors_ = Sample.ready.tensors_ ++
          [CreateTensorDirect (Reference.env.OnnxToNnapiVanilla onnx_weight)
            ("w" ++ "_conv_w")]) :=
  have hrun : AddConv Reference.env "x" [1, 1] [0, 1, 0, 1] [2, 2] 1 (none, FuseCode.FUSED_NONE)
      "w" none "c" Sample.ready = Outcome.ok () Sample.readyDilated :=
    (congrFun (AddConv_eq_AddConvN Reference.env 0 _ _ _ _ _ _ _ _ _) Sample.ready).trans rfl
  ⟨hrun, AddConv_dilated_layers Reference.env _ _ _ _ _ _ _ _ _ _ (by decide) hrun⟩

/-- Witness of C8 on `Sample.ready`: with strides `(2,2)` the dilated
convolution throws and leaves the converter as it was; with strides `(1,1)`
the SpaceToBatch layer is appended. -/
theorem AddConv_dilation_with_stride_witness :
    AddConv Reference.env "x" [2, 2] [0, 1, 0, 1] [2, 2] 1 (none, FuseCode.FUSED_NONE) "w" none
        "c" Sample.ready =
      Outcome.throw "Both dilations and strides > 1 is not supported for now" Sample.ready ∧
    Sample.ready.layers_ ++ [DNN.Layer.SpaceToBatch "x" [2, 2] [0, 1, 0, 1] ("x" ++ "_s2b")] <+:
      (AddConv Reference.env "x" [1, 1] [0, 1, 0, 1] [2, 2] 1 (none, FuseCode.FUSED_NONE) "w"
        none "c" Sample.ready).state.layers_ :=
  ⟨(AddConv_dilation_with_stride Reference.env "x" [2, 2] [0, 1, 0, 1] [2, 2] 1
      (none, FuseCode.FUSED_NONE) "w" none "c" Sample.ready (by decide)).1 (by decide),
   ((AddConv_dilation_with_stride Reference.env "x" [1, 1] [0, 1, 0, 1] [2, 2] 1
      (none, FuseCode.FUSED_NONE) "w" none "c" Sample.ready (by decide)).2 rfl).2
      [1, 7, 7, 1] [0, 1, 0, 1] [("x_s2b", [4, 4, 4, 1]), ("x", [1, 7, 7, 1])] rfl rfl rfl⟩

/-- Witness of C7, the case of the specification: group 2 and a weight whose
second dimension is 3. -/
theorem AddConv_fails_grouped_witness :
    (AddConv Reference.env "x" [1, 1] [0, 0, 0, 0] [1, 1] 2 (none, FuseCode.FUSED_NONE) "w" none
      "c" Sample.readyGrouped).fails ∧
    (AddConv Reference.env "x" [1, 1] [0, 0, 0, 0] [2, 2] 2 (none, FuseCode.FUSED_NONE) "w" none
      "c" Sample.readyGrouped).fails :=
  ⟨(AddConv_fails_grouped Reference.env 2 (by decide)).1 "x" [1, 1] [0, 0, 0, 0] [1, 1]
      (none, FuseCode.FUSED_NONE) "w" none "c" Sample.readyGrouped
      (fun t ht => by cases ht; exact ⟨3, rfl, by decide⟩),
   (AddConv_fails_grouped Reference.env 2 (by decide)).1 "x" [1, 1] [0, 0, 0, 0] [2, 2]
      (none, FuseCode.FUSED_NONE) "w" none "c" Sample.readyGrouped
      (fun t ht => by cases ht; exact ⟨3, rfl, by decide⟩)⟩

/-- C10 (the code departs from the claim on the height axis): on
`Sample.ready` with pads `[0, 1, 0, 1]` and dilations `(2,2)` the adjusted
pads are `[0, 1, 0, 1]` and the batch-to-space output is `[1, 4, 4, 1]`.  The
slice ends written by `AddConv` are `[1, 3, 4, 1]`: the height end is
`4 - (new_pads[1] - pads[0]) = 3`, while the specification's
`trimmed 4 new_pads[1] pads[1]` is 4, the value the width axis gets. -/
theorem AddConv_slice_end_height :
    AddConv Reference.env "x" [1, 1] [0, 1, 0, 1] [2, 2] 1 (none, FuseCode.FUSED_NONE) "w" none
        "c" Sample.ready = Outcome.ok () Sample.readyDilated ∧
    Sample.readyDilated.layers_.get? 3 =
      some (DNN.Layer.StridedSlice "x_b2s" [0, 0, 0, 0] [1, 3, 4, 1] [1, 1, 1, 1] 0 0 0 "c") ∧
    new_pads [1, 7, 7, 1] [0, 1, 0, 1] [2, 2] = some [0, 1, 0, 1] ∧
    ends [1, 4, 4, 1] [0, 1, 0, 1] [0, 1, 0, 1] = some [1, 3, 4, 1] ∧
    trimmed 4 1 1 = 4 ∧ trimmed 4 1 0 = 3 :=
  ⟨(congrFun (AddConv_eq_AddConvN Reference.env 0 _ _ _ _ _ _ _ _ _) Sample.ready).trans rfl,
    rfl, rfl, rfl, rfl, rfl⟩

/-! ## The node loop -/

theorem ConvertLoop_cons {σ : Type} (env : Env σ) (g : ModelProto) (node : NodeProto)
    (rest : List NodeProto) (sa : List String) (hr : Bool) (ctx : Converter σ) :
    ConvertLoop env g (node :: rest) sa hr ctx =
      if hr then Outcome.throw "Reshape can only be the last layer for now" ctx
      else
        match ConvertNode env g node sa ctx with
        | Outcome.ok r ctx1 => ConvertLoop env g rest r.1 r.2 ctx1
        | Outcome.throw e ctx1 => Outcome.throw e ctx1 := by
  cases hr with
  | true => rfl
  | false =>
    simp only [ConvertLoop, Bool.false_eq_true, if_false, bind_run]
    cases ConvertNode env g node sa ctx <;> rfl

theorem ConvertNode_unsupported {σ : Type} (env : Env σ) (g : ModelProto) (node : NodeProto)
    (sa : List String) (ctx : Converter σ) (hop : node.op_type ∉ supportedOps) :
    ConvertNode env g node sa ctx =
      Outcome.throw ("Unsupported operator " ++ node.op_type) ctx := by
  simp only [supportedOps, List.mem_cons, List.mem_singleton, List.not_mem_nil, or_false,
    not_or] at hop
  obtain ⟨h1, h2, h3, h4, h5, h6, h7, h8, h9, h10, h11, h12⟩ := hop
  simp [ConvertNode, h1, h2, h3, h4, h5, h6, h7, h8, h9, h10, h11, h12]

theorem ConvertNode_Reshape {σ : Type} (env : Env σ) (g : ModelProto) (node : NodeProto)
    (sa : List String) (ctx : Converter σ) (hop : node.op_type = "Reshape") :
    ConvertNode env g node sa ctx = Outcome.ok (sa, true) ctx := by
  simp [ConvertNode, hop]

theorem ConvertLoop_fails_of_mem {σ : Type} (env : Env σ) (g : ModelProto) (node : NodeProto)
    (hnode : ∀ sa ctx, (ConvertNode env g node sa ctx).fails) :
    ∀ (nodes : List NodeProto), node ∈ nodes → ∀ (sa : List String) (hr : Bool)
      (ctx : Converter σ), (ConvertLoop env g nodes sa hr ctx).fails := by
  intro nodes
  induction nodes with
  | nil => intro h; simp at h
  | cons n rest ih =>
    intro hmem sa hr ctx
    rw [ConvertLoop_cons]
    cases hr with
    | true => simp
    | false =>
      simp only [Bool.false_eq_true, if_false]
      rcases List.mem_cons.mp hmem with heq | hin
      · subst heq
        have := hnode sa ctx
        cases hc : ConvertNode env g node sa ctx with
        | ok r c1 => rw [hc] at this; exact this.elim
        | throw e c1 => simp
      · cases hc : ConvertNode env g n sa ctx with
        | ok r c1 => exact ih hin _ _ _
        | throw e c1 => simp

theorem Convert_fails_of_loop {σ : Type} (env : Env σ) (model_proto : ModelProto)
    (ctx : Converter σ)
    (h : ∀ (sa : List String) (hr : Bool) (c : Converter σ),
      (ConvertLoop env (env.Optimize model_proto) (env.Optimize model_proto).graph.node
        sa hr c).fails) :
    (Convert env model_proto ctx).fails := by
  unfold Convert
  simp only [bind_run]
  cases ingestInitializers (env.Optimize model_proto).graph.initializer ctx with
  | throw e c1 => simp
  | ok u c1 =>
    simp only []
    cases ingestInputs env (env.Optimize model_proto).graph.input [] c1 with
    | throw e c2 => simp
    | ok inputs c2 =>
      simp only []
      have := h [] false c2
      cases hc : ConvertLoop env (env.Optimize model_proto)
        (env.Optimize model_proto).graph.node [] false c2 with
      | throw e c3 => simp
      | ok r c3 => rw [hc] at this; exact this.elim

theorem ConvertLoop_fails_of_inner_Reshape {σ : Type} (env : Env σ) (g : ModelProto)
    (reshape next : NodeProto) (post : List NodeProto) (hop : reshape.op_type = "Reshape") :
    ∀ (pre : List NodeProto) (sa : List String) (hr : Bool) (ctx : Converter σ),
      (ConvertLoop env g (pre ++ reshape :: next :: post) sa hr ctx).fails := by
  intro pre
  induction pre with
  | nil =>
    intro sa hr ctx
    rw [List.nil_append, ConvertLoop_cons]
    cases hr with
    | true => simp
    | false =>
      simp only [Bool.false_eq_true, if_false, ConvertNode_Reshape env g reshape sa ctx hop]
      rw [ConvertLoop_cons]
      simp
  | cons n rest ih =>
    intro sa hr ctx
    rw [List.cons_append, ConvertLoop_cons]
    cases hr with
    | true => simp
    | false =>
      simp only [Bool.false_eq_true, if_false]
      cases hc : ConvertNode env g n sa ctx with
      | ok r c1 => exact ih _ _ _
      | throw e c1 => simp

/-- C5: when the node list of the converted graph has a Reshape node at a
position other than the last, `Convert` throws and yields no model; and the
Reshape branch itself leaves the converter unchanged (no layer is emitted),
only setting `has_reshape`. -/
theorem Convert_fails_of_inner_Reshape {σ : Type} (env : Env σ) (model_proto : ModelProto)
    (ctx : Converter σ) (pre : List NodeProto) (reshape next : NodeProto)
    (post : List NodeProto)
    (hnodes : (env.Optimize model_proto).graph.node = pre ++ reshape :: next :: post)
    (hop : reshape.op_type = "Reshape") :
    (Convert env model_proto ctx).fails ∧
    ∀ (sa : List String) (c : Converter σ),
      ConvertNode env (env.Optimize model_proto) reshape sa c = Outcome.ok (sa, true) c := by
  refine ⟨?_, fun sa c => ConvertNode_Reshape env _ reshape sa c hop⟩
  apply Convert_fails_of_loop
  intro sa hr c
  rw [hnodes]
  exact ConvertLoop_fails_of_inner_Reshape env _ reshape next post hop pre sa hr c

/-- Witness of C5 on `Sample.reshapeRelu`. -/
theorem Convert_fails_of_inner_Reshape_witness :
    (Convert Reference.env Sample.reshapeRelu Reference.fresh).fails ∧
    ∀ (sa : List String) (c : Converter (List (String × Shape))),
      ConvertNode Reference.env (Reference.env.Optimize Sample.reshapeRelu)
        { name := "reshape1", op_type := "Reshape", input := ["x", "shape"], output := ["r"] }
        sa c = Outcome.ok (sa, true) c :=
  Convert_fails_of_inner_Reshape Reference.env Sample.reshapeRelu Reference.fresh []
    { name := "reshape1", op_type := "Reshape", input := ["x", "shape"], output := ["r"] }
    { name := "relu1", op_type := "Relu", input := ["r"], output := ["y"] } [] rfl rfl

/-- C6: when the node list of the converted graph contains a node whose op
type is none of the twelve supported ones, `Convert` throws and yields no
model, wherever the node stands and whatever precedes it. -/
theorem Convert_fails_of_unsupported {σ : Type} (env : Env σ) (model_proto : ModelProto)
    (ctx : Converter σ) (node : NodeProto)
    (hmem : node ∈ (env.Optimize model_proto).graph.node)
    (hop : node.op_type ∉ supportedOps) :
    (Convert env model_proto ctx).fails := by
  apply Convert_fails_of_loop
  intro sa hr c
  apply ConvertLoop_fails_of_mem env _ node _ _ hmem
  intro sa ctx
  rw [ConvertNode_unsupported env _ node sa ctx hop]
  trivial

/-- Witness of C6 on `Sample.reluSigmoid`, whose second node is a Sigmoid. -/
theorem Convert_fails_of_unsupported_witness :
    (Convert Reference.env Sample.reluSigmoid Reference.fresh).fails :=
  Convert_fails_of_unsupported Reference.env Sample.reluSigmoid Reference.fresh
    { name := "sigmoid1", op_type := "Sigmoid", input := ["r"], output := ["y"] }
    (by decide) (by decide)

/-! ## The branches of the node loop -/

theorem ite_bind_run {S α β : Type} (c : Prop) [Decidable c] (x y : Exec S α)
    (f : α → Exec S β) (s : S) :
    ((if c then x else y) >>= f) s = if c then (x >>= f) s else (y >>= f) s := by
  split <;> rfl

theorem ite_run {S α : Type} (c : Prop) [Decidable c] (x y : Exec S α) (s : S) :
    (if c then x else y) s = if c then x s else y s := by
  split <;> rfl

/-- A successful Relu branch appends one Relu layer on the resolved names. -/
theorem ConvertRelu_ok {σ : Type} (env : Env σ) (node : NodeProto) (ctx s : Converter σ)
    (h : ConvertRelu env node ctx = Outcome.ok () s) :
    ∃ input output sh,
      node.input.get? 0 = some input ∧ node.output.get? 0 = some output ∧
      s = ctx.extend sh []
        [DNN.Layer.Relu (m ctx.name_map_ input) (m ctx.name_map_ output)] [] := by
  unfold ConvertRelu at h
  simp only [m_input_bind_eq_ok, m_output_bind_eq_ok, callShaper_bind_eq_ok, pushLayer_run,
    Outcome.ok.injEq, true_and] at h
  obtain ⟨i, hi, o, ho, sh, _, rfl⟩ := h
  exact ⟨i, o, sh, hi, ho, by simp [Converter.extend]⟩

/-- A successful Softmax branch appends one Softmax layer on the resolved
names. -/
theorem ConvertSoftmax_ok {σ : Type} (env : Env σ) (node : NodeProto) (ctx s : Converter σ)
    (h : ConvertSoftmax env node ctx = Outcome.ok () s) :
    ∃ input output sh,
      node.input.get? 0 = some input ∧ node.output.get? 0 = some output ∧
      s = ctx.extend sh []
        [DNN.Layer.Softmax (m ctx.name_map_ input) (m ctx.name_map_ output)] [] := by
  unfold ConvertSoftmax at h
  simp only [m_input_bind_eq_ok, m_output_bind_eq_ok, callShaper_bind_eq_ok, pushLayer_run,
    Outcome.ok.injEq, true_and] at h
  obtain ⟨i, hi, o, ho, sh, _, rfl⟩ := h
  exact ⟨i, o, sh, hi, ho, by simp [Converter.extend]⟩

/-- A successful Dropout branch only adds the alias of its first output to the
name map: no layer, no tensor. -/
theorem ConvertDropout_ok {σ : Type} (node : NodeProto) (ctx s : Converter σ)
    (h : ConvertDropout node ctx = Outcome.ok () s) :
    ∃ input output,
      node.input.get? 0 = some input ∧ node.output.get? 0 = some output ∧
      s = { ctx with name_map_ := (output, m ctx.name_map_ input) :: ctx.name_map_ } := by
  unfold ConvertDropout at h
  simp only [m_input_bind_eq_ok, at__bind_eq_ok, modifyState_run, Outcome.ok.injEq,
    true_and] at h
  obtain ⟨i, hi, o, ho, rfl⟩ := h
  exact ⟨i, o, hi, ho, rfl⟩

/-- A successful Add branch appends one Add layer on the resolved names, with
the fuse code found by `FindActivation`. -/
theorem ConvertAdd_ok {σ : Type} (env : Env σ) (g : ModelProto) (node : NodeProto)
    (sa r : List String) (ctx s : Converter σ)
    (h : ConvertAdd env g node sa ctx = Outcome.ok r s) :
    r = push_skipped sa (FindActivation g node) ∧
    ∃ input1 input2 output sh,
      node.input.get? 0 = some input1 ∧ node.input.get? 1 = some input2 ∧
      node.output.get? 0 = some output ∧
      s = ctx.extend sh []
        [DNN.Layer.Add (m ctx.name_map_ input1) (m ctx.name_map_ input2)
          (ConvertFuseCodeType (FindActivation g node).2) (m ctx.name_map_ output)] [] := by
  unfold ConvertAdd at h
  simp only [bind_assoc, pure_bind, m_input_bind_eq_ok, m_output_bind_eq_ok,
    callShaper_bind_eq_ok, pushLayer_bind_run, pure_run, Outcome.ok.injEq] at h
  obtain ⟨i1, h1, i2, h2, o, ho, sh, _, hr, rfl⟩ := h
  exact ⟨hr.symm, i1, i2, o, sh, h1, h2, ho, by simp [Converter.extend]⟩

/-- A successful Gemm branch: the attributes are the supported combination,
the weight (and the bias, when there is a third input) is registered as a
tensor under its resolved name, and one FC layer is appended. -/
theorem ConvertGemm_ok {σ : Type} (env : Env σ) (g : ModelProto) (node : NodeProto)
    (sa r : List String) (ctx s : Converter σ)
    (h : ConvertGemm env g node sa ctx = Outcome.ok r s) :
    r = push_skipped sa (FindActivation g node) ∧
    (helper_get_int node "transA" 0 = 0 ∧ helper_get_int node "transB" 0 = 1 ∧
      helper_get_float node "alpha" float_one = float_one ∧
      helper_get_float node "beta" float_one = float_one) ∧
    ∃ input weight output weight_tensor bias_name nn tensors sh,
      node.input.get? 0 = some input ∧ node.input.get? 1 = some weight ∧
      node.output.get? 0 = some output ∧
      ctx.onnx_tensors_.lookup (m ctx.name_map_ weight) = some weight_tensor ∧
      ((node.input.length < 3 ∧ bias_name = none ∧ nn = [] ∧ tensors = []) ∨
        (∃ bias t, node.input.get? 2 = some bias ∧
          ctx.onnx_tensors_.lookup (m ctx.name_map_ bias) = some t ∧
          bias_name = some (m ctx.name_map_ bias) ∧ nn = [(m ctx.name_map_ bias, t)] ∧
          tensors = [CreateTensorDirect t (m ctx.name_map_ bias)])) ∧
      s = ctx.extend sh (nn ++ [(m ctx.name_map_ weight, weight_tensor)])
        [DNN.Layer.FC (m ctx.name_map_ input) (m ctx.name_map_ weight) bias_name
          (ConvertFuseCodeType (FindActivation g node).2) (m ctx.name_map_ output)]
        (CreateTensorDirect weight_tensor (m ctx.name_map_ weight) :: tensors) := by
  unfold ConvertGemm at h
  by_cases hattr : helper_get_int node "transA" 0 = 0 ∧ helper_get_int node "transB" 0 = 1 ∧
      helper_get_float node "alpha" float_one = float_one ∧
      helper_get_float node "beta" float_one = float_one
  swap
  · simp only [hattr, if_false, raise_run] at h
    cases h
  simp only [hattr, and_self, if_true] at h
  by_cases hb : node.input.length ≥ 3
  · simp only [hb, if_true, bind_assoc, pure_bind, m_input_bind_eq_ok, m_output_bind_eq_ok,
      onnxTensorAt_bind_eq_ok, setNnapiTensor_bind_run, callShaper_bind_eq_ok,
      pushTensor_bind_run, pushLayer_bind_run, pure_run, Outcome.ok.injEq] at h
    obtain ⟨i, hi, w, hw, wt, hwt, sh1, _, b, hbias, t, ht, o, ho, sh2, _, hr, rfl⟩ := h
    refine ⟨hr.symm, hattr, i, w, o, wt, _, _, _, sh2, hi, hw, ho, hwt,
      Or.inr ⟨b, t, hbias, ht, rfl, rfl, rfl⟩, ?_⟩
    simp [Converter.extend]
  · simp only [hb, if_false, bind_assoc, pure_bind, m_input_bind_eq_ok, m_output_bind_eq_ok,
      onnxTensorAt_bind_eq_ok, setNnapiTensor_bind_run, callShaper_bind_eq_ok,
      pushTensor_bind_run, pushLayer_bind_run, pure_run, Outcome.ok.injEq] at h
    obtain ⟨i, hi, w, hw, wt, hwt, sh1, _, o, ho, sh2, _, hr, rfl⟩ := h
    refine ⟨hr.symm, hattr, i, w, o, wt, none, [], [], sh2, hi, hw, ho, hwt,
      Or.inl ⟨by omega, rfl, rfl, rfl⟩, ?_⟩
    simp [Converter.extend]

/-- A successful pooling branch: a windowed pool has none of the rejected
attributes and takes strides, pads and kernel from the node, a global pool
takes the fixed values; one AvePool or MaxPool layer is appended on the
resolved names. -/
theorem ConvertPool_ok {σ : Type} (env : Env σ) (g : ModelProto) (node : NodeProto)
    (sa r : List String) (ctx s : Converter σ)
    (h : ConvertPool env g node sa ctx = Outcome.ok r s) :
    r = push_skipped sa (FindActivation g node) ∧
    ∃ input output strides pads kernel_shape sh,
      node.input.get? 0 = some input ∧ node.output.get? 0 = some output ∧
      (((node.op_type = "AveragePool" ∨ node.op_type = "MaxPool") ∧
          helper_get_int node "count_include_pad" 0 ≠ 1 ∧
          helper_get_int node "storage_order" 0 ≠ 1 ∧
          helper_has_attr node "auto_pad" = false ∧
          strides = helper_get_ints node "strides" [1, 1] ∧
          pads = helper_get_ints node "pads" [0, 0, 0, 0] ∧
          kernel_shape = helper_get_ints node "kernel_shape" [0, 0]) ∨
        (¬ (node.op_type = "AveragePool" ∨ node.op_type = "MaxPool") ∧
          strides = [0, 0] ∧ pads = [0, 0, 0, 0] ∧ kernel_shape = [-1, -1])) ∧
      s = ctx.extend sh []
        [if node.op_type = "AveragePool" ∨ node.op_type = "GlobalAveragePool" then
          DNN.Layer.AvePool (m ctx.name_map_ input) kernel_shape pads strides
            (ConvertFuseCodeType (FindActivation g node).2) (m ctx.name_map_ output)
        else
          DNN.Layer.MaxPool (m ctx.name_map_ input) kernel_shape pads strides
            (ConvertFuseCodeType (FindActivation g node).2) (m ctx.name_map_ output)] [] := by
  unfold ConvertPool at h
  simp only [bind_assoc, pure_bind, m_input_bind_eq_ok, m_output_bind_eq_ok, ite_bind_run,
    ite_run, raise_bind, raise_run] at h
  obtain ⟨i, hi, o, ho, h⟩ := h
  split at h
  · rename_i hw
    split at h
    · cases h
    rename_i h1
    split at h
    · cases h
    rename_i h2
    split at h
    · cases h
    rename_i h3
    split at h
    · cases h
    split at h
    · cases h
    split at h
    · cases h
    simp only [bind_assoc, pure_bind, at__bind_eq_ok, callShaper_bind_eq_ok, pushLayer_bind_run,
      pure_run, Outcome.ok.injEq] at h
    obtain ⟨_, _, _, _, _, _, _, _, _, _, _, _, _, _, _, _, sh, _, hr, rfl⟩ := h
    refine ⟨hr.symm, i, o, _, _, _, sh, hi, ho,
      Or.inl ⟨hw, h1, h2, by simpa using h3, rfl, rfl, rfl⟩, ?_⟩
    simp [Converter.extend]
  · rename_i hw
    split at h
    · cases h
    split at h
    · cases h
    split at h
    · cases h
    simp only [bind_assoc, pure_bind, at__bind_eq_ok, callShaper_bind_eq_ok, pushLayer_bind_run,
      pure_run, Outcome.ok.injEq] at h
    obtain ⟨_, _, _, _, _, _, _, _, _, _, _, _, _, _, _, _, sh, _, hr, rfl⟩ := h
    refine ⟨hr.symm, i, o, _, _, _, sh, hi, ho, Or.inr ⟨hw, rfl, rfl, rfl⟩, ?_⟩
    simp [Converter.extend]

/-! ## Ingestion of the initializers and of the graph inputs -/

theorem ingestInitializer_ok {σ : Type} (tensor : TensorProto) (ctx s : Converter σ)
    (h : ingestInitializer tensor ctx = Outcome.ok () s) :
    s.name_map_ = ctx.name_map_ ∧ s.layers_ = ctx.layers_ ∧ s.tensors_ = ctx.tensors_ := by
  unfold ingestInitializer at h
  by_cases h1 : tensor.data_type = TensorProto_DataType_FLOAT
  · by_cases h2 : (if tensor.float_data.isEmpty = true then tensor.raw_data
        else tensor.float_data).length < Product (List.map u32 tensor.dims)
    · simp only [h1, h2, if_true, raise_bind, raise_run] at h
      cases h
    · simp only [h1, h2, if_true, if_false, pure_bind, modifyState_bind_run,
        modifyState_run] at h
      cases h
      exact ⟨rfl, rfl, rfl⟩
  · simp only [h1, if_false, pure_bind, modifyState_run] at h
    cases h
    exact ⟨rfl, rfl, rfl⟩

theorem ingestInitializers_ok {σ : Type} (tensors : List TensorProto) :
    ∀ (ctx s : Converter σ), ingestInitializers tensors ctx = Outcome.ok () s →
      s.name_map_ = ctx.name_map_ ∧ s.layers_ = ctx.layers_ ∧ s.tensors_ = ctx.tensors_ := by
  induction tensors with
  | nil =>
    intro ctx s h
    cases h
    exact ⟨rfl, rfl, rfl⟩
  | cons t rest ih =>
    intro ctx s h
    simp only [ingestInitializers, bind_eq_ok] at h
    obtain ⟨_, s1, h1, h2⟩ := h
    obtain ⟨a1, a2, a3⟩ := ingestInitializer_ok t ctx s1 h1
    obtain ⟨b1, b2, b3⟩ := ih s1 s h2
    exact ⟨b1.trans a1, b2.trans a2, b3.trans a3⟩

theorem ingestInputs_ok {σ : Type} (env : Env σ) (inputs_ : List ValueInfoProto) :
    ∀ (inputs r : List DNN.Input) (ctx s : Converter σ),
      ingestInputs env inputs_ inputs ctx = Outcome.ok r s →
      s.name_map_ = ctx.name_map_ ∧ s.layers_ = ctx.layers_ ∧ s.tensors_ = ctx.tensors_ := by
  induction inputs_ with
  | nil =>
    intro inputs r ctx s h
    cases h
    exact ⟨rfl, rfl, rfl⟩
  | cons input rest ih =>
    intro inputs r ctx s h
    simp only [ingestInputs, getState_bind_run, ite_run] at h
    split at h
    · exact ih _ _ _ _ h
    · rw [bind_eq_ok] at h
      obtain ⟨shape, s1, h1, h⟩ := h
      simp only [at__bind_eq_ok, callShaper_bind_eq_ok] at h
      obtain ⟨_, _, _, _, _, _, _, _, sh, _, h2⟩ := h
      have hs1 : ∀ (dims : List Dimension) (shape : Shape) (s1 : Converter σ),
          inputShape dims ctx = Outcome.ok shape s1 → s1 = ctx := by
        intro dims
        induction dims with
        | nil =>
          intro shape s1 h1
          cases h1
          rfl
        | cons d ds ihd =>
          intro shape s1 h1
          cases d with
          | kDimValue v =>
            simp only [inputShape, bind_eq_ok, pure_run, Outcome.ok.injEq] at h1
            obtain ⟨sh2, s2, h3, _, rfl⟩ := h1
            exact ihd _ _ h3
          | kDimParam p => cases h1
          | VALUE_NOT_SET => cases h1
      have := hs1 _ _ _ h1
      subst this
      obtain ⟨b1, b2, b3⟩ := ih _ _ _ _ h2
      exact ⟨b1, b2, b3⟩

/-- A successful `Convert`: both ingestion loops and the node loop have
returned, the ingestion has left name map, layers and tensors as they were,
and the model holds the layers and tensors of the final state. -/
theorem Convert_ok {σ : Type} (env : Env σ) (model_proto : ModelProto) (ctx s : Converter σ)
    (out : DNN.Model) (h : Convert env model_proto ctx = Outcome.ok out s) :
    ∃ c r,
      c.name_map_ = ctx.name_map_ ∧ c.layers_ = ctx.layers_ ∧ c.tensors_ = ctx.tensors_ ∧
      ConvertLoop env (env.Optimize model_proto) (env.Optimize model_proto).graph.node [] false c =
        Outcome.ok r s ∧
      out.layers = s.layers_ ∧ out.tensors = s.tensors_ := by
  unfold Convert at h
  simp only [bind_eq_ok, getState_bind_run, pure_run, Outcome.ok.injEq] at h
  obtain ⟨_, s1, h1, inputs, s2, h2, r, s3, h3, rfl, rfl⟩ := h
  obtain ⟨a1, a2, a3⟩ := ingestInitializers_ok _ ctx s1 h1
  obtain ⟨b1, b2, b3⟩ := ingestInputs_ok env _ _ _ s1 s2 h2
  exact ⟨s2, r, b1.trans a1, b2.trans a2, b3.trans a3, h3, rfl, rfl⟩

theorem ConvertLoop_cons_ok {σ : Type} (env : Env σ) (g : ModelProto) (node : NodeProto)
    (rest : List NodeProto) (sa : List String) (hr : Bool) (ctx s : Converter σ)
    (r : List String × Bool)
    (h : ConvertLoop env g (node :: rest) sa hr ctx = Outcome.ok r s) :
    hr = false ∧ ∃ r1 c1, ConvertNode env g node sa ctx = Outcome.ok r1 c1 ∧
      ConvertLoop env g rest r1.1 r1.2 c1 = Outcome.ok r s := by
  rw [ConvertLoop_cons] at h
  cases hr with
  | true => simp at h
  | false =>
    simp only [Bool.false_eq_true, if_false] at h
    cases hc : ConvertNode env g node sa ctx with
    | ok r1 c1 =>
      rw [hc] at h
      exact ⟨rfl, r1, c1, rfl, h⟩
    | throw e c1 =>
      rw [hc] at h
      cases h

theorem ConvertNode_Relu {σ : Type} (env : Env σ) (g : ModelProto) (node : NodeProto)
    (sa : List String) (hop : node.op_type = "Relu") :
    ConvertNode env g node sa =
      (ConvertRelu env node >>= fun _ => pure (sa, false)) := by
  simp [ConvertNode, hop]


theorem head?_eq_of_get?_zero {α : Type} (xs : List α) (a : α) (h : xs.get? 0 = some a) :
    xs.head? = some a := by
  cases xs with
  | nil => cases h
  | cons b l => simpa using h

theorem FindActivation_eq (g : ModelProto) (p : NodeProto) :
    FindActivation g p =
      match g.graph.node.filter (fun r => decide (feedsRelu p r)) with
      | [r] => (some r.name, FuseCode.FUSED_RELU)
      | _ => (none, FuseCode.FUSED_NONE) :=
  FindActivationLoop_start p g.graph.node

/-- C1 (the code departs from the claim): for a graph made of a Conv node
(group 1, dilations `(1,1)`) followed by a Relu node whose first input is the
first output of the Conv, a successful `Convert` appends exactly two layers:
the Conv2D layer, which carries fuse code Relu, and after it a standalone
Relu layer reading the output of the convolution.  The list `skipped_act`
is filled but never read, so the fused Relu is emitted a second time. -/
theorem Convert_Conv_Relu_layers {σ : Type} (env : Env σ) (model_proto : ModelProto)
    (ctx s : Converter σ) (out : DNN.Model) (conv relu : NodeProto)
    (hnodes : (env.Optimize model_proto).graph.node = [conv, relu])
    (hconv : conv.op_type = "Conv") (hfeed : feedsRelu conv relu)
    (hgroup : helper_get_int conv "group" 1 = 1)
    (hdil : helper_get_ints conv "dilations" [1, 1] = [1, 1])
    (hok : Convert env model_proto ctx = Outcome.ok out s) :
    ∃ x w c y bias_name,
      conv.input.get? 0 = some x ∧ conv.input.get? 1 = some w ∧
      conv.output.get? 0 = some c ∧ relu.output.get? 0 = some y ∧
      out.layers = ctx.layers_ ++
        [DNN.Layer.Conv2D (m ctx.name_map_ x) (m ctx.name_map_ w ++ "_conv_w") bias_name
            (helper_get_ints conv "pads" [0, 0, 0, 0]) (helper_get_ints conv "strides" [1, 1])
            DNN.FuseCode.Relu (m ctx.name_map_ c),
          DNN.Layer.Relu (m ctx.name_map_ c) (m ctx.name_map_ y)] := by
  obtain ⟨c0, r, hnm, hlay, _, hloop, hout, _⟩ := Convert_ok env model_proto ctx s out hok
  rw [hnodes] at hloop
  obtain ⟨_, r1, c1, hn1, hloop⟩ := ConvertLoop_cons_ok env _ conv _ _ _ _ _ _ hloop
  obtain ⟨hr1, r2, c2, hn2, hloop⟩ := ConvertLoop_cons_ok env _ relu _ _ _ _ _ _ hloop
  have hs : s = c2 := by
    simp only [ConvertLoop, pure_run, Outcome.ok.injEq] at hloop
    exact hloop.2.symm
  subst hs
  -- the activation found for the convolution
  have hact : FindActivation (env.Optimize model_proto) conv =
      (some relu.name, FuseCode.FUSED_RELU) := by
    rw [FindActivation_eq, hnodes]
    have h1 : ¬ feedsRelu conv conv := by
      intro h
      have := h.1
      rw [hconv] at this
      exact absurd this (by decide)
    simp [List.filter, h1, hfeed]
  -- the Conv node
  rw [ConvertNode_Conv env _ conv _ hconv, bind_eq_ok] at hn1
  obtain ⟨sa1, c1', hconv_ok, hpure⟩ := hn1
  simp only [pure_run, Outcome.ok.injEq] at hpure
  obtain ⟨rfl, rfl⟩ := hpure
  obtain ⟨_, _, _, _, x, w, c, bias_name, nn, tensors, hx, hw, hc, _, hadd⟩ :=
    ConvertConv_ok env _ conv _ _ _ _ hconv_ok
  rw [hdil, hgroup, hact] at hadd
  obtain ⟨ow, sh, _, hcase⟩ := AddConv_plain_ok env _ _ _ _ _ _ _ _ _ _ hadd
  rcases hcase with ⟨_, hc1⟩ | ⟨hne, _⟩
  swap
  · exact (hne rfl).elim
  -- the Relu node
  rw [ConvertNode_Relu env _ relu _ hfeed.1, bind_eq_ok] at hn2
  obtain ⟨_, c2', hrelu_ok, hpure2⟩ := hn2
  simp only [pure_run, Outcome.ok.injEq] at hpure2
  obtain ⟨_, rfl⟩ := hpure2
  obtain ⟨ri, y, sh2, hri, hy, hs2⟩ := ConvertRelu_ok env relu _ _ hrelu_ok
  have hric : ri = c := by
    have e1 := head?_eq_of_get?_zero _ _ hri
    have e2 := head?_eq_of_get?_zero _ _ hc
    have e3 := hfeed.2.2
    rw [e1, e2] at e3
    exact Option.some.inj e3
  subst hric
  refine ⟨x, w, ri, y, bias_name, hx, hw, hc, hy, ?_⟩
  rw [hout, hs2, hc1]
  simp [Converter.extend, hnm, hlay, ConvertFuseCodeType]

/-- Witness of C1 on `Sample.convRelu`: the conversion succeeds, and the layer
list of the model is the fused Conv2D followed by the standalone Relu. -/
theorem Convert_Conv_Relu_layers_witness :
    Convert Reference.env Sample.convRelu Reference.fresh =
      Outcome.ok Sample.convReluModel Sample.convReluFinal ∧
    Sample.convReluModel.layers =
      [DNN.Layer.Conv2D "x" "w_conv_w" none [0, 0, 0, 0] [1, 1] DNN.FuseCode.Relu "c",
        DNN.Layer.Relu "c" "y"] ∧
    ∃ x w c y bias_name,
      ["x", "w"].get? 0 = some x ∧ ["x", "w"].get? 1 = some w ∧
      ["c"].get? 0 = some c ∧ ["y"].get? 0 = some y ∧
      Sample.convReluModel.layers = Reference.fresh.layers_ ++
        [DNN.Layer.Conv2D (m Reference.fresh.name_map_ x)
            (m Reference.fresh.name_map_ w ++ "_conv_w") bias_name [0, 0, 0, 0] [1, 1]
            DNN.FuseCode.Relu (m Reference.fresh.name_map_ c),
          DNN.Layer.Relu (m Reference.fresh.name_map_ c) (m Reference.fresh.name_map_ y)] :=
  have hrun : Convert Reference.env Sample.convRelu Reference.fresh =
      Outcome.ok Sample.convReluModel Sample.convReluFinal := by
    simp only [Convert, Sample.convRelu, ConvertLoop, ConvertNode, ConvertConv,
      AddConv_eq_AddConvN _ 0]
    rfl
  ⟨hrun, rfl,
    Convert_Conv_Relu_layers Reference.env Sample.convRelu Reference.fresh Sample.convReluFinal
      Sample.convReluModel
      { name := "conv1", op_type := "Conv", input := ["x", "w"], output := ["c"] }
      { name := "relu1", op_type := "Relu", input := ["c"], output := ["y"] }
      rfl rfl (by decide) rfl rfl hrun⟩

/-! ## Runs of the node loop -/

theorem ConvertLoop_nil_ok {σ : Type} (env : Env σ) (g : ModelProto) (sa : List String)
    (hr : Bool) (ctx s : Converter σ) (r : List String × Bool) :
    ConvertLoop env g [] sa hr ctx = Outcome.ok r s ↔ r = (sa, hr) ∧ s = ctx := by
  simp only [ConvertLoop, pure_run, Outcome.ok.injEq]
  constructor
  · rintro ⟨h1, h2⟩
    exact ⟨h1.symm, h2.symm⟩
  · rintro ⟨h1, h2⟩
    exact ⟨h1.symm, h2.symm⟩

theorem ConvertLoop_append_ok {σ : Type} (env : Env σ) (g : ModelProto)
    (post : List NodeProto) :
    ∀ (pre : List NodeProto) (sa : List String) (hr : Bool) (ctx s : Converter σ)
      (r : List String × Bool),
      ConvertLoop env g (pre ++ post) sa hr ctx = Outcome.ok r s ↔
        ∃ r1 c1, ConvertLoop env g pre sa hr ctx = Outcome.ok r1 c1 ∧
          ConvertLoop env g post r1.1 r1.2 c1 = Outcome.ok r s := by
  intro pre
  induction pre with
  | nil =>
    intro sa hr ctx s r
    constructor
    · intro h
      exact ⟨(sa, hr), ctx, (ConvertLoop_nil_ok env g sa hr ctx ctx _).mpr ⟨rfl, rfl⟩, h⟩
    · rintro ⟨r1, c1, h1, h2⟩
      obtain ⟨rfl, rfl⟩ := (ConvertLoop_nil_ok env g sa hr ctx _ _).mp h1
      exact h2
  | cons n rest ih =>
    intro sa hr ctx s r
    rw [List.cons_append, ConvertLoop_cons, ConvertLoop_cons]
    cases hr with
    | true => simp
    | false =>
      simp only [Bool.false_eq_true, if_false]
      cases hc : ConvertNode env g n sa ctx with
      | ok r0 c0 => exact ih _ _ _ _ _
      | throw e c0 => simp

theorem ConvertConv_keeps {σ : Type} (env : Env σ) (g : ModelProto) (node : NodeProto)
    (sa : List String) : Keeps Frame (ConvertConv env g node sa) := by
  unfold ConvertConv
  repeat' first
    | exact keeps_pure _
    | exact keeps_raise _
    | exact AddConv_keeps _ _ _ _ _ _ _ _ _ _
    | exact keeps_onnxTensorAt _
    | exact keeps_pushTensor _
    | exact keeps_setNnapiTensor _ _
    | exact keeps_m_input _ _
    | exact keeps_m_output _ _
    | refine keeps_bind ?_ (fun _ => ?_)
    | dsimp only
    | split

theorem ConvertPool_keeps {σ : Type} (env : Env σ) (g : ModelProto) (node : NodeProto)
    (sa : List String) : Keeps Frame (ConvertPool env g node sa) := by
  unfold ConvertPool
  repeat' first
    | exact keeps_pure _
    | exact keeps_raise _
    | exact keeps_callShaper _
    | exact keeps_pushLayer _
    | exact keeps_at_ _ _
    | exact keeps_m_input _ _
    | exact keeps_m_output _ _
    | refine keeps_bind ?_ (fun _ => ?_)
    | dsimp only
    | split

theorem ConvertRelu_keeps {σ : Type} (env : Env σ) (node : NodeProto) :
    Keeps Frame (ConvertRelu env node) := by
  unfold ConvertRelu
  repeat' first
    | exact keeps_callShaper _
    | exact keeps_pushLayer _
    | exact keeps_m_input _ _
    | exact keeps_m_output _ _
    | refine keeps_bind ?_ (fun _ => ?_)

theorem ConvertSoftmax_keeps {σ : Type} (env : Env σ) (node : NodeProto) :
    Keeps Frame (ConvertSoftmax env node) := by
  unfold ConvertSoftmax
  repeat' first
    | exact keeps_callShaper _
    | exact keeps_pushLayer _
    | exact keeps_m_input _ _
    | exact keeps_m_output _ _
    | refine keeps_bind ?_ (fun _ => ?_)

theorem ConvertAdd_keeps {σ : Type} (env : Env σ) (g : ModelProto) (node : NodeProto)
    (sa : List String) : Keeps Frame (ConvertAdd env g node sa) := by
  unfold ConvertAdd
  repeat' first
    | exact keeps_pure _
    | exact keeps_callShaper _
    | exact keeps_pushLayer _
    | exact keeps_m_input _ _
    | exact keeps_m_output _ _
    | refine keeps_bind ?_ (fun _ => ?_)

theorem ConvertGemm_keeps {σ : Type} (env : Env σ) (g : ModelProto) (node : NodeProto)
    (sa : List String) : Keeps Frame (ConvertGemm env g node sa) := by
  unfold ConvertGemm
  repeat' first
    | exact keeps_pure _
    | exact keeps_raise _
    | exact keeps_callShaper _
    | exact keeps_onnxTensorAt _
    | exact keeps_pushLayer _
    | exact keeps_pushTensor _
    | exact keeps_setNnapiTensor _ _
    | exact keeps_m_input _ _
    | exact keeps_m_output _ _
    | refine keeps_bind ?_ (fun _ => ?_)
    | dsimp only
    | split

theorem ConvertConcat_keeps {σ : Type} (env : Env σ) (node : NodeProto) :
    Keeps Frame (ConvertConcat env node) := by
  unfold ConvertConcat
  repeat' first
    | exact keeps_pure _
    | exact keeps_raise _
    | exact keeps_getState
    | exact keeps_defined _
    | exact keeps_callShaper _
    | exact keeps_pushLayer _
    | exact keeps_at_ _ _
    | exact keeps_m_output _ _
    | refine keeps_bind ?_ (fun _ => ?_)
    | dsimp only
    | split

/-- Every branch of the node loop other than Dropout keeps the frame: name
map, source tensors and operand list unchanged, layers and tensors only
appended. -/
theorem ConvertNode_keeps {σ : Type} (env : Env σ) (g : ModelProto) (node : NodeProto)
    (sa : List String) (hop : node.op_type ≠ "Dropout") :
    Keeps Frame (ConvertNode env g node sa) := by
  unfold ConvertNode
  simp only [hop, if_false]
  repeat' first
    | exact keeps_pure _
    | exact keeps_raise _
    | exact ConvertConv_keeps _ _ _ _
    | exact ConvertPool_keeps _ _ _ _
    | exact ConvertRelu_keeps _ _
    | exact ConvertAdd_keeps _ _ _ _
    | exact ConvertGemm_keeps _ _ _ _
    | exact ConvertSoftmax_keeps _ _
    | exact ConvertConcat_keeps _ _
    | refine keeps_bind ?_ (fun _ => ?_)
    | dsimp only
    | split

theorem ConvertNode_Dropout {σ : Type} (env : Env σ) (g : ModelProto) (node : NodeProto)
    (sa : List String) (hop : node.op_type = "Dropout") :
    ConvertNode env g node sa =
      (ConvertDropout node >>= fun _ => pure (sa, false)) := by
  simp [ConvertNode, hop]

/-- A successful Dropout step: the state only gains the alias. -/
theorem ConvertNode_Dropout_ok {σ : Type} (env : Env σ) (g : ModelProto) (node : NodeProto)
    (sa : List String) (ctx s : Converter σ) (r : List String × Bool)
    (hop : node.op_type = "Dropout") (h : ConvertNode env g node sa ctx = Outcome.ok r s) :
    r = (sa, false) ∧ ∃ input output,
      node.input.get? 0 = some input ∧ node.output.get? 0 = some output ∧
      s = { ctx with name_map_ := (output, m ctx.name_map_ input) :: ctx.name_map_ } := by
  rw [ConvertNode_Dropout env g node sa hop, bind_eq_ok] at h
  obtain ⟨_, s1, h1, h2⟩ := h
  simp only [pure_run, Outcome.ok.injEq] at h2
  obtain ⟨rfl, rfl⟩ := h2
  exact ⟨rfl, ConvertDropout_ok node ctx _ h1⟩

theorem ConvertNode_layers_grow {σ : Type} (env : Env σ) (g : ModelProto) (node : NodeProto)
    (sa : List String) (ctx s : Converter σ) (r : List String × Bool)
    (h : ConvertNode env g node sa ctx = Outcome.ok r s) :
    ctx.layers_ <+: s.layers_ := by
  by_cases hop : node.op_type = "Dropout"
  · obtain ⟨_, _, _, _, _, rfl⟩ := ConvertNode_Dropout_ok env g node sa ctx s r hop h
    exact List.prefix_refl _
  · have := ConvertNode_keeps env g node sa hop ctx
    rw [h] at this
    exact this.2.2.2.1

theorem ConvertLoop_layers_grow {σ : Type} (env : Env σ) (g : ModelProto) :
    ∀ (nodes : List NodeProto) (sa : List String) (hr : Bool) (ctx s : Converter σ)
      (r : List String × Bool),
      ConvertLoop env g nodes sa hr ctx = Outcome.ok r s → ctx.layers_ <+: s.layers_ := by
  intro nodes
  induction nodes with
  | nil =>
    intro sa hr ctx s r h
    obtain ⟨_, rfl⟩ := (ConvertLoop_nil_ok env g sa hr ctx s r).mp h
    exact List.prefix_refl _
  | cons n rest ih =>
    intro sa hr ctx s r h
    obtain ⟨_, r1, c1, h1, h2⟩ := ConvertLoop_cons_ok env g n rest sa hr ctx s r h
    exact (ConvertNode_layers_grow env g n sa ctx c1 r1 h1).trans (ih _ _ _ _ _ h2)


/-- A successful `Convert` in terms of `runTo`: there is a state `c0` after
ingestion from which the node loop has run to the final state, and every
run of the loop from `c0` over a prefix of the node list is a `runTo`. -/
theorem Convert_ok_runTo {σ : Type} (env : Env σ) (model_proto : ModelProto)
    (ctx s : Converter σ) (out : DNN.Model)
    (hok : Convert env model_proto ctx = Outcome.ok out s) :
    ∃ c0 r0,
      c0.name_map_ = ctx.name_map_ ∧ c0.layers_ = ctx.layers_ ∧
      ConvertLoop env (env.Optimize model_proto) (env.Optimize model_proto).graph.node [] false
        c0 = Outcome.ok r0 s ∧
      out.layers = s.layers_ ∧
      ∀ (k : Nat) (r : List String × Bool) (c : Converter σ),
        ConvertLoop env (env.Optimize model_proto)
          ((env.Optimize model_proto).graph.node.take k) [] false c0 = Outcome.ok r c →
        runTo env model_proto k ctx = Outcome.ok r c := by
  unfold Convert at hok
  simp only [bind_eq_ok, getState_bind_run, pure_run, Outcome.ok.injEq] at hok
  obtain ⟨u, s1, h1, inputs, s2, h2, r, s3, h3, rfl, rfl⟩ := hok
  obtain ⟨a1, a2, _⟩ := ingestInitializers_ok _ ctx s1 h1
  obtain ⟨b1, b2, _⟩ := ingestInputs_ok env _ _ _ s1 s2 h2
  refine ⟨s2, r, b1.trans a1, b2.trans a2, h3, rfl, ?_⟩
  intro k r' c hl
  unfold runTo
  simp only [bind_eq_ok]
  exact ⟨u, s1, h1, inputs, s2, h2, hl⟩

/-- The run of a successful `Convert` passes through every node: for the node
of index `k` there are the state `a` in which it is processed and the state
`b` it leaves, `runTo` gives both, and the layers of `b` are a prefix of the
layers of the model. -/
theorem Convert_ok_step {σ : Type} (env : Env σ) (model_proto : ModelProto)
    (ctx s : Converter σ) (out : DNN.Model) (k : Nat) (node : NodeProto)
    (hok : Convert env model_proto ctx = Outcome.ok out s)
    (hk : (env.Optimize model_proto).graph.node.get? k = some node) :
    ∃ sa a r b,
      runTo env model_proto k ctx = Outcome.ok (sa, false) a ∧
      ConvertNode env (env.Optimize model_proto) node sa a = Outcome.ok r b ∧
      runTo env model_proto (k + 1) ctx = Outcome.ok r b ∧
      ctx.layers_ <+: a.layers_ ∧ b.layers_ <+: out.layers := by
  obtain ⟨c0, r0, _, hlay, hloop, hout, hrun⟩ := Convert_ok_runTo env model_proto ctx s out hok
  have hsplit : (env.Optimize model_proto).graph.node =
      (env.Optimize model_proto).graph.node.take k ++
        node :: (env.Optimize model_proto).graph.node.drop (k + 1) := by
    have hlt : k < (env.Optimize model_proto).graph.node.length := by
      by_contra hge
      rw [List.get?_eq_none.mpr (by omega)] at hk
      cases hk
    rw [List.get?_eq_get hlt] at hk
    have hk' := Option.some.inj hk
    rw [← hk']
    simp
  have hloop2 := hloop
  rw [hsplit, ConvertLoop_append_ok] at hloop2
  obtain ⟨r1, c1, hpre, hrest⟩ := hloop2
  obtain ⟨hr1, r2, c2, hnode, hpost⟩ := ConvertLoop_cons_ok env _ node _ _ _ _ _ _ hrest
  have htake : (env.Optimize model_proto).graph.node.take (k + 1) =
      (env.Optimize model_proto).graph.node.take k ++ [node] := by
    have hk2 : (env.Optimize model_proto).graph.node[k]? = some node := by
      rw [← List.get?_eq_getElem?]
      exact hk
    rw [List.take_succ, hk2]
    rfl
  have hr1' : r1 = (r1.1, false) := by
    rw [← hr1]
  refine ⟨r1.1, c1, r2, c2, ?_, hnode, ?_, ?_, ?_⟩
  · rw [← hr1']
    exact hrun k r1 c1 hpre
  · apply hrun (k + 1) r2 c2
    rw [htake, ConvertLoop_append_ok]
    refine ⟨r1, c1, hpre, ?_⟩
    rw [ConvertLoop_cons, hr1]
    simp only [Bool.false_eq_true, if_false, hnode]
    exact (ConvertLoop_nil_ok env _ _ _ _ _ _).mpr ⟨rfl, rfl⟩
  · rw [← hlay]
    exact ConvertLoop_layers_grow env _ _ _ _ _ _ _ hpre
  · rw [hout]
    exact ConvertLoop_layers_grow env _ _ _ _ _ _ _ hpost

/-! ## Aliases -/

theorem m_cons (key alias_ : String) (name_map_ : List (String × String)) (str : String) :
    m ((key, alias_) :: name_map_) str = if str = key then alias_ else m name_map_ str := by
  unfold m
  rw [List.lookup_cons]
  by_cases h : str = key
  · subst h
    simp
  · have : (str == key) = false := by simpa using h
    simp [this, h]

theorem m_of_lookup_none (name_map_ : List (String × String)) (str : String)
    (h : name_map_.lookup str = none) : m name_map_ str = str := by
  unfold m
  rw [h]

theorem ConvertNode_Pool {σ : Type} (env : Env σ) (g : ModelProto) (node : NodeProto)
    (sa : List String)
    (hop : node.op_type = "AveragePool" ∨ node.op_type = "MaxPool" ∨
      node.op_type = "GlobalAveragePool" ∨ node.op_type = "GlobalMaxPool") :
    ConvertNode env g node sa =
      (ConvertPool env g node sa >>= fun skipped_act => pure (skipped_act, false)) := by
  rcases hop with h | h | h | h <;> simp [ConvertNode, h]

theorem ConvertNode_Add {σ : Type} (env : Env σ) (g : ModelProto) (node : NodeProto)
    (sa : List String) (hop : node.op_type = "Add") :
    ConvertNode env g node sa =
      (ConvertAdd env g node sa >>= fun skipped_act => pure (skipped_act, false)) := by
  simp [ConvertNode, hop]

theorem ConvertNode_Gemm {σ : Type} (env : Env σ) (g : ModelProto) (node : NodeProto)
    (sa : List String) (hop : node.op_type = "Gemm") :
    ConvertNode env g node sa =
      (ConvertGemm env g node sa >>= fun skipped_act => pure (skipped_act, false)) := by
  simp [ConvertNode, hop]

theorem ConvertNode_Softmax {σ : Type} (env : Env σ) (g : ModelProto) (node : NodeProto)
    (sa : List String) (hop : node.op_type = "Softmax") :
    ConvertNode env g node sa =
      (ConvertSoftmax env node >>= fun _ => pure (sa, false)) := by
  simp [ConvertNode, hop]

theorem bind_pure_pair_ok {S α β : Type} (x : Exec S α) (f : α → β) (s s2 : S) (b : β)
    (h : (x >>= fun a => pure (f a)) s = Outcome.ok b s2) :
    ∃ a, x s = Outcome.ok a s2 ∧ b = f a := by
  rw [bind_eq_ok] at h
  obtain ⟨a, s1, h1, h2⟩ := h
  simp only [pure_run, Outcome.ok.injEq] at h2
  obtain ⟨rfl, rfl⟩ := h2
  exact ⟨a, h1, rfl⟩

/-- The layers of a successful `AddConv` start with a layer that reads
`input_name`. -/
theorem AddConv_first_layer {σ : Type} (env : Env σ) (input_name : String)
    (strides pads dilations : List Int) (group : Int) (activation : Option String × FuseCode)
    (ori_weight_name : String) (bias_name : Option String) (output_name : String)
    (ctx s : Converter σ)
    (h : AddConv env input_name strides pads dilations group activation ori_weight_name
      bias_name output_name ctx = Outcome.ok () s) :
    ∃ l L, s.layers_ = ctx.layers_ ++ l :: L ∧ l.inputs = [input_name] := by
  by_cases hd : dilations = [1, 1]
  · subst hd
    obtain ⟨w, sh, _, hcase⟩ := AddConv_plain_ok env _ _ _ _ _ _ _ _ ctx s h
    rcases hcase with ⟨_, rfl⟩ | ⟨_, _, _, _, _, rfl⟩
    · exact ⟨_, [], rfl, rfl⟩
    · exact ⟨_, [], rfl, rfl⟩
  · obtain ⟨_, _, np, sh1, s2, _, _, e, _, _, _, h3, _, _, _, rfl⟩ :=
      AddConv_dilated_ok env _ _ _ _ _ _ _ _ _ ctx s hd h
    have hp := AddConv_plain_keeps env (input_name ++ "_s2b") strides [0, 0, 0, 0] group
      activation ori_weight_name bias_name (input_name ++ "_conv_imm")
      (ctx.extend sh1 [] [DNN.Layer.SpaceToBatch input_name dilations np (input_name ++ "_s2b")]
        [])
    rw [h3] at hp
    obtain ⟨L, hL⟩ := hp.2.2.2.1
    refine ⟨DNN.Layer.SpaceToBatch input_name dilations np (input_name ++ "_s2b"),
      L ++ [DNN.Layer.BatchToSpace (input_name ++ "_conv_imm") dilations (input_name ++ "_b2s"),
        DNN.Layer.StridedSlice (input_name ++ "_b2s") [0, 0, 0, 0] e [1, 1, 1, 1] 0 0 0
          output_name], ?_, rfl⟩
    simp only [Converter.extend, Outcome.state] at hL ⊢
    rw [← hL]
    simp

/-- For a Conv, pooling, Relu, Add, Gemm or Softmax node, a successful step of
the node loop appends at least one layer, and the first appended layer reads
the resolved first input of the node (for Add, also the resolved second
input). -/
theorem ConvertNode_first_layer {σ : Type} (env : Env σ) (g : ModelProto) (node : NodeProto)
    (sa : List String) (ctx s : Converter σ) (r : List String × Bool)
    (hop : node.op_type ∈ ["Conv", "AveragePool", "MaxPool", "GlobalAveragePool",
      "GlobalMaxPool", "Relu", "Add", "Gemm", "Softmax"])
    (h : ConvertNode env g node sa ctx = Outcome.ok r s) :
    ∃ l L, s.layers_ = ctx.layers_ ++ l :: L ∧
      ∀ (p : Nat) (x : String), p = 0 ∨ (p = 1 ∧ node.op_type = "Add") →
        node.input.get? p = some x → l.inputs.get? p = some (m ctx.name_map_ x) := by
  simp only [List.mem_cons, List.mem_singleton, List.not_mem_nil, or_false] at hop
  rcases hop with hc | hp | hp | hp | hp | hre | ha | hg | hs
  · -- Conv
    rw [ConvertNode_Conv env g node sa hc] at h
    obtain ⟨r1, h1, _⟩ := bind_pure_pair_ok _ _ _ _ _ h
    obtain ⟨_, _, _, _, i, w, o, bias_name, nn, tensors, hi, _, _, _, hadd⟩ :=
      ConvertConv_ok env g node sa r1 ctx s h1
    obtain ⟨l, L, hl, hin⟩ := AddConv_first_layer env _ _ _ _ _ _ _ _ _ _ s hadd
    refine ⟨l, L, by simpa [Converter.extend] using hl, ?_⟩
    intro p x hp hx
    rcases hp with rfl | ⟨_, hadd'⟩
    · rw [hi] at hx
      cases hx
      rw [hin]
      rfl
    · rw [hc] at hadd'
      exact absurd hadd' (by decide)
  · -- AveragePool
    rw [ConvertNode_Pool env g node sa (Or.inl hp)] at h
    obtain ⟨r1, h1, _⟩ := bind_pure_pair_ok _ _ _ _ _ h
    obtain ⟨_, i, o, st, pd, ks, sh, hi, _, _, rfl⟩ := ConvertPool_ok env g node sa r1 ctx s h1
    refine ⟨_, [], rfl, ?_⟩
    intro p x hp' hx
    rcases hp' with rfl | ⟨_, hadd'⟩
    · rw [hi] at hx
      cases hx
      split <;> rfl
    · rw [hp] at hadd'
      exact absurd hadd' (by decide)
  · -- MaxPool
    rw [ConvertNode_Pool env g node sa (Or.inr (Or.inl hp))] at h
    obtain ⟨r1, h1, _⟩ := bind_pure_pair_ok _ _ _ _ _ h
    obtain ⟨_, i, o, st, pd, ks, sh, hi, _, _, rfl⟩ := ConvertPool_ok env g node sa r1 ctx s h1
    refine ⟨_, [], rfl, ?_⟩
    intro p x hp' hx
    rcases hp' with rfl | ⟨_, hadd'⟩
    · rw [hi] at hx
      cases hx
      split <;> rfl
    · rw [hp] at hadd'
      exact absurd hadd' (by decide)
  · -- GlobalAveragePool
    rw [ConvertNode_Pool env g node sa (Or.inr (Or.inr (Or.inl hp)))] at h
    obtain ⟨r1, h1, _⟩ := bind_pure_pair_ok _ _ _ _ _ h
    obtain ⟨_, i, o, st, pd, ks, sh, hi, _, _, rfl⟩ := ConvertPool_ok env g node sa r1 ctx s h1
    refine ⟨_, [], rfl, ?_⟩
    intro p x hp' hx
    rcases hp' with rfl | ⟨_, hadd'⟩
    · rw [hi] at hx
      cases hx
      split <;> rfl
    · rw [hp] at hadd'
      exact absurd hadd' (by decide)
  · -- GlobalMaxPool
    rw [ConvertNode_Pool env g node sa (Or.inr (Or.inr (Or.inr hp)))] at h
    obtain ⟨r1, h1, _⟩ := bind_pure_pair_ok _ _ _ _ _ h
    obtain ⟨_, i, o, st, pd, ks, sh, hi, _, _, rfl⟩ := ConvertPool_ok env g node sa r1 ctx s h1
    refine ⟨_, [], rfl, ?_⟩
    intro p x hp' hx
    rcases hp' with rfl | ⟨_, hadd'⟩
    · rw [hi] at hx
      cases hx
      split <;> rfl
    · rw [hp] at hadd'
      exact absurd hadd' (by decide)
  · -- Relu
    rw [ConvertNode_Relu env g node sa hre] at h
    obtain ⟨_, h1, _⟩ := bind_pure_pair_ok _ _ _ _ _ h
    obtain ⟨i, o, sh, hi, _, rfl⟩ := ConvertRelu_ok env node ctx s h1
    refine ⟨_, [], rfl, ?_⟩
    intro p x hp' hx
    rcases hp' with rfl | ⟨_, hadd'⟩
    · rw [hi] at hx
      cases hx
      rfl
    · rw [hre] at hadd'
      exact absurd hadd' (by decide)
  · -- Add
    rw [ConvertNode_Add env g node sa ha] at h
    obtain ⟨r1, h1, _⟩ := bind_pure_pair_ok _ _ _ _ _ h
    obtain ⟨_, i1, i2, o, sh, hi1, hi2, _, rfl⟩ := ConvertAdd_ok env g node sa r1 ctx s h1
    refine ⟨_, [], rfl, ?_⟩
    intro p x hp' hx
    rcases hp' with rfl | ⟨rfl, _⟩
    · rw [hi1] at hx
      cases hx
      rfl
    · rw [hi2] at hx
      cases hx
      rfl
  · -- Gemm
    rw [ConvertNode_Gemm env g node sa hg] at h
    obtain ⟨r1, h1, _⟩ := bind_pure_pair_ok _ _ _ _ _ h
    obtain ⟨_, _, i, w, o, wt, bias_name, nn, tensors, sh, hi, _, _, _, _, rfl⟩ :=
      ConvertGemm_ok env g node sa r1 ctx s h1
    refine ⟨_, [], rfl, ?_⟩
    intro p x hp' hx
    rcases hp' with rfl | ⟨_, hadd'⟩
    · rw [hi] at hx
      cases hx
      rfl
    · rw [hg] at hadd'
      exact absurd hadd' (by decide)
  · -- Softmax
    rw [ConvertNode_Softmax env g node sa hs] at h
    obtain ⟨_, h1, _⟩ := bind_pure_pair_ok _ _ _ _ _ h
    obtain ⟨i, o, sh, hi, _, rfl⟩ := ConvertSoftmax_ok env node ctx s h1
    refine ⟨_, [], rfl, ?_⟩
    intro p x hp' hx
    rcases hp' with rfl | ⟨_, hadd'⟩
    · rw [hi] at hx
      cases hx
      rfl
    · rw [hs] at hadd'
      exact absurd hadd' (by decide)

theorem ConvertLoop_ok_of_ne_nil {σ : Type} (env : Env σ) (g : ModelProto)
    (nodes : List NodeProto) (sa : List String) (hr : Bool) (ctx s : Converter σ)
    (r : List String × Bool) (hne : nodes ≠ [])
    (h : ConvertLoop env g nodes sa hr ctx = Outcome.ok r s) : hr = false := by
  cases nodes with
  | nil => exact (hne rfl).elim
  | cons n rest => exact (ConvertLoop_cons_ok env g n rest sa hr ctx s r h).1

/-- The node loop over a chain of Dropout nodes leading from `x` to `y`: it
returns in a state that resolves `y` to what `x` resolved to before the
chain, and at no point of the chain has a layer or a tensor been appended. -/
theorem ConvertLoop_DropoutChain {σ : Type} (env : Env σ) (g : ModelProto)
    (rest : List NodeProto) (sa : List String) (r : List String × Bool) (s : Converter σ) :
    ∀ (drops : List NodeProto) (x y : String) (ctx : Converter σ),
      DropoutChain x drops y →
      ConvertLoop env g (drops ++ rest) sa false ctx = Outcome.ok r s →
      ∃ c, ConvertLoop env g drops sa false ctx = Outcome.ok (sa, false) c ∧
        m c.name_map_ y = m ctx.name_map_ x ∧
        c.layers_ = ctx.layers_ ∧ c.tensors_ = ctx.tensors_ ∧
        ConvertLoop env g rest sa false c = Outcome.ok r s ∧
        ∀ t, t ≤ drops.length →
          ∃ ct, ConvertLoop env g (drops.take t) sa false ctx = Outcome.ok (sa, false) ct ∧
            ct.layers_ = ctx.layers_ ∧ ct.tensors_ = ctx.tensors_ := by
  intro drops
  induction drops with
  | nil =>
    intro x y ctx hchain h
    simp only [DropoutChain] at hchain
    subst hchain
    refine ⟨ctx, (ConvertLoop_nil_ok env g _ _ _ _ _).mpr ⟨rfl, rfl⟩, rfl, rfl, rfl, h, ?_⟩
    intro t _
    rw [List.take_nil]
    exact ⟨ctx, (ConvertLoop_nil_ok env g _ _ _ _ _).mpr ⟨rfl, rfl⟩, rfl, rfl⟩
  | cons d ds ih =>
    intro x y ctx hchain h
    obtain ⟨hop, hx, z, hz, hrest⟩ := hchain
    rw [List.cons_append] at h
    obtain ⟨_, r1, c1, hnode, hloop⟩ := ConvertLoop_cons_ok env g d _ _ _ _ _ _ h
    obtain ⟨rfl, i, o, hi, ho, rfl⟩ := ConvertNode_Dropout_ok env g d sa ctx c1 r1 hop hnode
    have hix : i = x := by
      have := head?_eq_of_get?_zero _ _ hi
      rw [hx] at this
      exact (Option.some.inj this).symm
    have hoz : o = z := by
      have := head?_eq_of_get?_zero _ _ ho
      rw [hz] at this
      exact (Option.some.inj this).symm
    subst hix
    subst hoz
    obtain ⟨c, hc, hm, hl, ht, hrest', hall⟩ := ih o y _ hrest hloop
    refine ⟨c, ?_, ?_, hl, ht, hrest', ?_⟩
    · rw [ConvertLoop_cons]
      simp only [Bool.false_eq_true, if_false, hnode]
      exact hc
    · rw [hm, m_cons]
      simp
    · intro t ht'
      cases t with
      | zero =>
        rw [List.take_zero]
        exact ⟨ctx, (ConvertLoop_nil_ok env g _ _ _ _ _).mpr ⟨rfl, rfl⟩, rfl, rfl⟩
      | succ t =>
        obtain ⟨ct, hct, h1, h2⟩ := hall t (by simpa using ht')
        refine ⟨ct, ?_, h1, h2⟩
        rw [List.take_succ_cons, ConvertLoop_cons]
        simp only [Bool.false_eq_true, if_false, hnode]
        exact hct

/-- C4: in a graph whose node list has a chain of consecutive Dropout nodes
leading from operand `x` to operand `y`, followed by a Conv, pooling, Relu,
Add, Gemm or Softmax node `B` that reads `y` (as first input, or as second
input of an Add), a successful `Convert` appends no layer and no tensor at any
point of the chain, and the first layer appended for `B` reads, in that
position, the name to which `x` resolved when the chain was entered: `x`
itself when `x` had no alias, and so not the output name of the Dropout. -/
theorem Convert_through_Dropout {σ : Type} (env : Env σ) (model_proto : ModelProto)
    (ctx s : Converter σ) (out : DNN.Model) (pre drops post : List NodeProto) (B : NodeProto)
    (x y : String) (p : Nat)
    (hnodes : (env.Optimize model_proto).graph.node = pre ++ drops ++ B :: post)
    (hchain : DropoutChain x drops y)
    (hB : B.op_type ∈ ["Conv", "AveragePool", "MaxPool", "GlobalAveragePool", "GlobalMaxPool",
      "Relu", "Add", "Gemm", "Softmax"])
    (hp : p = 0 ∨ (p = 1 ∧ B.op_type = "Add"))
    (hin : B.input.get? p = some y)
    (hok : Convert env model_proto ctx = Outcome.ok out s) :
    ∃ sa a r c l L,
      runTo env model_proto pre.length ctx = Outcome.ok (sa, false) a ∧
      (∀ t, t ≤ drops.length →
        ∃ ct, runTo env model_proto (pre.length + t) ctx = Outcome.ok (sa, false) ct ∧
          ct.layers_ = a.layers_ ∧ ct.tensors_ = a.tensors_) ∧
      runTo env model_proto (pre.length + drops.length + 1) ctx = Outcome.ok r c ∧
      c.layers_ = a.layers_ ++ l :: L ∧ c.layers_ <+: out.layers ∧
      l.inputs.get? p = some (m a.name_map_ x) ∧
      (a.name_map_.lookup x = none → l.inputs.get? p = some x) := by
  obtain ⟨c0, r0, _, _, hloop, hout, hrun⟩ := Convert_ok_runTo env model_proto ctx s out hok
  rw [hnodes, List.append_assoc, ConvertLoop_append_ok] at hloop
  obtain ⟨r1, a, hpre, hloop⟩ := hloop
  have hr1 : r1.2 = false :=
    ConvertLoop_ok_of_ne_nil env _ _ _ _ _ _ _ (by simp) hloop
  have hr1' : r1 = (r1.1, false) := by
    rw [← hr1]
  rw [hr1] at hloop
  obtain ⟨b, hb, hm, hbl, _, hrest, hall⟩ :=
    ConvertLoop_DropoutChain env _ _ _ _ _ drops x y a hchain hloop
  obtain ⟨_, r2, c, hnode, hpost⟩ := ConvertLoop_cons_ok env _ B _ _ _ _ _ _ hrest
  obtain ⟨l, L, hl, hfirst⟩ := ConvertNode_first_layer env _ B _ b c r2 hB hnode
  have hinput : l.inputs.get? p = some (m a.name_map_ x) := by
    rw [hfirst p y hp hin, hm]
  refine ⟨r1.1, a, r2, c, l, L, ?_, ?_, ?_, ?_, ?_, hinput, ?_⟩
  · apply hrun
    rw [hnodes, List.append_assoc, List.take_left', ← hr1']
    · exact hpre
    · rfl
  · intro t ht
    obtain ⟨ct, hct, h1, h2⟩ := hall t ht
    refine ⟨ct, ?_, h1, h2⟩
    apply hrun
    have htake : List.take (pre.length + t) (pre ++ drops ++ B :: post) =
        pre ++ drops.take t := by
      rw [List.append_assoc, List.take_append, List.take_append_of_le_length ht]
    rw [hnodes, htake, ConvertLoop_append_ok]
    exact ⟨r1, a, hpre, by rw [hr1]; exact hct⟩
  · apply hrun
    have htake : List.take (pre.length + drops.length + 1) (pre ++ drops ++ B :: post) =
        pre ++ (drops ++ [B]) := by
      rw [List.append_assoc, Nat.add_assoc, List.take_append]
      congr 1
      rw [List.take_append]
      rfl
    rw [hnodes, htake, ConvertLoop_append_ok]
    refine ⟨r1, a, hpre, ?_⟩
    rw [hr1, ConvertLoop_append_ok]
    refine ⟨(r1.1, false), b, hb, ?_⟩
    rw [ConvertLoop_cons]
    simp only [Bool.false_eq_true, if_false, hnode]
    exact (ConvertLoop_nil_ok env _ _ _ _ _ _).mpr ⟨rfl, rfl⟩
  · rw [hl, hbl]
  · rw [hout]
    exact ConvertLoop_layers_grow env _ _ _ _ _ _ _ hpost
  · intro hnone
    rw [hinput, m_of_lookup_none _ _ hnone]

/-- Witness of C4 on `Sample.dropoutChain`: the conversion succeeds, the two
Dropout nodes leave the layer list alone, and the layer of `B` reads `a`, the
output of `A`. -/
theorem Convert_through_Dropout_witness :
    Convert Reference.env Sample.dropoutChain Reference.fresh =
      Outcome.ok Sample.dropoutChainModel Sample.dropoutChainFinal ∧
    ∃ sa a r c l L,
      runTo Reference.env Sample.dropoutChain 1 Reference.fresh = Outcome.ok (sa, false) a ∧
      (∀ t, t ≤ 2 →
        ∃ ct, runTo Reference.env Sample.dropoutChain (1 + t) Reference.fresh =
            Outcome.ok (sa, false) ct ∧
          ct.layers_ = a.layers_ ∧ ct.tensors_ = a.tensors_) ∧
      runTo Reference.env Sample.dropoutChain (1 + 2 + 1) Reference.fresh = Outcome.ok r c ∧
      c.layers_ = a.layers_ ++ l :: L ∧ c.layers_ <+: Sample.dropoutChainModel.layers ∧
      l.inputs.get? 0 = some (m a.name_map_ "a") ∧
      (a.name_map_.lookup "a" = none → l.inputs.get? 0 = some "a") :=
  have hrun : Convert Reference.env Sample.dropoutChain Reference.fresh =
      Outcome.ok Sample.dropoutChainModel Sample.dropoutChainFinal := rfl
  ⟨hrun,
    Convert_through_Dropout Reference.env Sample.dropoutChain Reference.fresh
      Sample.dropoutChainFinal Sample.dropoutChainModel
      [{ name := "A", op_type := "Relu", input := ["x"], output := ["a"] }]
      [{ name := "drop1", op_type := "Dropout", input := ["a"], output := ["d1"] },
        { name := "drop2", op_type := "Dropout", input := ["d1"], output := ["d2"] }]
      []
      { name := "B", op_type := "Relu", input := ["d2"], output := ["y"] }
      "a" "d2" 0 rfl ⟨rfl, rfl, "d1", rfl, rfl, rfl, "d2", rfl, rfl⟩ (by decide) (Or.inl rfl) rfl
      hrun⟩

theorem runTo_ok_iff {σ : Type} (env : Env σ) (model_proto : ModelProto) (k : Nat)
    (ctx c : Converter σ) (r : List String × Bool) :
    runTo env model_proto k ctx = Outcome.ok r c ↔
      ∃ inputs c0, ingest env model_proto ctx = Outcome.ok inputs c0 ∧
        ConvertLoop env (env.Optimize model_proto)
          ((env.Optimize model_proto).graph.node.take k) [] false c0 = Outcome.ok r c := by
  unfold runTo ingest
  simp only [bind_eq_ok]
  constructor
  · rintro ⟨u, s1, h1, inputs, s2, h2, h3⟩
    exact ⟨inputs, s2, ⟨u, s1, h1, h2⟩, h3⟩
  · rintro ⟨inputs, s2, ⟨u, s1, h1, h2⟩, h3⟩
    exact ⟨u, s1, h1, inputs, s2, h2, h3⟩

theorem ingest_ok {σ : Type} (env : Env σ) (model_proto : ModelProto) (ctx c0 : Converter σ)
    (inputs : List DNN.Input) (h : ingest env model_proto ctx = Outcome.ok inputs c0) :
    c0.name_map_ = ctx.name_map_ ∧ c0.layers_ = ctx.layers_ ∧ c0.tensors_ = ctx.tensors_ := by
  unfold ingest at h
  simp only [bind_eq_ok] at h
  obtain ⟨_, s1, h1, h2⟩ := h
  obtain ⟨a1, a2, a3⟩ := ingestInitializers_ok _ ctx s1 h1
  obtain ⟨b1, b2, b3⟩ := ingestInputs_ok env _ _ _ s1 c0 h2
  exact ⟨b1.trans a1, b2.trans a2, b3.trans a3⟩

/-- Layers are only appended along the run: the state before a node has a
prefix of the layers of the state before any later node. -/
theorem runTo_layers_grow {σ : Type} (env : Env σ) (model_proto : ModelProto)
    (k1 k2 : Nat) (ctx c1 c2 : Converter σ) (r1 r2 : List String × Bool) (hle : k1 ≤ k2)
    (h1 : runTo env model_proto k1 ctx = Outcome.ok r1 c1)
    (h2 : runTo env model_proto k2 ctx = Outcome.ok r2 c2) :
    c1.layers_ <+: c2.layers_ := by
  rw [runTo_ok_iff] at h1 h2
  obtain ⟨inputs, c0, hing, hl1⟩ := h1
  obtain ⟨inputs', c0', hing', hl2⟩ := h2
  rw [hing] at hing'
  cases hing'
  have hsplit : (env.Optimize model_proto).graph.node.take k2 =
      (env.Optimize model_proto).graph.node.take k1 ++
        ((env.Optimize model_proto).graph.node.take k2).drop k1 := by
    have : (env.Optimize model_proto).graph.node.take k1 =
        ((env.Optimize model_proto).graph.node.take k2).take k1 := by
      rw [List.take_take, Nat.min_eq_left hle]
    rw [this, List.take_append_drop]
  rw [hsplit, ConvertLoop_append_ok] at hl2
  obtain ⟨r1', c1', hpre, hrest⟩ := hl2
  rw [hl1] at hpre
  cases hpre
  exact ConvertLoop_layers_grow env _ _ _ _ _ _ _ hrest

theorem lookup_cons_ne (key alias_ : String) (name_map_ : List (String × String))
    (str : String) (h : str ≠ key) :
    ((key, alias_) :: name_map_).lookup str = name_map_.lookup str := by
  rw [List.lookup_cons]
  have : (str == key) = false := by simpa using h
  rw [this]

/-- An operand that no Dropout node of the list writes keeps having no alias
along the node loop. -/
theorem ConvertLoop_lookup_none {σ : Type} (env : Env σ) (g : ModelProto) (c : String) :
    ∀ (nodes : List NodeProto) (sa : List String) (hr : Bool) (ctx s : Converter σ)
      (r : List String × Bool),
      (∀ d ∈ nodes, d.op_type = "Dropout" → d.output.head? ≠ some c) →
      ConvertLoop env g nodes sa hr ctx = Outcome.ok r s →
      ctx.name_map_.lookup c = none → s.name_map_.lookup c = none := by
  intro nodes
  induction nodes with
  | nil =>
    intro sa hr ctx s r _ h hnone
    obtain ⟨_, rfl⟩ := (ConvertLoop_nil_ok env g sa hr ctx s r).mp h
    exact hnone
  | cons n rest ih =>
    intro sa hr ctx s r hall h hnone
    obtain ⟨_, r1, c1, h1, h2⟩ := ConvertLoop_cons_ok env g n rest sa hr ctx s r h
    apply ih _ _ _ _ _ (fun d hd => hall d (List.mem_cons_of_mem _ hd)) h2
    by_cases hop : n.op_type = "Dropout"
    · obtain ⟨_, i, o, _, ho, rfl⟩ := ConvertNode_Dropout_ok env g n sa ctx c1 r1 hop h1
      have hne : c ≠ o := by
        intro heq
        apply hall n (List.mem_cons_self _ _) hop
        rw [head?_eq_of_get?_zero _ _ ho, heq]
      show ((o, m ctx.name_map_ i) :: ctx.name_map_).lookup c = none
      rw [lookup_cons_ne _ _ _ _ hne]
      exact hnone
    · have := ConvertNode_keeps env g n sa hop ctx
      rw [h1] at this
      have hnm : c1.name_map_ = ctx.name_map_ := this.1
      rw [hnm]
      exact hnone

theorem runTo_lookup_none {σ : Type} (env : Env σ) (model_proto : ModelProto) (k : Nat)
    (ctx a : Converter σ) (r : List String × Bool) (c : String)
    (hall : ∀ d ∈ (env.Optimize model_proto).graph.node,
      d.op_type = "Dropout" → d.output.head? ≠ some c)
    (h : runTo env model_proto k ctx = Outcome.ok r a)
    (hnone : ctx.name_map_.lookup c = none) : m a.name_map_ c = c := by
  rw [runTo_ok_iff] at h
  obtain ⟨inputs, c0, hing, hl⟩ := h
  obtain ⟨hnm, _, _⟩ := ingest_ok env model_proto ctx c0 inputs hing
  apply m_of_lookup_none
  apply ConvertLoop_lookup_none env _ c _ _ _ _ _ _ _ hl
  · rw [hnm]
    exact hnone
  · intro d hd
    exact hall d (List.mem_of_mem_take hd)

theorem filter_length_two {α : Type} (q : α → Bool) :
    ∀ (l : List α) (j k : Nat) (a b : α), j < k → l.get? j = some a → l.get? k = some b →
      q a = true → q b = true → 2 ≤ (l.filter q).length := by
  intro l
  induction l with
  | nil =>
    intro j k a b _ hj
    cases hj
  | cons x xs ih =>
    intro j k a b hjk hj hk ha hb
    cases k with
    | zero => omega
    | succ k =>
      cases j with
      | zero =>
        simp only [List.get?_cons_zero, Option.some.injEq] at hj
        subst hj
        simp only [List.get?_cons_succ] at hk
        have hmem : b ∈ xs.filter q := List.mem_filter.mpr ⟨List.get?_mem hk, hb⟩
        have hpos : 0 < (xs.filter q).length := List.length_pos_of_mem hmem
        rw [List.filter_cons_of_pos ha]
        simp only [List.length_cons]
        omega
      | succ j =>
        simp only [List.get?_cons_succ] at hj hk
        have := ih j k a b (by omega) hj hk ha hb
        by_cases hx : q x = true
        · rw [List.filter_cons_of_pos hx]
          simp only [List.length_cons]
          omega
        · rw [List.filter_cons_of_neg hx]
          exact this

theorem prefix_get?_length {α : Type} (l1 l : List α) (x : α) (h : l1 ++ [x] <+: l) :
    l.get? l1.length = some x := by
  obtain ⟨t, rfl⟩ := h
  rw [List.get?_eq_getElem?, List.append_assoc, List.getElem?_append_right (Nat.le_refl _)]
  simp

/-- The layers of a successful `AddConv`: they all carry the fuse code of the
caller or none, one of them is the convolution layer (a Conv2D when group is
1, else a DepthwiseConv2D) carrying that fuse code, and the last one writes
`output_name`. -/
theorem AddConv_layers {σ : Type} (env : Env σ) (input_name : String)
    (strides pads dilations : List Int) (group : Int) (activation : Option String × FuseCode)
    (ori_weight_name : String) (bias_name : Option String) (output_name : String)
    (ctx s : Converter σ)
    (h : AddConv env input_name strides pads dilations group activation ori_weight_name
      bias_name output_name ctx = Outcome.ok () s) :
    ∃ Lc, s.layers_ = ctx.layers_ ++ Lc ∧
      (∃ l ∈ Lc, l.fuse? = some (ConvertFuseCodeType activation.2) ∧
        (l.type = DNN.LayerType.Conv2D ∨ l.type = DNN.LayerType.DepthwiseConv2D) ∧
        (group = 1 → l.type = DNN.LayerType.Conv2D)) ∧
      (∀ l ∈ Lc, l.fuse? = none ∨ l.fuse? = some (ConvertFuseCodeType activation.2)) ∧
      Lc.getLast?.map DNN.Layer.output = some output_name := by
  have plain : ∀ (input_name : String) (strides pads : List Int) (output_name : String)
      (ctx s : Converter σ),
      AddConv env input_name strides pads [1, 1] group activation ori_weight_name
        bias_name output_name ctx = Outcome.ok () s →
      ∃ l, s.layers_ = ctx.layers_ ++ [l] ∧
        l.fuse? = some (ConvertFuseCodeType activation.2) ∧
        (l.type = DNN.LayerType.Conv2D ∨ l.type = DNN.LayerType.DepthwiseConv2D) ∧
        (group = 1 → l.type = DNN.LayerType.Conv2D) ∧ l.output = output_name := by
    intro input_name strides pads output_name ctx s h
    obtain ⟨w, sh, _, hcase⟩ := AddConv_plain_ok env _ _ _ _ _ _ _ _ ctx s h
    rcases hcase with ⟨_, rfl⟩ | ⟨hne, _, _, _, _, rfl⟩
    · exact ⟨_, rfl, rfl, Or.inl rfl, fun _ => rfl, rfl⟩
    · exact ⟨_, rfl, rfl, Or.inr rfl, fun hg => (hne hg).elim, rfl⟩
  by_cases hd : dilations = [1, 1]
  · subst hd
    obtain ⟨l, hl, hf, ht, hg, ho⟩ := plain _ _ _ _ _ _ h
    refine ⟨[l], hl, ⟨l, List.mem_singleton.mpr rfl, hf, ht, hg⟩, ?_, ?_⟩
    · intro l' hl'
      rw [List.mem_singleton.mp hl']
      exact Or.inr hf
    · simp [ho]
  · obtain ⟨_, _, np, sh1, s2, _, _, e, sh4, _, _, h3, _, _, _, rfl⟩ :=
      AddConv_dilated_ok env _ _ _ _ _ _ _ _ _ ctx s hd h
    obtain ⟨l, hl, hf, ht, hg, _⟩ := plain _ _ _ _ _ _ h3
    refine ⟨[DNN.Layer.SpaceToBatch input_name dilations np (input_name ++ "_s2b"), l,
      DNN.Layer.BatchToSpace (input_name ++ "_conv_imm") dilations (input_name ++ "_b2s"),
      DNN.Layer.StridedSlice (input_name ++ "_b2s") [0, 0, 0, 0] e [1, 1, 1, 1] 0 0 0
        output_name], ?_, ⟨l, by simp, hf, ht, hg⟩, ?_, ?_⟩
    · simp [Converter.extend, hl]
    · intro l' hl'
      simp only [List.mem_cons, List.mem_singleton, List.not_mem_nil, or_false] at hl'
      rcases hl' with rfl | rfl | rfl | rfl
      · exact Or.inl rfl
      · exact Or.inr hf
      · exact Or.inl rfl
      · exact Or.inl rfl
    · simp [DNN.Layer.output]

/-- The step of a Relu node in a successful `Convert`: the model has, at the
position where the layer list stood when the node was reached, a Relu layer on
the names resolved at that moment. -/
theorem Convert_ok_Relu_step {σ : Type} (env : Env σ) (model_proto : ModelProto)
    (ctx s : Converter σ) (out : DNN.Model) (k : Nat) (relu : NodeProto)
    (hok : Convert env model_proto ctx = Outcome.ok out s)
    (hk : (env.Optimize model_proto).graph.node.get? k = some relu)
    (hop : relu.op_type = "Relu") :
    ∃ input output sa a r b,
      relu.input.get? 0 = some input ∧ relu.output.get? 0 = some output ∧
      runTo env model_proto k ctx = Outcome.ok (sa, false) a ∧
      runTo env model_proto (k + 1) ctx = Outcome.ok r b ∧
      b.layers_ = a.layers_ ++
        [DNN.Layer.Relu (m a.name_map_ input) (m a.name_map_ output)] ∧
      out.layers.get? a.layers_.length =
        some (DNN.Layer.Relu (m a.name_map_ input) (m a.name_map_ output)) := by
  obtain ⟨sa, a, r, b, h1, hnode, h2, _, hpre⟩ :=
    Convert_ok_step env model_proto ctx s out k relu hok hk
  rw [ConvertNode_Relu env _ relu sa hop] at hnode
  obtain ⟨_, hrelu, _⟩ := bind_pure_pair_ok _ _ _ _ _ hnode
  obtain ⟨i, o, sh, hi, ho, rfl⟩ := ConvertRelu_ok env relu a b hrelu
  refine ⟨i, o, sa, a, r, _, hi, ho, h1, h2, rfl, ?_⟩
  exact prefix_get?_length _ _ _ hpre

/-- C3: when the first output `c` of a Conv node is the first input of two
distinct Relu nodes, `FindActivation` finds nothing to fuse, and in a
successful `Convert` (1) the layers appended for the Conv node carry fuse code
None or no fuse code, among them the convolution layer (a Conv2D when group is
1) with fuse code None, and the last of them writes the resolved name of `c`;
(2) the model has, at two distinct positions, a Relu layer for each of the two
Relu nodes, reading the resolved name of `c`.  The resolved name is `c` itself
at all three nodes when no Dropout node of the graph writes `c` and the
converter had no alias for it. -/
theorem Convert_two_Relu_consumers {σ : Type} (env : Env σ) (model_proto : ModelProto)
    (ctx s : Converter σ) (out : DNN.Model) (i j k : Nat) (conv r1 r2 : NodeProto)
    (hi : (env.Optimize model_proto).graph.node.get? i = some conv)
    (hj : (env.Optimize model_proto).graph.node.get? j = some r1)
    (hk : (env.Optimize model_proto).graph.node.get? k = some r2)
    (hjk : j ≠ k) (hconv : conv.op_type = "Conv")
    (h1 : feedsRelu conv r1) (h2 : feedsRelu conv r2)
    (hok : Convert env model_proto ctx = Outcome.ok out s) :
    FindActivation (env.Optimize model_proto) conv = (none, FuseCode.FUSED_NONE) ∧
    ∃ c y1 y2 sai ai ri bi saj aj sak ak Lc,
      conv.output.get? 0 = some c ∧ r1.output.get? 0 = some y1 ∧ r2.output.get? 0 = some y2 ∧
      runTo env model_proto i ctx = Outcome.ok (sai, false) ai ∧
      runTo env model_proto (i + 1) ctx = Outcome.ok ri bi ∧
      bi.layers_ = ai.layers_ ++ Lc ∧ bi.layers_ <+: out.layers ∧
      (∃ l ∈ Lc, l.fuse? = some DNN.FuseCode.None ∧
        (l.type = DNN.LayerType.Conv2D ∨ l.type = DNN.LayerType.DepthwiseConv2D) ∧
        (helper_get_int conv "group" 1 = 1 → l.type = DNN.LayerType.Conv2D)) ∧
      (∀ l ∈ Lc, l.fuse? = none ∨ l.fuse? = some DNN.FuseCode.None) ∧
      Lc.getLast?.map DNN.Layer.output = some (m ai.name_map_ c) ∧
      runTo env model_proto j ctx = Outcome.ok (saj, false) aj ∧
      runTo env model_proto k ctx = Outcome.ok (sak, false) ak ∧
      out.layers.get? aj.layers_.length =
        some (DNN.Layer.Relu (m aj.name_map_ c) (m aj.name_map_ y1)) ∧
      out.layers.get? ak.layers_.length =
        some (DNN.Layer.Relu (m ak.name_map_ c) (m ak.name_map_ y2)) ∧
      aj.layers_.length ≠ ak.layers_.length ∧
      ((∀ d ∈ (env.Optimize model_proto).graph.node,
          d.op_type = "Dropout" → d.output.head? ≠ some c) →
        ctx.name_map_.lookup c = none →
        m ai.name_map_ c = c ∧ m aj.name_map_ c = c ∧ m ak.name_map_ c = c) := by
  -- nothing is fused
  have hact : FindActivation (env.Optimize model_proto) conv = (none, FuseCode.FUSED_NONE) := by
    rw [FindActivation_eq]
    have hlen : 2 ≤ ((env.Optimize model_proto).graph.node.filter
        (fun r => decide (feedsRelu conv r))).length := by
      rcases Nat.lt_or_gt_of_ne hjk with hlt | hgt
      · exact filter_length_two _ _ j k r1 r2 hlt hj hk (by simpa using h1) (by simpa using h2)
      · exact filter_length_two _ _ k j r2 r1 hgt hk hj (by simpa using h2) (by simpa using h1)
    cases hf : (env.Optimize model_proto).graph.node.filter
        (fun r => decide (feedsRelu conv r)) with
    | nil => rfl
    | cons a l =>
      cases l with
      | nil => rw [hf] at hlen; simp at hlen
      | cons b l => rfl
  refine ⟨hact, ?_⟩
  -- the Conv node
  obtain ⟨sai, ai, ri, bi, hai, hnode, hbi, _, hbpre⟩ :=
    Convert_ok_step env model_proto ctx s out i conv hok hi
  rw [ConvertNode_Conv env _ conv sai hconv] at hnode
  obtain ⟨_, hconv_ok, _⟩ := bind_pure_pair_ok _ _ _ _ _ hnode
  obtain ⟨_, _, _, _, x, w, c, bias_name, nn, tensors, _, _, hc, _, hadd⟩ :=
    ConvertConv_ok env _ conv _ _ _ _ hconv_ok
  obtain ⟨Lc, hLc, hconvl, hall, hlast⟩ := AddConv_layers env _ _ _ _ _ _ _ _ _ _ bi hadd
  rw [hact] at hconvl hall
  -- the two Relu nodes
  obtain ⟨in1, y1, saj, aj, rj, bj, hin1, hy1, haj, hbj, hbjl, hgetj⟩ :=
    Convert_ok_Relu_step env model_proto ctx s out j r1 hok hj h1.1
  obtain ⟨in2, y2, sak, ak, rk, bk, hin2, hy2, hak, hbk, hbkl, hgetk⟩ :=
    Convert_ok_Relu_step env model_proto ctx s out k r2 hok hk h2.1
  have e1 : in1 = c := by
    have a1 := head?_eq_of_get?_zero _ _ hin1
    have a2 := head?_eq_of_get?_zero _ _ hc
    have a3 := h1.2.2
    rw [a1, a2] at a3
    exact Option.some.inj a3
  have e2 : in2 = c := by
    have a1 := head?_eq_of_get?_zero _ _ hin2
    have a2 := head?_eq_of_get?_zero _ _ hc
    have a3 := h2.2.2
    rw [a1, a2] at a3
    exact Option.some.inj a3
  rw [e1] at hgetj
  rw [e2] at hgetk
  have hlen : aj.layers_.length ≠ ak.layers_.length := by
    rcases Nat.lt_or_gt_of_ne hjk with hlt | hgt
    · have hp := runTo_layers_grow env model_proto (j + 1) k ctx bj ak _ _ hlt hbj hak
      have := hp.length_le
      rw [hbjl] at this
      simp only [List.length_append, List.length_singleton] at this
      omega
    · have hp := runTo_layers_grow env model_proto (k + 1) j ctx bk aj _ _ hgt hbk haj
      have := hp.length_le
      rw [hbkl] at this
      simp only [List.length_append, List.length_singleton] at this
      omega
  refine ⟨c, y1, y2, sai, ai, ri, bi, saj, aj, sak, ak, Lc, hc, hy1, hy2, hai, hbi, ?_, hbpre,
    hconvl, hall, hlast, haj, hak, hgetj, hgetk, hlen, ?_⟩
  · simpa [Converter.extend] using hLc
  · intro hdrop hnone
    exact ⟨runTo_lookup_none env model_proto i ctx ai _ c hdrop hai hnone,
      runTo_lookup_none env model_proto j ctx aj _ c hdrop haj hnone,
      runTo_lookup_none env model_proto k ctx ak _ c hdrop hak hnone⟩

/-- Witness of C3 on `Sample.convTwoRelu`: the conversion succeeds, the Conv2D
layer carries fuse code None, and both Relu nodes have their layer reading
`c`. -/
theorem Convert_two_Relu_consumers_witness :
    Convert Reference.env Sample.convTwoRelu Reference.fresh =
      Outcome.ok Sample.convTwoReluModel Sample.convTwoReluFinal ∧
    Sample.convTwoReluModel.layers =
      [DNN.Layer.Conv2D "x" "w_conv_w" none [0, 0, 0, 0] [1, 1] DNN.FuseCode.None "c",
        DNN.Layer.Relu "c" "y1", DNN.Layer.Relu "c" "y2"] ∧
    FindActivation (Reference.env.Optimize Sample.convTwoRelu)
        { name := "conv1", op_type := "Conv", input := ["x", "w"], output := ["c"] } =
      (none, FuseCode.FUSED_NONE) ∧
    ∃ c y1 y2 sai ai ri bi saj aj sak ak Lc,
      ["c"].get? 0 = some c ∧ ["y1"].get? 0 = some y1 ∧ ["y2"].get? 0 = some y2 ∧
      runTo Reference.env Sample.convTwoRelu 0 Reference.fresh = Outcome.ok (sai, false) ai ∧
      runTo Reference.env Sample.convTwoRelu (0 + 1) Reference.fresh = Outcome.ok ri bi ∧
      bi.layers_ = ai.layers_ ++ Lc ∧ bi.layers_ <+: Sample.convTwoReluModel.layers ∧
      (∃ l ∈ Lc, l.fuse? = some DNN.FuseCode.None ∧
        (l.type = DNN.LayerType.Conv2D ∨ l.type = DNN.LayerType.DepthwiseConv2D) ∧
        ((1 : Int) = 1 → l.type = DNN.LayerType.Conv2D)) ∧
      (∀ l ∈ Lc, l.fuse? = none ∨ l.fuse? = some DNN.FuseCode.None) ∧
      Lc.getLast?.map DNN.Layer.output = some (m ai.name_map_ c) ∧
      runTo Reference.env Sample.convTwoRelu 1 Reference.fresh = Outcome.ok (saj, false) aj ∧
      runTo Reference.env Sample.convTwoRelu 2 Reference.fresh = Outcome.ok (sak, false) ak ∧
      Sample.convTwoReluModel.layers.get? aj.layers_.length =
        some (DNN.Layer.Relu (m aj.name_map_ c) (m aj.name_map_ y1)) ∧
      Sample.convTwoReluModel.layers.get? ak.layers_.length =
        some (DNN.Layer.Relu (m ak.name_map_ c) (m ak.name_map_ y2)) ∧
      aj.layers_.length ≠ ak.layers_.length ∧
      ((∀ d ∈ (Reference.env.Optimize Sample.convTwoRelu).graph.node,
          d.op_type = "Dropout" → d.output.head? ≠ some c) →
        Reference.fresh.name_map_.lookup c = none →
        m ai.name_map_ c = c ∧ m aj.name_map_ c = c ∧ m ak.name_map_ c = c) :=
  have hrun : Convert Reference.env Sample.convTwoRelu Reference.fresh =
      Outcome.ok Sample.convTwoReluModel Sample.convTwoReluFinal := by
    simp only [Convert, Sample.convTwoRelu, ConvertLoop, ConvertNode, ConvertConv,
      AddConv_eq_AddConvN _ 0]
    rfl
  have hthm := Convert_two_Relu_consumers Reference.env Sample.convTwoRelu Reference.fresh
    Sample.convTwoReluFinal Sample.convTwoReluModel 0 1 2
    { name := "conv1", op_type := "Conv", input := ["x", "w"], output := ["c"] }
    { name := "relu1", op_type := "Relu", input := ["c"], output := ["y1"] }
    { name := "relu2", op_type := "Relu", input := ["c"], output := ["y2"] }
    rfl rfl rfl (by decide) rfl (by decide) (by decide) hrun
  ⟨hrun, rfl, hthm.1, hthm.2⟩

/-! ## The adjusted pads of the dilated path -/

theorem ceil_to_multiple_eq_div (y D : Nat) (hD : 0 < D) :
    (y + (D - 1)) / D * D = ceil_to_multiple y D := by
  unfold ceil_to_multiple
  have hy := Nat.div_add_mod y D
  have hr := Nat.mod_lt y hD
  by_cases h0 : y % D = 0
  · rw [if_pos h0]
    have e : y + (D - 1) = (D - 1) + D * (y / D) := by omega
    rw [e, Nat.add_mul_div_left _ _ hD, Nat.div_eq_of_lt (by omega), Nat.zero_add,
      Nat.mul_comm]
    omega
  · rw [if_neg h0]
    have e : y + (D - 1) = (y % D - 1) + D * (y / D + 1) := by
      rw [Nat.mul_add]; omega
    rw [e, Nat.add_mul_div_left _ _ hD, Nat.div_eq_of_lt (by omega), Nat.zero_add,
      Nat.mul_comm, Nat.mul_add]
    omega

theorem ceil_to_multiple_spec (y D : Nat) (hD : 0 < D) :
    D ∣ ceil_to_multiple y D ∧ y ≤ ceil_to_multiple y D ∧ ceil_to_multiple y D < y + D ∧
    ∀ z, D ∣ z → y ≤ z → ceil_to_multiple y D ≤ z := by
  have hr := Nat.mod_lt y hD
  have hy := Nat.div_add_mod y D
  unfold ceil_to_multiple
  by_cases h0 : y % D = 0
  · simp only [if_pos h0]
    refine ⟨Nat.dvd_of_mod_eq_zero h0, Nat.le_refl _, by omega, fun z _ hz => hz⟩
  · simp only [if_neg h0]
    have e : y + (D - y % D) = D * (y / D + 1) := by rw [Nat.mul_add]; omega
    refine ⟨?_, by omega, by omega, ?_⟩
    · rw [e]; exact Nat.dvd_mul_right _ _
    · rintro z ⟨k, rfl⟩ hz
      rw [e]
      apply Nat.mul_le_mul_left
      by_contra hlt
      have hk : k ≤ y / D := by omega
      have := Nat.mul_le_mul_left D hk
      omega

theorem adjusted_pad_eq (n : Nat) (p d : Int) (hd : 1 ≤ d) (hp : 0 ≤ p)
    (hsum : (n : Int) + p + (d - 1) < 4294967296) (hfit : p + (d - 1) < 2147483648) :
    adjusted_pad n p d = (ceil_to_multiple (n + p.toNat) d.toNat : Int) - n := by
  obtain ⟨P, rfl⟩ := Int.eq_ofNat_of_zero_le hp
  obtain ⟨D, rfl⟩ := Int.eq_ofNat_of_zero_le (by omega : (0 : Int) ≤ d)
  have hD : 0 < D := by omega
  have hc := ceil_to_multiple_spec (n + P) D hD
  simp only [Int.toNat_ofNat]
  rw [← ceil_to_multiple_eq_div _ _ hD] at hc ⊢
  obtain ⟨-, h1, h2, -⟩ := hc
  unfold adjusted_pad
  have e1 : u32 ((n : Int) + (P : Int) + ((D : Int) - 1)) = n + P + (D - 1) := by
    unfold u32
    rw [Int.emod_eq_of_lt (by omega) (by omega)]
    omega
  have e2 : u32 (D : Int) = D := by
    unfold u32
    rw [Int.emod_eq_of_lt (by omega) (by omega)]
    omega
  rw [e1, e2]
  generalize (n + P + (D - 1)) / D * D = q at h1 h2 ⊢
  have e3 : u32 ((q : Int) - (n : Int)) = q - n := by
    unfold u32
    rw [Int.emod_eq_of_lt (by omega) (by omega)]
    omega
  rw [e3]
  unfold i32
  rw [Nat.mod_eq_of_lt (by omega), if_pos (by omega)]
  omega

theorem new_pads_eq_some (input_shape : Shape) (pads dilations np : List Int)
    (h : new_pads input_shape pads dilations = some np) :
    ∃ hh p1 d0 w p3 d1,
      input_shape.get? 1 = some hh ∧ pads.get? 1 = some p1 ∧ dilations.get? 0 = some d0 ∧
      input_shape.get? 2 = some w ∧ pads.get? 3 = some p3 ∧ dilations.get? 1 = some d1 ∧
      np = (pads.set 1 (adjusted_pad hh p1 d0)).set 3 (adjusted_pad w p3 d1) := by
  unfold new_pads at h
  simp only [Option.bind_eq_bind, Option.bind_eq_some] at h
  obtain ⟨hh, e1, p1, e2, d0, e3, h⟩ := h
  split at h
  · exact absurd h (by simp)
  simp only [Option.bind_eq_some] at h
  obtain ⟨_, -, w, e4, p3, e5, d1, e6, h⟩ := h
  split at h
  · exact absurd h (by simp)
  simp only [Option.pure_def, Option.some_bind, Option.some.injEq] at h
  exact ⟨hh, p1, d0, w, p3, d1, e1, e2, e3, e4, e5, e6, h.symm⟩

theorem new_pads_get (input_shape : Shape) (pads dilations np : List Int)
    (h : new_pads input_shape pads dilations = some np) :
    np.length = pads.length ∧ np.get? 0 = pads.get? 0 ∧ np.get? 2 = pads.get? 2 ∧
    (∀ n p d, input_shape.get? 1 = some n → pads.get? 1 = some p → dilations.get? 0 = some d →
      np.get? 1 = some (adjusted_pad n p d)) ∧
    (∀ n p d, input_shape.get? 2 = some n → pads.get? 3 = some p → dilations.get? 1 = some d →
      np.get? 3 = some (adjusted_pad n p d)) := by
  obtain ⟨hh, p1, d0, w, p3, d1, e1, e2, e3, e4, e5, e6, rfl⟩ := new_pads_eq_some _ _ _ _ h
  have l1 : 1 < pads.length := by
    rw [List.get?_eq_getElem?] at e2
    exact (List.getElem?_eq_some_iff.mp e2).1
  have l3 : 3 < pads.length := by
    rw [List.get?_eq_getElem?] at e5
    exact (List.getElem?_eq_some_iff.mp e5).1
  refine ⟨by simp, ?_, ?_, ?_, ?_⟩
  · simp [List.getElem?_set]
  · simp [List.getElem?_set]
  · intro n p d h1 h2 h3
    rw [e1] at h1; rw [e2] at h2; rw [e3] at h3
    cases h1; cases h2; cases h3
    simp [List.getElem?_set, l1]
  · intro n p d h1 h2 h3
    rw [e4] at h1; rw [e5] at h2; rw [e6] at h3
    cases h1; cases h2; cases h3
    simp [List.getElem?_set, l3]

theorem adjusted_pad_spec (n : Nat) (p d : Int) (hd : 1 ≤ d) (hp : 0 ≤ p)
    (hsum : (n : Int) + p + (d - 1) < 4294967296) (hfit : p + (d - 1) < 2147483648) :
    adjusted_pad n p d = (ceil_to_multiple (n + p.toNat) d.toNat : Int) - n ∧
    d ∣ (n : Int) + adjusted_pad n p d ∧ p ≤ adjusted_pad n p d ∧ adjusted_pad n p d < p + d ∧
    ∀ z : Nat, d.toNat ∣ z → n + p.toNat ≤ z → (n : Int) + adjusted_pad n p d ≤ z := by
  have e := adjusted_pad_eq n p d hd hp hsum hfit
  obtain ⟨P, rfl⟩ := Int.eq_ofNat_of_zero_le hp
  obtain ⟨D, rfl⟩ := Int.eq_ofNat_of_zero_le (by omega : (0 : Int) ≤ d)
  have hD : 0 < D := by omega
  obtain ⟨c1, c2, c3, c4⟩ := ceil_to_multiple_spec (n + P) D hD
  simp only [Int.toNat_ofNat] at e ⊢
  rw [e]
  refine ⟨rfl, ?_, by omega, by omega, ?_⟩
  · have : (n : Int) + ((ceil_to_multiple (n + P) D : Int) - n) = (ceil_to_multiple (n + P) D : Nat) := by
      omega
    rw [this]
    exact Int.natCast_dvd_natCast.mpr c1
  · intro z hz1 hz2
    have := c4 z hz1 hz2
    omega

/-- C11: in the dilated path the pads given to the space-to-batch layer are
`pads` with entries 1 and 3 replaced, so the two low-side pads (entries 0 and
2) are passed on unchanged.  On each spatial axis with dilation `d ≥ 1`,
high-side pad `p ≥ 0` and input extent `n`, when neither the unsigned sum
`n + p + (d - 1)` nor the signed result overflows 32 bits, the replaced entry
is `ceil_to_multiple (n + p) d - n`: `n` plus it is a multiple of `d`, indeed
the least one that is at least `n + p`, and it lies in `[p, p + d)`. -/
theorem AddConv_adjusted_pads {σ : Type} (env : Env σ) (input_name : String)
    (strides pads dilations : List Int) (group : Int) (activation : Option String × FuseCode)
    (ori_weight_name : String) (bias_name : Option String) (output_name : String)
    (ctx s : Converter σ) (hd : dilations ≠ [1, 1])
    (hok : AddConv env input_name strides pads dilations group activation ori_weight_name
      bias_name output_name ctx = Outcome.ok () s) :
    ∃ input_shape np,
      env.shaper.get ctx.shaper_ input_name = Except.ok input_shape ∧
      s.layers_.get? ctx.layers_.length =
        some (DNN.Layer.SpaceToBatch input_name dilations np (input_name ++ "_s2b")) ∧
      np.length = pads.length ∧ np.get? 0 = pads.get? 0 ∧ np.get? 2 = pads.get? 2 ∧
      ∀ (axis n : Nat) (p d : Int), axis < 2 →
        input_shape.get? (axis + 1) = some n → pads.get? (2 * axis + 1) = some p →
        dilations.get? axis = some d → 1 ≤ d → 0 ≤ p →
        (n : Int) + p + (d - 1) < 4294967296 → p + (d - 1) < 2147483648 →
        ∃ a, np.get? (2 * axis + 1) = some a ∧
          a = (ceil_to_multiple (n + p.toNat) d.toNat : Int) - n ∧
          d ∣ (n : Int) + a ∧ p ≤ a ∧ a < p + d ∧
          ∀ z : Nat, d.toNat ∣ z → n + p.toNat ≤ z → (n : Int) + a ≤ z := by
  obtain ⟨-, input_shape, np, sh1, s2, sh3, b2s_shape, ends_, sh4, hget, hnp, hrec, -, -, -,
    hs⟩ := AddConv_dilated_ok env input_name strides pads dilations group activation
      ori_weight_name bias_name output_name ctx s hd hok
  have hf := AddConv_keeps env (input_name ++ "_s2b") strides [0, 0, 0, 0] [1, 1] group
    activation ori_weight_name bias_name (input_name ++ "_conv_imm")
    (ctx.extend sh1 []
      [DNN.Layer.SpaceToBatch input_name dilations np (input_name ++ "_s2b")] [])
  rw [hrec] at hf
  have hpre : ctx.layers_ ++
      [DNN.Layer.SpaceToBatch input_name dilations np (input_name ++ "_s2b")] <+: s.layers_ := by
    rw [hs]
    exact List.IsPrefix.trans hf.2.2.2.1 (List.prefix_append _ _)
  obtain ⟨g1, g2, g3, g4, g5⟩ := new_pads_get _ _ _ _ hnp
  refine ⟨input_shape, np, hget, prefix_get?_length _ _ _ hpre, g1, g2, g3, ?_⟩
  intro axis n p d hax hn hp hdl h1 h2 h3 h4
  have key := adjusted_pad_spec n p d h1 h2 h3 h4
  have hcases : axis = 0 ∨ axis = 1 := by omega
  rcases hcases with rfl | rfl
  · exact ⟨adjusted_pad n p d, g4 n p d hn hp hdl, key⟩
  · exact ⟨adjusted_pad n p d, g5 n p d hn hp hdl, key⟩

theorem AddConv_adjusted_pads_witness :
    AddConv Reference.env "x" [1, 1] [0, 1, 0, 1] [2, 2] 1 (none, FuseCode.FUSED_NONE) "w" none
        "c" Sample.ready = Outcome.ok () Sample.readyDilated ∧
    ∃ np, Sample.readyDilated.layers_.get? 0 =
        some (DNN.Layer.SpaceToBatch "x" [2, 2] np "x_s2b") ∧
      np.get? 0 = some 0 ∧ np.get? 2 = some 0 ∧
      np.get? 1 = some ((ceil_to_multiple (7 + 1) 2 : Int) - 7) ∧
      np.get? 3 = some ((ceil_to_multiple (7 + 1) 2 : Int) - 7) ∧
      adjusted_pad 7 0 2 = 1 ∧ adjusted_pad 7 1 3 = 2 := by
  have hrun : AddConv Reference.env "x" [1, 1] [0, 1, 0, 1] [2, 2] 1
      (none, FuseCode.FUSED_NONE) "w" none "c" Sample.ready =
      Outcome.ok () Sample.readyDilated :=
    (congrFun (AddConv_eq_AddConvN Reference.env 0 _ _ _ _ _ _ _ _ _) Sample.ready).trans rfl
  refine ⟨hrun, ?_⟩
  obtain ⟨input_shape, np, h1, h2, -, h4, h5, h6⟩ :=
    AddConv_adjusted_pads Reference.env "x" [1, 1] [0, 1, 0, 1] [2, 2] 1
      (none, FuseCode.FUSED_NONE) "w" none "c" Sample.ready Sample.readyDilated (by decide) hrun
  have hshape : input_shape = [1, 7, 7, 1] := by
    have : (Except.ok [1, 7, 7, 1] : Except String Shape) = Except.ok input_shape := h1
    cases this
    rfl
  subst hshape
  obtain ⟨a, ha, hae, -⟩ := h6 0 7 1 2 (by decide) rfl rfl rfl (by decide) (by decide)
    (by decide) (by decide)
  obtain ⟨b, hb, hbe, -⟩ := h6 1 7 1 2 (by decide) rfl rfl rfl (by decide) (by decide)
    (by decide) (by decide)
  subst hae hbe
  exact ⟨np, h2, h4, h5, ha, hb, by decide, by decide⟩

/-! ## The undilated convolution: vanilla and depthwise -/

theorem AddConv_vanilla_iff {σ : Type} (env : Env σ) (input_name : String)
    (strides pads : List Int) (activation : Option String × FuseCode)
    (ori_weight_name : String) (bias_name : Option String) (output_name : String)
    (ctx s : Converter σ) :
    AddConv env input_name strides pads [1, 1] 1 activation ori_weight_name bias_name
        output_name ctx = Outcome.ok () s ↔
      ∃ onnx_weight sh1 sh2 s0 s1 p0 p1 p2 p3,
        ctx.onnx_tensors_.lookup ori_weight_name = some onnx_weight ∧
        strides.get? 0 = some s0 ∧ strides.get? 1 = some s1 ∧
        pads.get? 0 = some p0 ∧ pads.get? 1 = some p1 ∧
        pads.get? 2 = some p2 ∧ pads.get? 3 = some p3 ∧
        env.shaper.AddShape ctx.shaper_ (ori_weight_name ++ "_conv_w")
          (env.OnnxToNnapiVanilla onnx_weight).shape = Except.ok sh1 ∧
        env.shaper.Conv sh1 input_name s1 s0 1 1 p2 p3 p0 p1 (ori_weight_name ++ "_conv_w")
          output_name = Except.ok sh2 ∧
        s = ctx.extend sh2 [(ori_weight_name ++ "_conv_w", env.OnnxToNnapiVanilla onnx_weight)]
          [DNN.Layer.Conv2D input_name (ori_weight_name ++ "_conv_w")
            bias_name pads strides (ConvertFuseCodeType activation.2) output_name]
          [CreateTensorDirect (env.OnnxToNnapiVanilla onnx_weight)
            (ori_weight_name ++ "_conv_w")] := by
  rw [AddConv]
  simp only [ne_eq, not_true_eq_false, dite_false, if_true, bind_assoc, pure_bind,
    onnxTensorAt_bind_eq_ok, callShaper_bind_eq_ok, at__bind_eq_ok, setNnapiTensor_bind_run,
    pushTensor_bind_run, pushLayer_run, Outcome.ok.injEq, true_and]
  constructor
  · rintro ⟨w, hw, sh1, h1, a1, ha1, a0, ha0, a2, ha2, a3, ha3, b0, hb0, b1, hb1, sh2, h2, rfl⟩
    exact ⟨w, sh1, sh2, a0, a1, b0, b1, a2, a3, hw, ha0, ha1, hb0, hb1, ha2, ha3, h1, h2, rfl⟩
  · rintro ⟨w, sh1, sh2, a0, a1, b0, b1, a2, a3, hw, ha0, ha1, hb0, hb1, ha2, ha3, h1, h2, rfl⟩
    exact ⟨w, hw, sh1, h1, a1, ha1, a0, ha0, a2, ha2, a3, ha3, b0, hb0, b1, hb1, sh2, h2, rfl⟩

theorem AddConv_depthwise_iff {σ : Type} (env : Env σ) (input_name : String)
    (strides pads : List Int) (group : Int) (activation : Option String × FuseCode)
    (ori_weight_name : String) (bias_name : Option String) (output_name : String)
    (ctx s : Converter σ) (hg : group ≠ 1) (hz : u32 group ≠ 0) (onnx_weight : FTensor)
    (hw : ctx.onnx_tensors_.lookup ori_weight_name = some onnx_weight)
    (hdw : onnx_weight.shape.get? 1 = some 1) :
    AddConv env input_name strides pads [1, 1] group activation ori_weight_name bias_name
        output_name ctx = Outcome.ok () s ↔
      ∃ sh1 sh2 s0 s1 p0 p1 p2 p3 w3,
        strides.get? 0 = some s0 ∧ strides.get? 1 = some s1 ∧
        pads.get? 0 = some p0 ∧ pads.get? 1 = some p1 ∧
        pads.get? 2 = some p2 ∧ pads.get? 3 = some p3 ∧
        env.shaper.AddShape ctx.shaper_ (ori_weight_name ++ "_dwconv_w")
          (env.OnnxToNnapiDw onnx_weight).shape = Except.ok sh1 ∧
        env.shaper.DepthwiseConv sh1 input_name s1 s0 1 1 p2 p3 p0 p1
          (ori_weight_name ++ "_dwconv_w") output_name = Except.ok sh2 ∧
        (env.OnnxToNnapiDw onnx_weight).shape.get? 3 = some w3 ∧
        s = ctx.extend sh2 [(ori_weight_name ++ "_dwconv_w", env.OnnxToNnapiDw onnx_weight)]
          [DNN.Layer.DepthwiseConv2D input_name (ori_weight_name ++ "_dwconv_w")
            bias_name pads strides (w3 / u32 group) (ConvertFuseCodeType activation.2)
            output_name]
          [CreateTensorDirect (env.OnnxToNnapiDw onnx_weight)
            (ori_weight_name ++ "_dwconv_w")] := by
  rw [AddConv]
  simp only [ne_eq, not_true_eq_false, dite_false, hg, if_false, if_true, bind_assoc, pure_bind,
    onnxTensorAt_bind_run, hw, hdw, hz, Option.some.injEq, exists_eq_left',
    callShaper_bind_eq_ok, at__bind_eq_ok, setNnapiTensor_bind_run,
    pushTensor_bind_run, pushLayer_run, Outcome.ok.injEq, true_and]
  constructor
  · rintro ⟨sh1, h1, a1, ha1, a0, ha0, a2, ha2, a3, ha3, b0, hb0, b1, hb1, sh2, h2, w3, h3, rfl⟩
    exact ⟨sh1, sh2, a0, a1, b0, b1, a2, a3, w3, ha0, ha1, hb0, hb1, ha2, ha3, h1, h2, h3, rfl⟩
  · rintro ⟨sh1, sh2, a0, a1, b0, b1, a2, a3, w3, ha0, ha1, hb0, hb1, ha2, ha3, h1, h2, h3, rfl⟩
    exact ⟨sh1, h1, a1, ha1, a0, ha0, a2, ha2, a3, ha3, b0, hb0, b1, hb1, sh2, h2, w3, h3, rfl⟩
theorem u32_of_int_range (x : Int) (h0 : 0 ≤ x) (h1 : x < 4294967296) : u32 x = x.toNat := by
  unfold u32
  rw [Int.emod_eq_of_lt h0 h1]

/-- C12: with dilations `(1,1)` and the weight among the source tensors,
`AddConv` with group 1 succeeds exactly when the reads of strides and pads and
the two calls of the shape service do, and then it has appended exactly one
layer, Conv2D of the input, the weight `<weight>_conv_w`, the optional bias,
the given pads and strides and the fuse code, and exactly one tensor; with
group > 1 and second dimension 1 of the source weight it appends, likewise,
exactly one DepthwiseConv2D layer with the weight `<weight>_dwconv_w` and
multiplier (dimension 3 of the converted weight) / group, an integer
division, and exactly one tensor.  Dimension 3 is the last one of a 4-D
converted weight. -/
theorem AddConv_plain_layers {σ : Type} (env : Env σ) (input_name : String)
    (strides pads : List Int) (group : Int) (activation : Option String × FuseCode)
    (ori_weight_name : String) (bias_name : Option String) (output_name : String)
    (ctx s : Converter σ) (onnx_weight : FTensor)
    (hw : ctx.onnx_tensors_.lookup ori_weight_name = some onnx_weight) :
    (group = 1 →
      (AddConv env input_name strides pads [1, 1] group activation ori_weight_name bias_name
          output_name ctx = Outcome.ok () s ↔
        ∃ sh1 sh2 s0 s1 p0 p1 p2 p3,
          strides.get? 0 = some s0 ∧ strides.get? 1 = some s1 ∧
          pads.get? 0 = some p0 ∧ pads.get? 1 = some p1 ∧
          pads.get? 2 = some p2 ∧ pads.get? 3 = some p3 ∧
          env.shaper.AddShape ctx.shaper_ (ori_weight_name ++ "_conv_w")
            (env.OnnxToNnapiVanilla onnx_weight).shape = Except.ok sh1 ∧
          env.shaper.Conv sh1 input_name s1 s0 1 1 p2 p3 p0 p1 (ori_weight_name ++ "_conv_w")
            output_name = Except.ok sh2 ∧
          s = ctx.extend sh2
            [(ori_weight_name ++ "_conv_w", env.OnnxToNnapiVanilla onnx_weight)]
            [DNN.Layer.Conv2D input_name (ori_weight_name ++ "_conv_w")
              bias_name pads strides (ConvertFuseCodeType activation.2) output_name]
            [CreateTensorDirect (env.OnnxToNnapiVanilla onnx_weight)
              (ori_weight_name ++ "_conv_w")])) ∧
    (1 < group → group < 2147483648 → onnx_weight.shape.get? 1 = some 1 →
      (AddConv env input_name strides pads [1, 1] group activation ori_weight_name bias_name
          output_name ctx = Outcome.ok () s ↔
        ∃ sh1 sh2 s0 s1 p0 p1 p2 p3 w3,
          strides.get? 0 = some s0 ∧ strides.get? 1 = some s1 ∧
          pads.get? 0 = some p0 ∧ pads.get? 1 = some p1 ∧
          pads.get? 2 = some p2 ∧ pads.get? 3 = some p3 ∧
          env.shaper.AddShape ctx.shaper_ (ori_weight_name ++ "_dwconv_w")
            (env.OnnxToNnapiDw onnx_weight).shape = Except.ok sh1 ∧
          env.shaper.DepthwiseConv sh1 input_name s1 s0 1 1 p2 p3 p0 p1
            (ori_weight_name ++ "_dwconv_w") output_name = Except.ok sh2 ∧
          (env.OnnxToNnapiDw onnx_weight).shape.get? 3 = some w3 ∧
          s = ctx.extend sh2
            [(ori_weight_name ++ "_dwconv_w", env.OnnxToNnapiDw onnx_weight)]
            [DNN.Layer.DepthwiseConv2D input_name (ori_weight_name ++ "_dwconv_w")
              bias_name pads strides (w3 / group.toNat) (ConvertFuseCodeType activation.2)
              output_name]
            [CreateTensorDirect (env.OnnxToNnapiDw onnx_weight)
              (ori_weight_name ++ "_dwconv_w")]) ∧
      (∀ w3 : Nat, ((w3 / group.toNat : Nat) : Int) = (w3 : Int) / group) ∧
      ((env.OnnxToNnapiDw onnx_weight).shape.length = 4 →
        (env.OnnxToNnapiDw onnx_weight).shape.get? 3 =
          (env.OnnxToNnapiDw onnx_weight).shape.getLast?)) := by
  constructor
  · rintro rfl
    rw [AddConv_vanilla_iff]
    constructor
    · rintro ⟨w, sh1, sh2, a0, a1, b0, b1, a2, a3, hw1, h⟩
      rw [hw] at hw1
      cases hw1
      exact ⟨sh1, sh2, a0, a1, b0, b1, a2, a3, h⟩
    · rintro ⟨sh1, sh2, a0, a1, b0, b1, a2, a3, h⟩
      exact ⟨onnx_weight, sh1, sh2, a0, a1, b0, b1, a2, a3, hw, h⟩
  · intro hg1 hg2 hdw
    have hu : u32 group = group.toNat := u32_of_int_range group (by omega) (by omega)
    have hz : u32 group ≠ 0 := by rw [hu]; omega
    refine ⟨?_, ?_, ?_⟩
    · rw [AddConv_depthwise_iff env input_name strides pads group activation ori_weight_name
        bias_name output_name ctx s (by omega) hz onnx_weight hw hdw, hu]
    · intro w3
      obtain ⟨G, rfl⟩ := Int.eq_ofNat_of_zero_le (by omega : (0 : Int) ≤ group)
      simp
    · intro hlen
      generalize (env.OnnxToNnapiDw onnx_weight).shape = l at hlen
      match l, hlen with
      | [a, b, c, d], _ => rfl

theorem AddConv_plain_layers_witness :
    AddConv Reference.env "x" [1, 1] [0, 0, 0, 0] [1, 1] 1 (none, FuseCode.FUSED_NONE) "w" none
        "c" Sample.ready =
      Outcome.ok () (Sample.ready.extend
        [("c", [1, 5, 5, 1]), ("w_conv_w", [1, 3, 3, 1]), ("x", [1, 7, 7, 1])]
        [("w_conv_w", { data := List.replicate 9 float_one, shape := [1, 3, 3, 1] })]
        [DNN.Layer.Conv2D "x" "w_conv_w" none [0, 0, 0, 0] [1, 1] DNN.FuseCode.None "c"]
        [{ data_type := DNN.DataType.Float32, float32_data := List.replicate 9 float_one,
           shape := [1, 3, 3, 1], name := "w_conv_w" }]) ∧
    AddConv Reference.env "x" [1, 1] [0, 0, 0, 0] [1, 1] 2 (none, FuseCode.FUSED_NONE) "w" none
        "c" Sample.readyDw =
      Outcome.ok () (Sample.readyDw.extend
        [("c", [1, 7, 7, 4]), ("w_dwconv_w", [1, 1, 1, 4]), ("x", [1, 7, 7, 2])]
        [("w_dwconv_w", { data := List.replicate 4 float_one, shape := [1, 1, 1, 4] })]
        [DNN.Layer.DepthwiseConv2D "x" "w_dwconv_w" none [0, 0, 0, 0] [1, 1] 2
          DNN.FuseCode.None "c"]
        [{ data_type := DNN.DataType.Float32, float32_data := List.replicate 4 float_one,
           shape := [1, 1, 1, 4], name := "w_dwconv_w" }]) :=
  ⟨((AddConv_plain_layers Reference.env "x" [1, 1] [0, 0, 0, 0] 1 (none, FuseCode.FUSED_NONE)
      "w" none "c" Sample.ready _ _ rfl).1 rfl).mpr
      ⟨[("w_conv_w", [1, 3, 3, 1]), ("x", [1, 7, 7, 1])],
        [("c", [1, 5, 5, 1]), ("w_conv_w", [1, 3, 3, 1]), ("x", [1, 7, 7, 1])],
        1, 1, 0, 0, 0, 0, rfl, rfl, rfl, rfl, rfl, rfl, rfl, rfl, rfl⟩,
    ((AddConv_plain_layers Reference.env "x" [1, 1] [0, 0, 0, 0] 2 (none, FuseCode.FUSED_NONE)
      "w" none "c" Sample.readyDw _ _ rfl).2 (by decide) (by decide) rfl).1.mpr
      ⟨[("w_dwconv_w", [1, 1, 1, 4]), ("x", [1, 7, 7, 2])],
        [("c", [1, 7, 7, 4]), ("w_dwconv_w", [1, 1, 1, 4]), ("x", [1, 7, 7, 2])],
        1, 1, 0, 0, 0, 0, 4, rfl, rfl, rfl, rfl, rfl, rfl, rfl, rfl, rfl, rfl⟩⟩

/-! ## The Concat branch -/

theorem getState_bind_eq_ok {S β : Type} (f : S → Exec S β) (s s2 : S) (b : β) :
    (getState >>= f) s = Outcome.ok b s2 ↔ f s s = Outcome.ok b s2 := by
  rw [getState_bind_run]

theorem ConvertNode_Concat {σ : Type} (env : Env σ) (g : ModelProto) (node : NodeProto)
    (sa : List String) (hop : node.op_type = "Concat") :
    ConvertNode env g node sa =
      (ConvertConcat env node >>= fun _ => pure (sa, false)) := by
  simp [ConvertNode, hop]

theorem ConvertConcat_iff {σ : Type} (env : Env σ) (node : NodeProto) (ctx s : Converter σ) :
    ConvertConcat env node ctx = Outcome.ok () s ↔
      ∃ inputs output sh nhwc_axis,
        concat_inputs ctx.name_map_ node.input = some inputs ∧
        node.output.get? 0 = some output ∧
        env.shaper.Concat ctx.shaper_ node.input (helper_get_int node "axis" 1)
          (m ctx.name_map_ output) = Except.ok sh ∧
        0 ≤ helper_get_int node "axis" 1 ∧
        axis_nchw_to_nhwc.get? (helper_get_int node "axis" 1).toNat = some nhwc_axis ∧
        s = ctx.extend sh []
          [DNN.Layer.Concat inputs nhwc_axis (m ctx.name_map_ output)] [] := by
  unfold ConvertConcat
  simp only [getState_bind_eq_ok, defined_bind_eq_ok, m_output_bind_eq_ok,
    callShaper_bind_eq_ok]
  by_cases hneg : helper_get_int node "axis" 1 < 0
  · simp only [hneg, if_true, raise_bind, raise_run]
    constructor
    · rintro ⟨_, _, _, _, _, _, h⟩
      cases h
    · rintro ⟨_, _, _, _, _, _, _, h, _⟩
      omega
  · simp only [hneg, if_false, pure_bind, at__bind_eq_ok, pushLayer_run, Outcome.ok.injEq,
      true_and]
    constructor
    · rintro ⟨i, hi, o, ho, sh, hsh, a, ha, rfl⟩
      exact ⟨i, o, sh, a, hi, ho, hsh, by omega, ha, by simp [Converter.extend]⟩
    · rintro ⟨i, o, sh, a, hi, ho, hsh, _, ha, rfl⟩
      exact ⟨i, hi, o, ho, sh, hsh, a, ha, by simp [Converter.extend]⟩

/-- C13: the Concat branch on a node with source axis `a` in {0,1,2,3}
succeeds exactly when the layer inputs are defined, the node has an output
and the call of the shape service succeeds, and it then appends one Concat
layer that carries the axis `[0,3,1,2][a]`: 0 for 0, 3 for 1, 1 for 2 and 2
for 3.  The table is a bijection of {0,1,2,3}.  A node without the attribute
has source axis 1, hence layer axis 3. -/
theorem ConvertNode_Concat_axis {σ : Type} (env : Env σ) (g : ModelProto) (node : NodeProto)
    (sa : List String) (ctx s : Converter σ) (r : List String × Bool) (a : Nat)
    (hop : node.op_type = "Concat") (ha : a < 4)
    (haxis : helper_get_int node "axis" 1 = (a : Int)) :
    (ConvertNode env g node sa ctx = Outcome.ok r s ↔
      r = (sa, false) ∧ ∃ inputs output sh,
        concat_inputs ctx.name_map_ node.input = some inputs ∧
        node.output.get? 0 = some output ∧
        env.shaper.Concat ctx.shaper_ node.input a (m ctx.name_map_ output) = Except.ok sh ∧
        s = ctx.extend sh []
          [DNN.Layer.Concat inputs (([0, 3, 1, 2] : List Nat).getD a 0)
            (m ctx.name_map_ output)] []) ∧
    (([0, 3, 1, 2] : List Nat).getD 0 0 = 0 ∧ ([0, 3, 1, 2] : List Nat).getD 1 0 = 3 ∧
      ([0, 3, 1, 2] : List Nat).getD 2 0 = 1 ∧ ([0, 3, 1, 2] : List Nat).getD 3 0 = 2) ∧
    (∀ x y : Nat, x < 4 → y < 4 →
      ([0, 3, 1, 2] : List Nat).getD x 0 = ([0, 3, 1, 2] : List Nat).getD y 0 → x = y) ∧
    (∀ c : Nat, c < 4 → ∃ x, x < 4 ∧ ([0, 3, 1, 2] : List Nat).getD x 0 = c) ∧
    (∀ x : Nat, x < 4 → ([0, 3, 1, 2] : List Nat).getD x 0 < 4) ∧
    (node.attrs.find? (fun t => t.name = "axis") = none →
      a = 1 ∧ ([0, 3, 1, 2] : List Nat).getD a 0 = 3) := by
  refine ⟨?_, by decide, ?_, ?_, ?_, ?_⟩
  rotate_left
  · intro x y hx hy
    interval_cases x <;> interval_cases y <;> simp
  · intro c hc
    interval_cases c
    · exact ⟨0, by decide, rfl⟩
    · exact ⟨2, by decide, rfl⟩
    · exact ⟨3, by decide, rfl⟩
    · exact ⟨1, by decide, rfl⟩
  · intro x hx
    interval_cases x <;> decide
  rotate_left
  · rw [ConvertNode_Concat env g node sa hop]
    constructor
    · intro h
      obtain ⟨u, hu, hr⟩ := bind_pure_pair_ok _ _ _ _ _ h
      obtain ⟨i, o, sh, c, hi, ho, hsh, _, hc, rfl⟩ := (ConvertConcat_iff env node ctx s).mp hu
      rw [haxis] at hsh hc
      refine ⟨hr, i, o, sh, hi, ho, hsh, ?_⟩
      have : c = ([0, 3, 1, 2] : List Nat).getD a 0 := by
        simp only [Int.toNat_ofNat, axis_nchw_to_nhwc] at hc
        have ha' : a = 0 ∨ a = 1 ∨ a = 2 ∨ a = 3 := by omega
        rcases ha' with rfl | rfl | rfl | rfl <;> exact (Option.some.inj hc).symm
      rw [this]
    · rintro ⟨rfl, i, o, sh, hi, ho, hsh, rfl⟩
      have hc : ConvertConcat env node ctx = Outcome.ok () (ctx.extend sh []
          [DNN.Layer.Concat i (([0, 3, 1, 2] : List Nat).getD a 0) (m ctx.name_map_ o)] []) := by
        rw [ConvertConcat_iff]
        refine ⟨i, o, sh, _, hi, ho, ?_, ?_, ?_, rfl⟩
        · rw [haxis]; exact hsh
        · rw [haxis]; omega
        · rw [haxis]
          simp only [Int.toNat_ofNat, axis_nchw_to_nhwc]
          have ha' : a = 0 ∨ a = 1 ∨ a = 2 ∨ a = 3 := by omega
          rcases ha' with rfl | rfl | rfl | rfl <;> rfl
      rw [bind_run_ok hc]
      rfl
  · intro hnone
    have h1 : helper_get_int node "axis" 1 = 1 := by
      unfold helper_get_int
      rw [hnone]
    rw [h1] at haxis
    have : a = 1 := by omega
    subst this
    exact ⟨rfl, rfl⟩

theorem ConvertNode_Concat_axis_witness :
    ConvertNode Reference.env { graph := { node := [Sample.concatNode] } } Sample.concatNode []
        Sample.readyConcat =
      Outcome.ok ([], false) (Sample.readyConcat.extend
        [("y", [1, 5, 4, 4]), ("b", [1, 3, 4, 4]), ("a", [1, 2, 4, 4])] []
        [DNN.Layer.Concat ["a", "b"] 3 "y"] []) :=
  (ConvertNode_Concat_axis Reference.env _ Sample.concatNode [] Sample.readyConcat _ _ 1 rfl
    (by decide) rfl).1.mpr ⟨rfl, ["a", "b"], "y", _, rfl, rfl, rfl, rfl⟩

/-! ## The Gemm branch -/

theorem ConvertGemm_unsupported {σ : Type} (env : Env σ) (g : ModelProto) (node : NodeProto)
    (sa : List String) (ctx : Converter σ)
    (hattr : ¬ (helper_get_int node "transA" 0 = 0 ∧ helper_get_int node "transB" 0 = 1 ∧
      helper_get_float node "alpha" float_one = float_one ∧
      helper_get_float node "beta" float_one = float_one)) :
    ConvertGemm env g node sa ctx =
      Outcome.throw "Only transA == 0, transB == 1, alpha == 1.0 and beta == 1.0 is supported."
        ctx := by
  unfold ConvertGemm
  simp only [hattr, if_false, raise_run]

theorem ConvertGemm_iff {σ : Type} (env : Env σ) (g : ModelProto) (node : NodeProto)
    (sa r : List String) (ctx s : Converter σ) :
    ConvertGemm env g node sa ctx = Outcome.ok r s ↔
      r = push_skipped sa (FindActivation g node) ∧
      (helper_get_int node "transA" 0 = 0 ∧ helper_get_int node "transB" 0 = 1 ∧
        helper_get_float node "alpha" float_one = float_one ∧
        helper_get_float node "beta" float_one = float_one) ∧
      ∃ input weight output weight_tensor sh1 sh2 bias_name nn tensors,
        node.input.get? 0 = some input ∧ node.input.get? 1 = some weight ∧
        node.output.get? 0 = some output ∧
        ctx.onnx_tensors_.lookup (m ctx.name_map_ weight) = some weight_tensor ∧
        env.shaper.AddShape ctx.shaper_ (m ctx.name_map_ weight) weight_tensor.shape =
          Except.ok sh1 ∧
        ((node.input.length < 3 ∧ bias_name = none ∧ nn = [] ∧ tensors = []) ∨
          (∃ bias t, node.input.get? 2 = some bias ∧
            ctx.onnx_tensors_.lookup (m ctx.name_map_ bias) = some t ∧
            bias_name = some (m ctx.name_map_ bias) ∧ nn = [(m ctx.name_map_ bias, t)] ∧
            tensors = [CreateTensorDirect t (m ctx.name_map_ bias)])) ∧
        env.shaper.FC sh1 (m ctx.name_map_ input) (m ctx.name_map_ weight)
          (m ctx.name_map_ output) = Except.ok sh2 ∧
        s = ctx.extend sh2 (nn ++ [(m ctx.name_map_ weight, weight_tensor)])
          [DNN.Layer.FC (m ctx.name_map_ input) (m ctx.name_map_ weight) bias_name
            (ConvertFuseCodeType (FindActivation g node).2) (m ctx.name_map_ output)]
          (CreateTensorDirect weight_tensor (m ctx.name_map_ weight) :: tensors) := by
  by_cases hattr : helper_get_int node "transA" 0 = 0 ∧ helper_get_int node "transB" 0 = 1 ∧
      helper_get_float node "alpha" float_one = float_one ∧
      helper_get_float node "beta" float_one = float_one
  swap
  · rw [ConvertGemm_unsupported env g node sa ctx hattr]
    constructor
    · intro h; cases h
    · rintro ⟨_, h, _⟩; exact absurd h hattr
  unfold ConvertGemm
  simp only [hattr, and_self, if_true, true_and]
  by_cases hb : node.input.length ≥ 3
  · simp only [hb, if_true, bind_assoc, pure_bind, m_input_bind_eq_ok, m_output_bind_eq_ok,
      onnxTensorAt_bind_eq_ok, setNnapiTensor_bind_run, callShaper_bind_eq_ok,
      pushTensor_bind_run, pushLayer_bind_run, pure_run, Outcome.ok.injEq]
    constructor
    · rintro ⟨i, hi, w, hw, wt, hwt, sh1, h1, b, hbias, t, ht, o, ho, sh2, h2, hr, rfl⟩
      refine ⟨hr.symm, i, w, o, wt, sh1, sh2, _, _, _, hi, hw, ho, hwt, h1,
        Or.inr ⟨b, t, hbias, ht, rfl, rfl, rfl⟩, h2, ?_⟩
      simp [Converter.extend]
    · rintro ⟨rfl, i, w, o, wt, sh1, sh2, bn, nn, ts, hi, hw, ho, hwt, h1, hcase, h2, rfl⟩
      rcases hcase with ⟨hlt, _, _, _⟩ | ⟨b, t, hbias, ht, rfl, rfl, rfl⟩
      · omega
      · exact ⟨i, hi, w, hw, wt, hwt, sh1, h1, b, hbias, t, ht, o, ho, sh2, h2, rfl,
          by simp [Converter.extend]⟩
  · simp only [hb, if_false, bind_assoc, pure_bind, m_input_bind_eq_ok, m_output_bind_eq_ok,
      onnxTensorAt_bind_eq_ok, setNnapiTensor_bind_run, callShaper_bind_eq_ok,
      pushTensor_bind_run, pushLayer_bind_run, pure_run, Outcome.ok.injEq]
    constructor
    · rintro ⟨i, hi, w, hw, wt, hwt, sh1, h1, o, ho, sh2, h2, hr, rfl⟩
      refine ⟨hr.symm, i, w, o, wt, sh1, sh2, none, [], [], hi, hw, ho, hwt, h1,
        Or.inl ⟨by omega, rfl, rfl, rfl⟩, h2, ?_⟩
      simp [Converter.extend]
    · rintro ⟨rfl, i, w, o, wt, sh1, sh2, bn, nn, ts, hi, hw, ho, hwt, h1, hcase, h2, rfl⟩
      rcases hcase with ⟨hlt, rfl, rfl, rfl⟩ | ⟨b, t, hbias, ht, rfl, rfl, rfl⟩
      · exact ⟨i, hi, w, hw, wt, hwt, sh1, h1, o, ho, sh2, h2, rfl,
          by simp [Converter.extend]⟩
      · exfalso
        rw [List.get?_eq_getElem?] at hbias
        have := (List.getElem?_eq_some_iff.mp hbias).1
        omega

/-- C14: a Gemm node whose attributes are not `transA = 0`, `transB = 1`,
`alpha = 1`, `beta = 1` makes the branch throw in the state in which it was
entered, so no weight or bias tensor of the node has been appended, and makes
`Convert` fail for every graph that contains the node.  The branch succeeds
exactly when the attributes have these values, the operands are present and
the two calls of the shape service succeed; it then appends exactly one FC
layer.  A node without attributes has `transA = 0`, `transB = 0`, `alpha = 1`
and `beta = 1`. -/
theorem ConvertNode_Gemm_cases {σ : Type} (env : Env σ) (g : ModelProto) (node : NodeProto)
    (sa : List String) (ctx : Converter σ) (hop : node.op_type = "Gemm") :
    (¬ (helper_get_int node "transA" 0 = 0 ∧ helper_get_int node "transB" 0 = 1 ∧
        helper_get_float node "alpha" float_one = float_one ∧
        helper_get_float node "beta" float_one = float_one) →
      ConvertNode env g node sa ctx =
        Outcome.throw
          "Only transA == 0, transB == 1, alpha == 1.0 and beta == 1.0 is supported." ctx ∧
      ∀ (model_proto : ModelProto) (c : Converter σ),
        node ∈ (env.Optimize model_proto).graph.node → (Convert env model_proto c).fails) ∧
    (∀ (r : List String × Bool) (s : Converter σ),
      ConvertNode env g node sa ctx = Outcome.ok r s ↔
        r = (push_skipped sa (FindActivation g node), false) ∧
        (helper_get_int node "transA" 0 = 0 ∧ helper_get_int node "transB" 0 = 1 ∧
          helper_get_float node "alpha" float_one = float_one ∧
          helper_get_float node "beta" float_one = float_one) ∧
        ∃ input weight output weight_tensor sh1 sh2 bias_name nn tensors,
          node.input.get? 0 = some input ∧ node.input.get? 1 = some weight ∧
          node.output.get? 0 = some output ∧
          ctx.onnx_tensors_.lookup (m ctx.name_map_ weight) = some weight_tensor ∧
          env.shaper.AddShape ctx.shaper_ (m ctx.name_map_ weight) weight_tensor.shape =
            Except.ok sh1 ∧
          ((node.input.length < 3 ∧ bias_name = none ∧ nn = [] ∧ tensors = []) ∨
            (∃ bias t, node.input.get? 2 = some bias ∧
              ctx.onnx_tensors_.lookup (m ctx.name_map_ bias) = some t ∧
              bias_name = some (m ctx.name_map_ bias) ∧ nn = [(m ctx.name_map_ bias, t)] ∧
              tensors = [CreateTensorDirect t (m ctx.name_map_ bias)])) ∧
          env.shaper.FC sh1 (m ctx.name_map_ input) (m ctx.name_map_ weight)
            (m ctx.name_map_ output) = Except.ok sh2 ∧
          s = ctx.extend sh2 (nn ++ [(m ctx.name_map_ weight, weight_tensor)])
            [DNN.Layer.FC (m ctx.name_map_ input) (m ctx.name_map_ weight) bias_name
              (ConvertFuseCodeType (FindActivation g node).2) (m ctx.name_map_ output)]
            (CreateTensorDirect weight_tensor (m ctx.name_map_ weight) :: tensors)) ∧
    (node.attrs = [] →
      helper_get_int node "transA" 0 = 0 ∧ helper_get_int node "transB" 0 = 0 ∧
      helper_get_float node "alpha" float_one = float_one ∧
      helper_get_float node "beta" float_one = float_one) := by
  refine ⟨?_, ?_, ?_⟩
  · intro hattr
    have hthrow : ∀ (g : ModelProto) (sa : List String) (ctx : Converter σ),
        ConvertNode env g node sa ctx =
          Outcome.throw
            "Only transA == 0, transB == 1, alpha == 1.0 and beta == 1.0 is supported."
            ctx := by
      intro g sa ctx
      rw [ConvertNode_Gemm env g node sa hop,
        bind_run_throw (ConvertGemm_unsupported env g node sa ctx hattr)]
    refine ⟨hthrow g sa ctx, ?_⟩
    intro model_proto c hmem
    apply Convert_fails_of_loop
    intro sa hr c
    apply ConvertLoop_fails_of_mem env _ node _ _ hmem
    intro sa ctx
    rw [hthrow]
    trivial
  · intro r s
    rw [ConvertNode_Gemm env g node sa hop]
    constructor
    · intro h
      obtain ⟨u, hu, hr⟩ := bind_pure_pair_ok _ _ _ _ _ h
      obtain ⟨rfl, hrest⟩ := (ConvertGemm_iff env g node sa u ctx s).mp hu
      exact ⟨hr, hrest⟩
    · rintro ⟨rfl, hrest⟩
      have hu := (ConvertGemm_iff env g node sa _ ctx s).mpr ⟨rfl, hrest⟩
      rw [bind_run_ok hu]
      rfl
  · intro hnil
    simp [helper_get_int, helper_get_float, hnil]

theorem ConvertNode_Gemm_cases_witness :
    (ConvertNode Reference.env { graph := { node := [Sample.gemmPlain] } } Sample.gemmPlain []
        Sample.readyGemm =
      Outcome.throw "Only transA == 0, transB == 1, alpha == 1.0 and beta == 1.0 is supported."
        Sample.readyGemm ∧
      (Convert Reference.env { graph := { node := [Sample.gemmPlain] } } Reference.fresh).fails) ∧
    ConvertNode Reference.env { graph := { node := [Sample.gemmNode] } } Sample.gemmNode []
        Sample.readyGemm =
      Outcome.ok ([], false) (Sample.readyGemm.extend
        [("y", [1, 2]), ("w", [2, 3]), ("x", [1, 3])]
        [("b", { data := List.replicate 2 float_one, shape := [2] }),
          ("w", { data := List.replicate 6 float_one, shape := [2, 3] })]
        [DNN.Layer.FC "x" "w" (some "b") DNN.FuseCode.None "y"]
        [{ data_type := DNN.DataType.Float32, float32_data := List.replicate 6 float_one,
           shape := [2, 3], name := "w" },
          { data_type := DNN.DataType.Float32, float32_data := List.replicate 2 float_one,
            shape := [2], name := "b" }]) :=
  ⟨⟨((ConvertNode_Gemm_cases Reference.env _ Sample.gemmPlain [] Sample.readyGemm rfl).1
        (by decide)).1,
      ((ConvertNode_Gemm_cases Reference.env { graph := { node := [Sample.gemmPlain] } }
        Sample.gemmPlain [] Sample.readyGemm rfl).1 (by decide)).2 _ _
        (List.mem_singleton.mpr rfl)⟩,
    ((ConvertNode_Gemm_cases Reference.env _ Sample.gemmNode [] Sample.readyGemm rfl).2.1 _
      _).mpr
      ⟨rfl, by decide, "x", "w", "y", _, [("w", [2, 3]), ("x", [1, 3])],
        [("y", [1, 2]), ("w", [2, 3]), ("x", [1, 3])], _, _, _, rfl, rfl, rfl, rfl, rfl,
        Or.inr ⟨"b", _, rfl, rfl, rfl, rfl, rfl⟩, rfl, rfl⟩⟩

/-! ## The pooling branch -/

theorem m_input_bind_run {σ β : Type} (node : NodeProto) (i : Nat)
    (f : String → Exec (Converter σ) β) (s : Converter σ) :
    (m_input node i >>= f) s =
      match node.input.get? i with
      | some name => f (m s.name_map_ name) s
      | none => Outcome.throw "index out of range" s := by
  unfold m_input
  rw [bind_assoc, at__bind_run]
  cases node.input.get? i <;> rfl

theorem m_output_bind_run {σ β : Type} (node : NodeProto) (i : Nat)
    (f : String → Exec (Converter σ) β) (s : Converter σ) :
    (m_output node i >>= f) s =
      match node.output.get? i with
      | some name => f (m s.name_map_ name) s
      | none => Outcome.throw "index out of range" s := by
  unfold m_output
  rw [bind_assoc, at__bind_run]
  cases node.output.get? i <;> rfl

theorem ConvertPool_rejected {σ : Type} (env : Env σ) (g : ModelProto) (node : NodeProto)
    (sa : List String) (ctx : Converter σ)
    (hop : node.op_type = "AveragePool" ∨ node.op_type = "MaxPool")
    (hattr : helper_get_int node "count_include_pad" 0 = 1 ∨
      helper_get_int node "storage_order" 0 = 1 ∨ helper_has_attr node "auto_pad" = true) :
    ∃ e, ConvertPool env g node sa ctx = Outcome.throw e ctx := by
  unfold ConvertPool
  simp only [m_input_bind_run, m_output_bind_run]
  cases node.input.get? 0 with
  | none => exact ⟨_, rfl⟩
  | some input =>
  cases node.output.get? 0 with
  | none => exact ⟨_, rfl⟩
  | some output =>
  simp only [hop, if_true]
  by_cases h1 : helper_get_int node "count_include_pad" 0 = 1
  · simp only [h1, if_true, raise_bind, raise_run]
    exact ⟨_, rfl⟩
  by_cases h2 : helper_get_int node "storage_order" 0 = 1
  · simp only [h1, h2, if_true, if_false, pure_bind, raise_bind, raise_run]
    exact ⟨_, rfl⟩
  have h3 : helper_has_attr node "auto_pad" = true := by
    rcases hattr with h | h | h
    · exact absurd h h1
    · exact absurd h h2
    · exact h
  simp only [h1, h2, h3, if_true, if_false, pure_bind, raise_bind, raise_run]
  exact ⟨_, rfl⟩

theorem ConvertPool_global_iff {σ : Type} (env : Env σ) (g : ModelProto) (node : NodeProto)
    (sa r : List String) (ctx s : Converter σ)
    (hop : node.op_type = "GlobalAveragePool" ∨ node.op_type = "GlobalMaxPool") :
    ConvertPool env g node sa ctx = Outcome.ok r s ↔
      r = push_skipped sa (FindActivation g node) ∧
      ∃ input output sh,
        node.input.get? 0 = some input ∧ node.output.get? 0 = some output ∧
        env.shaper.Pool ctx.shaper_ (m ctx.name_map_ input) 0 0 0 0 0 0 (-1) (-1)
          (m ctx.name_map_ output) = Except.ok sh ∧
        s = ctx.extend sh []
          [if node.op_type = "GlobalAveragePool" then
            DNN.Layer.AvePool (m ctx.name_map_ input) [-1, -1] [0, 0, 0, 0] [0, 0]
              (ConvertFuseCodeType (FindActivation g node).2) (m ctx.name_map_ output)
          else
            DNN.Layer.MaxPool (m ctx.name_map_ input) [-1, -1] [0, 0, 0, 0] [0, 0]
              (ConvertFuseCodeType (FindActivation g node).2) (m ctx.name_map_ output)] [] := by
  have hw : ¬ (node.op_type = "AveragePool" ∨ node.op_type = "MaxPool") := by
    rcases hop with h | h <;> rw [h] <;> decide
  have ha : (node.op_type = "AveragePool" ∨ node.op_type = "GlobalAveragePool") ↔
      node.op_type = "GlobalAveragePool" := by
    rcases hop with h | h <;> rw [h] <;> decide
  unfold ConvertPool
  simp only [hw, ha, if_false, pure_bind, bind_assoc, m_input_bind_eq_ok, m_output_bind_eq_ok,
    List.length_cons, List.length_nil, ne_eq, not_true_eq_false, at__bind_run, List.get?,
    Nat.reduceAdd, callShaper_bind_eq_ok, pushLayer_bind_run, pure_run, Outcome.ok.injEq]
  constructor
  · rintro ⟨i, hi, o, ho, sh, hsh, rfl, rfl⟩
    exact ⟨rfl, i, o, sh, hi, ho, hsh, by simp [Converter.extend]⟩
  · rintro ⟨rfl, i, o, sh, hi, ho, hsh, rfl⟩
    exact ⟨i, hi, o, ho, sh, hsh, rfl, by simp [Converter.extend]⟩

/-- C15: an AveragePool or MaxPool node with `count_include_pad = 1`, or
`storage_order = 1`, or an `auto_pad` attribute (present, with any value)
makes the pooling branch throw in the state in which it was entered, so
before any layer is appended, and makes `Convert` fail for every graph that
contains the node.  On a GlobalAveragePool or GlobalMaxPool node the branch
succeeds exactly when the node has an input and an output and the call of the
shape service succeeds, and the one layer it appends has kernel extent
`(-1,-1)`, strides `(0,0)` and pads `(0,0,0,0)`, whatever the attributes of the
node. -/
theorem ConvertNode_Pool_cases {σ : Type} (env : Env σ) (g : ModelProto) (node : NodeProto)
    (sa : List String) (ctx : Converter σ) :
    ((node.op_type = "AveragePool" ∨ node.op_type = "MaxPool") →
      (helper_get_int node "count_include_pad" 0 = 1 ∨
        helper_get_int node "storage_order" 0 = 1 ∨
        ∃ a ∈ node.attrs, a.name = "auto_pad") →
      (∃ e, ConvertNode env g node sa ctx = Outcome.throw e ctx) ∧
      ∀ (model_proto : ModelProto) (c : Converter σ),
        node ∈ (env.Optimize model_proto).graph.node → (Convert env model_proto c).fails) ∧
    ((node.op_type = "GlobalAveragePool" ∨ node.op_type = "GlobalMaxPool") →
      ∀ (r : List String × Bool) (s : Converter σ),
        ConvertNode env g node sa ctx = Outcome.ok r s ↔
          r = (push_skipped sa (FindActivation g node), false) ∧
          ∃ input output sh,
            node.input.get? 0 = some input ∧ node.output.get? 0 = some output ∧
            env.shaper.Pool ctx.shaper_ (m ctx.name_map_ input) 0 0 0 0 0 0 (-1) (-1)
              (m ctx.name_map_ output) = Except.ok sh ∧
            s = ctx.extend sh []
              [if node.op_type = "GlobalAveragePool" then
                DNN.Layer.AvePool (m ctx.name_map_ input) [-1, -1] [0, 0, 0, 0] [0, 0]
                  (ConvertFuseCodeType (FindActivation g node).2) (m ctx.name_map_ output)
              else
                DNN.Layer.MaxPool (m ctx.name_map_ input) [-1, -1] [0, 0, 0, 0] [0, 0]
                  (ConvertFuseCodeType (FindActivation g node).2) (m ctx.name_map_ output)]
              []) := by
  constructor
  · intro hop hattr
    have hattr' : helper_get_int node "count_include_pad" 0 = 1 ∨
        helper_get_int node "storage_order" 0 = 1 ∨ helper_has_attr node "auto_pad" = true := by
      rcases hattr with h | h | ⟨a, ha, hn⟩
      · exact Or.inl h
      · exact Or.inr (Or.inl h)
      · refine Or.inr (Or.inr ?_)
        unfold helper_has_attr
        rw [List.any_eq_true]
        exact ⟨a, ha, by simp [hn]⟩
    have hthrow : ∀ (g : ModelProto) (sa : List String) (ctx : Converter σ),
        ∃ e, ConvertNode env g node sa ctx = Outcome.throw e ctx := by
      intro g sa ctx
      obtain ⟨e, he⟩ := ConvertPool_rejected env g node sa ctx hop hattr'
      refine ⟨e, ?_⟩
      rw [ConvertNode_Pool env g node sa (by tauto), bind_run_throw he]
    refine ⟨hthrow g sa ctx, ?_⟩
    intro model_proto c hmem
    apply Convert_fails_of_loop
    intro sa hr c
    apply ConvertLoop_fails_of_mem env _ node _ _ hmem
    intro sa ctx
    obtain ⟨e, he⟩ := hthrow (env.Optimize model_proto) sa ctx
    rw [he]
    trivial
  · intro hop r s
    rw [ConvertNode_Pool env g node sa (by tauto)]
    constructor
    · intro h
      obtain ⟨u, hu, hr⟩ := bind_pure_pair_ok _ _ _ _ _ h
      obtain ⟨rfl, hrest⟩ := (ConvertPool_global_iff env g node sa u ctx s hop).mp hu
      exact ⟨hr, hrest⟩
    · rintro ⟨rfl, hrest⟩
      have hu := (ConvertPool_global_iff env g node sa _ ctx s hop).mpr ⟨rfl, hrest⟩
      rw [bind_run_ok hu]
      rfl

theorem ConvertNode_Pool_cases_witness :
    ((∃ e, ConvertNode Reference.env { graph := { node := [Sample.poolAutoPad] } }
        Sample.poolAutoPad [] Sample.ready = Outcome.throw e Sample.ready) ∧
      (Convert Reference.env { graph := { node := [Sample.poolAutoPad] } }
        Reference.fresh).fails) ∧
    ConvertNode Reference.env { graph := { node := [Sample.globalPool] } } Sample.globalPool []
        Sample.ready =
      Outcome.ok ([], false) (Sample.ready.extend [("y", [1, 1, 1, 1]), ("x", [1, 7, 7, 1])] []
        [DNN.Layer.AvePool "x" [-1, -1] [0, 0, 0, 0] [0, 0] DNN.FuseCode.None "y"] []) :=
  ⟨⟨((ConvertNode_Pool_cases Reference.env _ Sample.poolAutoPad [] Sample.ready).1
        (Or.inr rfl) (Or.inr (Or.inr ⟨{ name := "auto_pad" }, by decide, rfl⟩))).1,
      ((ConvertNode_Pool_cases Reference.env { graph := { node := [Sample.poolAutoPad] } }
        Sample.poolAutoPad [] Sample.ready).1
        (Or.inr rfl) (Or.inr (Or.inr ⟨{ name := "auto_pad" }, by decide, rfl⟩))).2 _ _
        (List.mem_singleton.mpr rfl)⟩,
    ((ConvertNode_Pool_cases Reference.env _ Sample.globalPool [] Sample.ready).2 (Or.inl rfl)
      _ _).mpr ⟨rfl, "x", "y", _, rfl, rfl, rfl, rfl⟩⟩

/-! ## The graph inputs -/

theorem inputShape_eq_ok {σ : Type} (dims : List Dimension) :
    ∀ (ctx s : Converter σ) (shape : Shape),
      inputShape dims ctx = Outcome.ok shape s ↔
        s = ctx ∧ ∃ vals : List Int, dims = vals.map Dimension.kDimValue ∧ shape = vals.map u32 := by
  induction dims with
  | nil =>
    intro ctx s shape
    simp only [inputShape, pure_run, Outcome.ok.injEq]
    constructor
    · rintro ⟨rfl, rfl⟩
      exact ⟨rfl, [], rfl, rfl⟩
    · rintro ⟨rfl, vals, hv, rfl⟩
      cases vals with
      | nil => exact ⟨rfl, rfl⟩
      | cons v vs => cases hv
  | cons d ds ih =>
    intro ctx s shape
    cases d with
    | kDimValue v =>
      simp only [inputShape, bind_eq_ok, pure_run, Outcome.ok.injEq]
      constructor
      · rintro ⟨sh2, s2, h3, rfl, rfl⟩
        obtain ⟨rfl, vals, rfl, rfl⟩ := (ih _ _ _).mp h3
        exact ⟨rfl, v :: vals, rfl, rfl⟩
      · rintro ⟨rfl, vals, hv, rfl⟩
        cases vals with
        | nil => cases hv
        | cons w ws =>
          simp only [List.map_cons, List.cons.injEq, Dimension.kDimValue.injEq] at hv
          obtain ⟨rfl, rfl⟩ := hv
          exact ⟨ws.map u32, s, (ih _ _ _).mpr ⟨rfl, ws, rfl, rfl⟩, rfl, rfl⟩
    | kDimParam p =>
      constructor
      · intro h; cases h
      · rintro ⟨_, vals, hv, _⟩
        cases vals with
        | nil => cases hv
        | cons w ws => cases hv
    | VALUE_NOT_SET =>
      constructor
      · intro h; cases h
      · rintro ⟨_, vals, hv, _⟩
        cases vals with
        | nil => cases hv
        | cons w ws => cases hv

theorem ingestInitializer_fields {σ : Type} (tensor : TensorProto) (ctx s : Converter σ)
    (h : ingestInitializer tensor ctx = Outcome.ok () s) :
    s.operands_ = ctx.operands_ ++ [tensor.name] ∧ s.shaper_ = ctx.shaper_ := by
  unfold ingestInitializer at h
  by_cases h1 : tensor.data_type = TensorProto_DataType_FLOAT
  · by_cases h2 : (if tensor.float_data.isEmpty = true then tensor.raw_data
        else tensor.float_data).length < Product (List.map u32 tensor.dims)
    · simp only [h1, h2, if_true, raise_bind, raise_run] at h
      cases h
    · simp only [h1, h2, if_true, if_false, pure_bind, modifyState_bind_run,
        modifyState_run] at h
      cases h
      exact ⟨rfl, rfl⟩
  · simp only [h1, if_false, pure_bind, modifyState_run] at h
    cases h
    exact ⟨rfl, rfl⟩

theorem ingestInitializers_fields {σ : Type} (tensors : List TensorProto) :
    ∀ (ctx s : Converter σ), ingestInitializers tensors ctx = Outcome.ok () s →
      s.operands_ = ctx.operands_ ++ tensors.map (fun t => t.name) ∧
        s.shaper_ = ctx.shaper_ := by
  induction tensors with
  | nil =>
    intro ctx s h
    cases h
    exact ⟨by simp, rfl⟩
  | cons t rest ih =>
    intro ctx s h
    simp only [ingestInitializers, bind_eq_ok] at h
    obtain ⟨_, s1, h1, h2⟩ := h
    obtain ⟨a1, a2⟩ := ingestInitializer_fields t ctx s1 h1
    obtain ⟨b1, b2⟩ := ih s1 s h2
    exact ⟨by rw [b1, a1]; simp, b2.trans a2⟩

theorem ingestInputs_spec {σ : Type} (env : Env σ) (inputs_ : List ValueInfoProto) :
    ∀ (inputs r : List DNN.Input) (ctx s : Converter σ),
      ingestInputs env inputs_ inputs ctx = Outcome.ok r s →
      s.operands_ = ctx.operands_ ∧
      ∃ recorded, r = inputs ++ recorded ∧
        List.Forall₂ Recorded (inputs_.filter (fun i => decide (i.name ∉ ctx.operands_)))
          recorded ∧
        addShapes env recorded ctx.shaper_ = Except.ok s.shaper_ := by
  induction inputs_ with
  | nil =>
    intro inputs r ctx s h
    cases h
    exact ⟨rfl, [], by simp, List.Forall₂.nil, rfl⟩
  | cons input rest ih =>
    intro inputs r ctx s h
    simp only [ingestInputs, getState_bind_run, ite_run] at h
    by_cases hmem : input.name ∈ ctx.operands_
    · rw [if_pos hmem] at h
      obtain ⟨a, rec_, b, c, d⟩ := ih _ _ _ _ h
      refine ⟨a, rec_, b, ?_, d⟩
      rw [List.filter_cons_of_neg (by simpa using hmem)]
      exact c
    · rw [if_neg hmem, bind_eq_ok] at h
      obtain ⟨shape, s1, h1, h⟩ := h
      obtain ⟨rfl, vals, hdim, rfl⟩ := (inputShape_eq_ok _ _ _ _).mp h1
      simp only [at__bind_eq_ok, callShaper_bind_eq_ok] at h
      obtain ⟨d0, h0, d2, h2, d3, h3, d1, h1', sh, hsh, h⟩ := h
      obtain ⟨a, rec_, b, c, d⟩ := ih _ _ _ _ h
      refine ⟨a, { shape := [d0, d2, d3, d1], name := input.name } :: rec_, ?_, ?_, ?_⟩
      · rw [b]; simp
      · rw [List.filter_cons_of_pos (by simpa using hmem)]
        refine List.Forall₂.cons ?_ c
        refine ⟨rfl, ?_⟩
        simp only [List.get?_eq_getElem?, List.getElem?_map, Option.map_eq_some'] at h0 h1' h2 h3
        obtain ⟨v0, e0, rfl⟩ := h0
        obtain ⟨v1, e1, rfl⟩ := h1'
        obtain ⟨v2, e2, rfl⟩ := h2
        obtain ⟨v3, e3, rfl⟩ := h3
        exact ⟨vals, v0, v1, v2, v3, hdim, by simpa using e0, by simpa using e1,
          by simpa using e2, by simpa using e3, rfl⟩
      · simp only [addShapes, hsh]
        exact d

theorem ingest_spec {σ : Type} (env : Env σ) (model_proto : ModelProto) (ctx c0 : Converter σ)
    (inputs : List DNN.Input) (h : ingest env model_proto ctx = Outcome.ok inputs c0) :
    c0.operands_ = ctx.operands_ ++
      (env.Optimize model_proto).graph.initializer.map (fun t => t.name) ∧
    List.Forall₂ Recorded
      ((env.Optimize model_proto).graph.input.filter (fun i => decide (i.name ∉
        ctx.operands_ ++ (env.Optimize model_proto).graph.initializer.map (fun t => t.name))))
      inputs ∧
    addShapes env inputs ctx.shaper_ = Except.ok c0.shaper_ := by
  unfold ingest at h
  simp only [bind_eq_ok] at h
  obtain ⟨_, s1, h1, h2⟩ := h
  obtain ⟨a1, a2⟩ := ingestInitializers_fields _ _ _ h1
  obtain ⟨b1, rec_, b2, b3, b4⟩ := ingestInputs_spec env _ _ _ _ _ h2
  rw [List.nil_append] at b2
  subst b2
  rw [a1] at b1 b3
  rw [a2] at b4
  exact ⟨b1, b3, b4⟩

theorem Convert_ok_ingest {σ : Type} (env : Env σ) (model_proto : ModelProto)
    (ctx s : Converter σ) (out : DNN.Model)
    (h : Convert env model_proto ctx = Outcome.ok out s) :
    ∃ c0 r, ingest env model_proto ctx = Outcome.ok out.inputs c0 ∧
      ConvertLoop env (env.Optimize model_proto) (env.Optimize model_proto).graph.node [] false
        c0 = Outcome.ok r s ∧
      out.layers = s.layers_ ∧ out.tensors = s.tensors_ := by
  unfold Convert at h
  simp only [bind_eq_ok, getState_run, pure_run, Outcome.ok.injEq] at h
  obtain ⟨_, s1, h1, inputs, c0, h2, r, s2, h3, _, _, ⟨rfl, rfl⟩, rfl, rfl⟩ := h
  refine ⟨c0, r, ?_, h3, rfl, rfl⟩
  unfold ingest
  simp only [bind_eq_ok]
  exact ⟨_, s1, h1, h2⟩

theorem forall₂_Recorded_get {l : List ValueInfoProto} {r : List DNN.Input}
    (h : List.Forall₂ Recorded l r) :
    ∀ (k : Nat) (i : ValueInfoProto) (n c hh w : Int), l.get? k = some i →
      i.dim = [Dimension.kDimValue n, Dimension.kDimValue c, Dimension.kDimValue hh,
        Dimension.kDimValue w] →
      r.get? k = some { shape := [u32 n, u32 hh, u32 w, u32 c], name := i.name } := by
  induction h with
  | nil =>
    intro k i n c hh w hk
    cases hk
  | @cons a b l r hab _ ih =>
    intro k i n c hh w hk hdim
    cases k with
    | zero =>
      simp only [List.get?_cons_zero, Option.some.injEq] at hk ⊢
      subst hk
      obtain ⟨hname, vals, d0, d1, d2, d3, hv, e0, e1, e2, e3, hshape⟩ := hab
      rw [hdim] at hv
      match vals, hv with
      | [v0, v1, v2, v3], hv =>
        simp only [List.map_cons, List.map_nil, List.cons.injEq, Dimension.kDimValue.injEq,
          and_true] at hv
        obtain ⟨rfl, rfl, rfl, rfl⟩ := hv
        cases e0; cases e1; cases e2; cases e3
        cases b
        simp only at hname hshape
        subst hname hshape
        rfl
    | succ k =>
      simp only [List.get?_cons_succ] at hk ⊢
      exact ih k i n c hh w hk hdim

theorem forall₂_Recorded_names {l : List ValueInfoProto} {r : List DNN.Input}
    (h : List.Forall₂ Recorded l r) :
    r.map (fun o => o.name) = l.map (fun i => i.name) := by
  induction h with
  | nil => rfl
  | cons hab _ ih =>
    simp only [List.map_cons, ih, hab.1]

/-- C16: after a successful `Convert` the input list of the model is, in
declaration order, the record of exactly those declared graph inputs whose
name is not in `operands_`, which holds the names of all initializers (and
nothing else when the converter is fresh); the record of a 4-D input with
declared dims `[N, C, H, W]` has the shape `[N, H, W, C]`, and the shape table
in which the node loop starts is the one obtained by registering the recorded
inputs, with these shapes, in order.  The dims are stored as `uint32_t`, which
changes no dim between 0 and 2^32 - 1. -/
theorem Convert_inputs {σ : Type} (env : Env σ) (model_proto : ModelProto)
    (ctx s : Converter σ) (out : DNN.Model)
    (hok : Convert env model_proto ctx = Outcome.ok out s) :
    ∃ c0,
      runTo env model_proto 0 ctx = Outcome.ok ([], false) c0 ∧
      c0.operands_ = ctx.operands_ ++
        (env.Optimize model_proto).graph.initializer.map (fun t => t.name) ∧
      List.Forall₂ Recorded
        ((env.Optimize model_proto).graph.input.filter
          (fun i => decide (i.name ∉ c0.operands_))) out.inputs ∧
      out.inputs.map (fun o => o.name) =
        ((env.Optimize model_proto).graph.input.filter
          (fun i => decide (i.name ∉ c0.operands_))).map (fun i => i.name) ∧
      (∀ (k : Nat) (i : ValueInfoProto) (n c h w : Int),
        ((env.Optimize model_proto).graph.input.filter
          (fun i => decide (i.name ∉ c0.operands_))).get? k = some i →
        i.dim = [Dimension.kDimValue n, Dimension.kDimValue c, Dimension.kDimValue h,
          Dimension.kDimValue w] →
        out.inputs.get? k = some { shape := [u32 n, u32 h, u32 w, u32 c], name := i.name }) ∧
      addShapes env out.inputs ctx.shaper_ = Except.ok c0.shaper_ ∧
      ∀ d : Int, 0 ≤ d → d < 4294967296 → ((u32 d : Nat) : Int) = d := by
  obtain ⟨c0, r, hing, -, -, -⟩ := Convert_ok_ingest env model_proto ctx s out hok
  obtain ⟨a1, a2, a3⟩ := ingest_spec env model_proto ctx c0 out.inputs hing
  rw [← a1] at a2
  refine ⟨c0, ?_, a1, a2, forall₂_Recorded_names a2, forall₂_Recorded_get a2, a3, ?_⟩
  · rw [runTo_ok_iff]
    exact ⟨out.inputs, c0, hing, by simp [ConvertLoop]⟩
  · intro d h0 h1
    rw [u32_of_int_range d h0 h1]
    omega

theorem Convert_inputs_witness :
    Convert Reference.env Sample.threeInputs Reference.fresh =
      Outcome.ok
        { layers := [], tensors := [],
          inputs := [{ shape := [1, 4, 5, 3], name := "x" }, { shape := [2, 8, 9, 6], name := "z" }] }
        Sample.threeInputsFinal ∧
    ∃ c0,
      runTo Reference.env Sample.threeInputs 0 Reference.fresh = Outcome.ok ([], false) c0 ∧
      c0.operands_ = ["w"] ∧
      addShapes Reference.env
        [{ shape := [1, 4, 5, 3], name := "x" }, { shape := [2, 8, 9, 6], name := "z" }] [] =
        Except.ok c0.shaper_ := by
  have hrun : Convert Reference.env Sample.threeInputs Reference.fresh =
      Outcome.ok
        { layers := [], tensors := [],
          inputs := [{ shape := [1, 4, 5, 3], name := "x" }, { shape := [2, 8, 9, 6], name := "z" }] }
        Sample.threeInputsFinal := rfl
  obtain ⟨c0, h1, h2, -, -, -, h6, -⟩ :=
    Convert_inputs Reference.env Sample.threeInputs Reference.fresh _ _ hrun
  exact ⟨hrun, c0, h1, h2, h6⟩

/-! ## Graph inputs with a dimension that has no value -/

theorem forall₂_Recorded_dims {l : List ValueInfoProto} {r : List DNN.Input}
    (h : List.Forall₂ Recorded l r) :
    ∀ i ∈ l, ∀ d ∈ i.dim, ∃ v, d = Dimension.kDimValue v := by
  induction h with
  | nil =>
    intro i hi
    cases hi
  | @cons a b l r hab _ ih =>
    intro i hi d hd
    rcases List.mem_cons.mp hi with rfl | hi
    · obtain ⟨-, vals, _, _, _, _, hv, -⟩ := hab
      rw [hv] at hd
      obtain ⟨v, -, rfl⟩ := List.mem_map.mp hd
      exact ⟨v, rfl⟩
    · exact ih i hi d hd

/-- C17, the claim at `Sample.symbolicWeight`: the graph declares a graph input
with a symbolic dimension, and `Convert` succeeds, because the input has the
name of an initializer and is skipped before its dims are read. -/
theorem Convert_symbolic_initializer_input :
    (∃ i ∈ Sample.symbolicWeight.graph.input, ∃ d ∈ i.dim,
      ∀ v, d ≠ Dimension.kDimValue v) ∧
    Convert Reference.env Sample.symbolicWeight Reference.fresh =
      Outcome.ok { layers := [], tensors := [], inputs := [] } Sample.symbolicWeightFinal ∧
    ¬ (Convert Reference.env Sample.symbolicWeight Reference.fresh).fails := by
  refine ⟨⟨_, List.mem_singleton.mpr rfl, Dimension.kDimParam "N", by decide, ?_⟩, rfl, ?_⟩
  · intro v h
    cases h
  · intro h
    exact h

/-- C17, amended: when the graph declares a graph input that has a dimension
without a value (symbolic or unset) and whose name is not in `operands_` when
the inputs are read, that is, not the name of an initializer, `Convert` fails
and yields no model. -/
theorem Convert_fails_of_symbolic_input {σ : Type} (env : Env σ) (model_proto : ModelProto)
    (ctx : Converter σ) (i : ValueInfoProto) (d : Dimension)
    (hi : i ∈ (env.Optimize model_proto).graph.input)
    (hname : i.name ∉ ctx.operands_ ++
      (env.Optimize model_proto).graph.initializer.map (fun t => t.name))
    (hd : d ∈ i.dim) (hsym : ∀ v, d ≠ Dimension.kDimValue v) :
    (Convert env model_proto ctx).fails := by
  apply fails_of_not_ok
  intro out s hok
  obtain ⟨c0, r, hing, -, -, -⟩ := Convert_ok_ingest env model_proto ctx s out hok
  obtain ⟨-, a2, -⟩ := ingest_spec env model_proto ctx c0 out.inputs hing
  have hmem : i ∈ (env.Optimize model_proto).graph.input.filter (fun i => decide (i.name ∉
      ctx.operands_ ++ (env.Optimize model_proto).graph.initializer.map (fun t => t.name))) :=
    List.mem_filter.mpr ⟨hi, by simpa using hname⟩
  obtain ⟨v, hv⟩ := forall₂_Recorded_dims a2 i hmem d hd
  exact hsym v hv

theorem Convert_fails_of_symbolic_input_witness :
    (Convert Reference.env Sample.symbolicInput Reference.fresh).fails :=
  Convert_fails_of_symbolic_input Reference.env Sample.symbolicInput Reference.fresh
    { name := "x",
      dim := [Dimension.kDimParam "N", Dimension.kDimValue 3, Dimension.kDimValue 4,
        Dimension.kDimValue 4] }
    (Dimension.kDimParam "N") (List.mem_singleton.mpr rfl) (by decide) (by decide)
    (fun v h => by cases h)

/-! ## The name map -/

theorem m_of_lookup_some (name_map_ : List (String × String)) (str t : String)
    (h : name_map_.lookup str = some t) : m name_map_ str = t := by
  unfold m
  rw [h]

theorem Resolved_iff_idempotent (name_map_ : List (String × String)) :
    Resolved name_map_ ↔ ∀ x, m name_map_ (m name_map_ x) = m name_map_ x := by
  constructor
  · intro h x
    cases hx : name_map_.lookup x with
    | none => rw [m_of_lookup_none _ _ hx, m_of_lookup_none _ _ hx]
    | some t => rw [m_of_lookup_some _ _ _ hx, h x t hx]
  · intro h key t hk
    have := h key
    rw [m_of_lookup_some _ _ _ hk] at this
    exact this

theorem Resolved_cons (name_map_ : List (String × String)) (x y : String)
    (h : Resolved name_map_) (hy : ∀ key t, name_map_.lookup key = some t → t ≠ y) :
    Resolved ((y, m name_map_ x) :: name_map_) := by
  intro key t hk
  rw [m_cons]
  by_cases hkey : key = y
  · subst hkey
    have ht : t = m name_map_ x := by
      simp only [List.lookup, beq_self_eq_true] at hk
      exact (Option.some.inj hk).symm
    subst ht
    split
    · rfl
    · exact (Resolved_iff_idempotent name_map_).mp h x
  · rw [lookup_cons_ne _ _ _ _ hkey] at hk
    rw [if_neg (hy key t hk)]
    exact h key t hk

theorem ConvertDropout_state {σ : Type} (node : NodeProto) (ctx : Converter σ) :
    (ConvertDropout node ctx).state = ctx ∨
      ∃ input output, node.input.get? 0 = some input ∧ node.output.get? 0 = some output ∧
        ConvertDropout node ctx = Outcome.ok ()
          { ctx with name_map_ := (output, m ctx.name_map_ input) :: ctx.name_map_ } := by
  unfold ConvertDropout
  simp only [m_input_bind_run, at__bind_run, modifyState_run]
  cases hi : node.input.get? 0 with
  | none => exact Or.inl rfl
  | some input =>
    cases ho : node.output.get? 0 with
    | none => exact Or.inl rfl
    | some output => exact Or.inr ⟨input, output, rfl, rfl, rfl⟩

theorem ConvertLoop_Resolved {σ : Type} (env : Env σ) (g : ModelProto) :
    ∀ (nodes : List NodeProto) (sa : List String) (hr : Bool) (ctx : Converter σ),
      DropoutsInOrder nodes → Resolved ctx.name_map_ →
      (∀ key t, ctx.name_map_.lookup key = some t → ∀ b ∈ nodes, b.op_type = "Dropout" →
        b.output.head? ≠ some t) →
      Resolved (ConvertLoop env g nodes sa hr ctx).state.name_map_ := by
  intro nodes
  induction nodes with
  | nil =>
    intro sa hr ctx _ h _
    exact h
  | cons n rest ih =>
    intro sa hr ctx hord hres htargets
    rw [ConvertLoop_cons]
    cases hr with
    | true => exact hres
    | false =>
    simp only [Bool.false_eq_true, if_false]
    have hord' : DropoutsInOrder rest := (List.pairwise_cons.mp hord).2
    have hhead := (List.pairwise_cons.mp hord).1
    by_cases hop : n.op_type = "Dropout"
    · rw [ConvertNode_Dropout env g n sa hop]
      rcases ConvertDropout_state n ctx with hsame | ⟨i, o, hi, ho, hrun⟩
      · cases hd : ConvertDropout n ctx with
        | ok u c1 =>
          rw [hd] at hsame
          rw [bind_run_ok hd]
          simp only [pure_run]
          have hc1 : c1 = ctx := hsame
          subst hc1
          exact ih _ _ _ hord' hres
            (fun key t hk b hb => htargets key t hk b (List.mem_cons_of_mem _ hb))
        | throw e c1 =>
          rw [hd] at hsame
          rw [bind_run_throw hd]
          have hc1 : c1 = ctx := hsame
          subst hc1
          exact hres
      · rw [bind_run_ok hrun]
        simp only [pure_run]
        have ho' : n.output.head? = some o := head?_eq_of_get?_zero _ _ ho
        have hi' : n.input.head? = some i := head?_eq_of_get?_zero _ _ hi
        apply ih _ _ _ hord'
        · apply Resolved_cons _ _ _ hres
          intro key t hk heq
          apply htargets key t hk n (List.mem_cons_self _ _) hop
          rw [ho', heq]
        · intro key t hk b hb hbop
          show b.output.head? ≠ some t
          by_cases hkey : key = o
          · subst hkey
            have ht : t = m ctx.name_map_ i := by
              simp only [List.lookup, beq_self_eq_true] at hk
              exact (Option.some.inj hk).symm
            subst ht
            cases hl : ctx.name_map_.lookup i with
            | none =>
              rw [m_of_lookup_none _ _ hl]
              intro hcontra
              apply hhead b hb
              refine ⟨hop, hbop, ?_, ?_⟩
              · rw [hi']; rfl
              · rw [hi', hcontra]
            | some t' =>
              rw [m_of_lookup_some _ _ _ hl]
              exact htargets i t' hl b (List.mem_cons_of_mem _ hb) hbop
          · rw [lookup_cons_ne _ _ _ _ hkey] at hk
            exact htargets key t hk b (List.mem_cons_of_mem _ hb) hbop
    · have hk := ConvertNode_keeps env g n sa hop ctx
      cases hd : ConvertNode env g n sa ctx with
      | ok r1 c1 =>
        rw [hd] at hk
        have hnm : c1.name_map_ = ctx.name_map_ := hk.1
        simp only
        apply ih _ _ _ hord'
        · rw [hnm]; exact hres
        · rw [hnm]
          exact fun key t hk b hb => htargets key t hk b (List.mem_cons_of_mem _ hb)
      | throw e c1 =>
        rw [hd] at hk
        have hnm : c1.name_map_ = ctx.name_map_ := hk.1
        show Resolved c1.name_map_
        rw [hnm]
        exact hres

/-- C18, the claim at `Sample.dropoutRewrite`: from the empty name map the two
Dropout nodes are processed without failure and leave the alias `a` stored for
`b`, while `a` itself resolves to `c`: a two-hop chain, on which resolving
twice differs from resolving once. -/
theorem name_map_chain :
    ConvertLoop Reference.env Sample.dropoutRewrite Sample.dropoutRewrite.graph.node [] false
        Reference.fresh =
      Outcome.ok ([], false) { Reference.fresh with name_map_ := [("a", "c"), ("b", "a")] } ∧
    Reference.fresh.name_map_ = [] ∧
    List.lookup "b" [("a", "c"), ("b", "a")] = some "a" ∧
    m [("a", "c"), ("b", "a")] "a" = "c" ∧
    m [("a", "c"), ("b", "a")] (m [("a", "c"), ("b", "a")] "b") ≠
      m [("a", "c"), ("b", "a")] "b" ∧
    ¬ Resolved [("a", "c"), ("b", "a")] := by
  refine ⟨rfl, rfl, rfl, rfl, by decide, ?_⟩
  intro h
  exact absurd (h "b" "a" rfl) (by decide)

/-- C18, amended: `m` returns the stored alias when the name is a key of the
name map and the name itself otherwise; and in every state reached from the
empty name map by the node loop over a sequence of nodes in which no Dropout
writes a name that an earlier Dropout reads, whether the loop returns or
throws, every stored alias target resolves to itself, or equivalently
resolving twice is resolving once. -/
theorem name_map_resolved {σ : Type} (env : Env σ) (g : ModelProto) (nodes : List NodeProto)
    (sa : List String) (hr : Bool) (ctx : Converter σ)
    (hempty : ctx.name_map_ = []) (hord : DropoutsInOrder nodes) :
    (∀ (name_map_ : List (String × String)) (str : String),
      (∀ t, name_map_.lookup str = some t → m name_map_ str = t) ∧
      (name_map_.lookup str = none → m name_map_ str = str)) ∧
    Resolved (ConvertLoop env g nodes sa hr ctx).state.name_map_ ∧
    (∀ x, m (ConvertLoop env g nodes sa hr ctx).state.name_map_
        (m (ConvertLoop env g nodes sa hr ctx).state.name_map_ x) =
      m (ConvertLoop env g nodes sa hr ctx).state.name_map_ x) ∧
    (∀ name_map_ : List (String × String),
      Resolved name_map_ ↔ ∀ x, m name_map_ (m name_map_ x) = m name_map_ x) := by
  have hres : Resolved (ConvertLoop env g nodes sa hr ctx).state.name_map_ := by
    apply ConvertLoop_Resolved env g nodes sa hr ctx hord
    · rw [hempty]
      intro key t hk
      cases hk
    · rw [hempty]
      intro key t hk
      cases hk
  exact ⟨fun name_map_ str => ⟨fun t h => m_of_lookup_some _ _ _ h, m_of_lookup_none _ _⟩,
    hres, (Resolved_iff_idempotent _).mp hres, Resolved_iff_idempotent⟩

theorem name_map_resolved_witness :
    ConvertLoop Reference.env Sample.dropoutChain
        [ { name := "drop1", op_type := "Dropout", input := ["a"], output := ["d1"] },
          { name := "drop2", op_type := "Dropout", input := ["d1"], output := ["d2"] } ]
        [] false Reference.fresh =
      Outcome.ok ([], false) { Reference.fresh with name_map_ := [("d2", "a"), ("d1", "a")] } ∧
    Resolved [("d2", "a"), ("d1", "a")] ∧
    ∀ x, m [("d2", "a"), ("d1", "a")] (m [("d2", "a"), ("d1", "a")] x) =
      m [("d2", "a"), ("d1", "a")] x := by
  have h := name_map_resolved Reference.env Sample.dropoutChain
    [ { name := "drop1", op_type := "Dropout", input := ["a"], output := ["d1"] },
      { name := "drop2", op_type := "Dropout", input := ["d1"], output := ["d2"] } ]
    [] false Reference.fresh rfl (by decide)
  exact ⟨rfl, h.2.1, h.2.2.1⟩

/-! ## Operand names written by the layers -/

theorem Convert_run {σ : Type} (env : Env σ) (model_proto : ModelProto)
    (ctx s1 c0 s : Converter σ) (inputs : List DNN.Input) (r : List String × Bool)
    (h1 : ingestInitializers (env.Optimize model_proto).graph.initializer ctx =
      Outcome.ok () s1)
    (h2 : ingestInputs env (env.Optimize model_proto).graph.input [] s1 =
      Outcome.ok inputs c0)
    (h3 : ConvertLoop env (env.Optimize model_proto) (env.Optimize model_proto).graph.node []
      false c0 = Outcome.ok r s) :
    Convert env model_proto ctx =
      Outcome.ok { layers := s.layers_, tensors := s.tensors_, inputs := inputs } s := by
  simp only [Convert]
  rw [bind_run_ok h1, bind_run_ok h2, bind_run_ok h3]
  rfl

theorem ConvertLoop_cons_run {σ : Type} (env : Env σ) (g : ModelProto) (node : NodeProto)
    (rest : List NodeProto) (sa : List String) (ctx c1 : Converter σ)
    (r1 : List String × Bool) (h : ConvertNode env g node sa ctx = Outcome.ok r1 c1) :
    ConvertLoop env g (node :: rest) sa false ctx = ConvertLoop env g rest r1.1 r1.2 c1 := by
  rw [ConvertLoop_cons, h]
  rfl

/-- C19 at `Sample.twoDilated`: the node output names `c1`, `c2` are distinct
from each other and from the names of the graph input and of the initializers,
`Convert` succeeds, and the layers it emits write `x_s2b`, `x_conv_imm` and
`x_b2s` twice each, because the intermediate names of the dilated path are
derived from the name of the input of the convolution, which the two
convolutions share. -/
theorem Convert_two_dilated_outputs :
    ((Sample.twoDilated.graph.node.map (fun n => n.output)).flatten ++
      Sample.twoDilated.graph.input.map (fun i => i.name) ++
      Sample.twoDilated.graph.initializer.map (fun t => t.name)).Nodup ∧
    Convert Reference.env Sample.twoDilated Reference.fresh =
      Outcome.ok Sample.twoDilatedModel Sample.twoDilatedFinal ∧
    Sample.twoDilatedModel.layers.map DNN.Layer.output =
      ["x_s2b", "x_conv_imm", "x_b2s", "c1", "x_s2b", "x_conv_imm", "x_b2s", "c2"] ∧
    ¬ (Sample.twoDilatedModel.layers.map DNN.Layer.output).Nodup := by
  have h1 : ((Sample.twoDilated.graph.node.map (fun n => n.output)).flatten ++
      Sample.twoDilated.graph.input.map (fun i => i.name) ++
      Sample.twoDilated.graph.initializer.map (fun t => t.name)).Nodup := by
    simp [Sample.twoDilated]
  have hinit : ingestInitializers (Reference.env.Optimize Sample.twoDilated).graph.initializer
      Reference.fresh =
      Outcome.ok ()
        { Reference.fresh with
          onnx_tensors_ :=
            [("w2", { data := [float_one], shape := [1, 1, 1, 1] }),
              ("w1", { data := [float_one], shape := [1, 1, 1, 1] })],
          operands_ := ["w1", "w2"] } := rfl
  have hinputs : ingestInputs Reference.env (Reference.env.Optimize Sample.twoDilated).graph.input
      []
      { Reference.fresh with
        onnx_tensors_ :=
          [("w2", { data := [float_one], shape := [1, 1, 1, 1] }),
            ("w1", { data := [float_one], shape := [1, 1, 1, 1] })],
        operands_ := ["w1", "w2"] } =
      Outcome.ok [{ shape := [1, 4, 4, 1], name := "x" }]
        { Reference.fresh with
          onnx_tensors_ :=
            [("w2", { data := [float_one], shape := [1, 1, 1, 1] }),
              ("w1", { data := [float_one], shape := [1, 1, 1, 1] })],
          operands_ := ["w1", "w2"],
          shaper_ := [("x", [1, 4, 4, 1])] } := rfl
  have hconv1 : ConvertNode Reference.env (Reference.env.Optimize Sample.twoDilated)
      { name := "conv1", op_type := "Conv", input := ["x", "w1"], output := ["c1"],
        attrs := [{ name := "dilations", ints := [2, 2] }] } []
      { Reference.fresh with
        onnx_tensors_ :=
          [("w2", { data := [float_one], shape := [1, 1, 1, 1] }),
            ("w1", { data := [float_one], shape := [1, 1, 1, 1] })],
        operands_ := ["w1", "w2"],
        shaper_ := [("x", [1, 4, 4, 1])] } =
      Outcome.ok ([], false)
        { Reference.fresh with
          onnx_tensors_ :=
            [("w2", { data := [float_one], shape := [1, 1, 1, 1] }),
              ("w1", { data := [float_one], shape := [1, 1, 1, 1] })],
          nnapi_tensors_ := [("w1_conv_w", { data := [float_one], shape := [1, 1, 1, 1] })],
          operands_ := ["w1", "w2"],
          shaper_ :=
            [("c1", [1, 4, 4, 1]), ("x_b2s", [1, 4, 4, 1]), ("x_conv_imm", [4, 2, 2, 1]),
              ("w1_conv_w", [1, 1, 1, 1]), ("x_s2b", [4, 2, 2, 1]), ("x", [1, 4, 4, 1])],
          layers_ := Sample.twoDilatedModel.layers.take 4,
          tensors_ := Sample.twoDilatedModel.tensors.take 1 } := by
    simp only [ConvertNode, ConvertConv, AddConv_eq_AddConvN _ 0]
    rfl
  have hconv2 : ConvertNode Reference.env (Reference.env.Optimize Sample.twoDilated)
      { name := "conv2", op_type := "Conv", input := ["x", "w2"], output := ["c2"],
        attrs := [{ name := "dilations", ints := [4, 4] }] } []
      { Reference.fresh with
        onnx_tensors_ :=
          [("w2", { data := [float_one], shape := [1, 1, 1, 1] }),
            ("w1", { data := [float_one], shape := [1, 1, 1, 1] })],
        nnapi_tensors_ := [("w1_conv_w", { data := [float_one], shape := [1, 1, 1, 1] })],
        operands_ := ["w1", "w2"],
        shaper_ :=
          [("c1", [1, 4, 4, 1]), ("x_b2s", [1, 4, 4, 1]), ("x_conv_imm", [4, 2, 2, 1]),
            ("w1_conv_w", [1, 1, 1, 1]), ("x_s2b", [4, 2, 2, 1]), ("x", [1, 4, 4, 1])],
        layers_ := Sample.twoDilatedModel.layers.take 4,
        tensors_ := Sample.twoDilatedModel.tensors.take 1 } =
      Outcome.ok ([], false) Sample.twoDilatedFinal := by
    simp only [ConvertNode, ConvertConv, AddConv_eq_AddConvN _ 0]
    rfl
  have hloop : ConvertLoop Reference.env (Reference.env.Optimize Sample.twoDilated)
      (Reference.env.Optimize Sample.twoDilated).graph.node [] false
      { Reference.fresh with
        onnx_tensors_ :=
          [("w2", { data := [float_one], shape := [1, 1, 1, 1] }),
            ("w1", { data := [float_one], shape := [1, 1, 1, 1] })],
        operands_ := ["w1", "w2"],
        shaper_ := [("x", [1, 4, 4, 1])] } =
      Outcome.ok ([], false) Sample.twoDilatedFinal :=
    (ConvertLoop_cons_run _ _ _ _ _ _ _ _ hconv1).trans
      ((ConvertLoop_cons_run _ _ _ _ _ _ _ _ hconv2).trans rfl)
  have h2 : Convert Reference.env Sample.twoDilated Reference.fresh =
      Outcome.ok Sample.twoDilatedModel Sample.twoDilatedFinal :=
    Convert_run Reference.env Sample.twoDilated _ _ _ _ _ _ hinit hinputs hloop
  have h3 : Sample.twoDilatedModel.layers.map DNN.Layer.output =
      ["x_s2b", "x_conv_imm", "x_b2s", "c1", "x_s2b", "x_conv_imm", "x_b2s", "c2"] := rfl
  have h4 : ¬ (Sample.twoDilatedModel.layers.map DNN.Layer.output).Nodup := by decide
  exact ⟨h1, h2, h3, h4⟩

/-! ## Depth of the recursion of `AddConv` -/

/-- C20: `AddConv` is a total function (its one recursive call is made with
dilations `(1,1)`, for which the measure of the definition is 0), and its
recursion never goes deeper than 2: on every input it agrees with `AddConvN` at
depth 2 and at every greater depth, `AddConvN` being the copy of its body that
throws once the depth is used up.  With dilations `(1,1)` depth 1 is enough:
that call takes the grouping branch, which does not recurse. -/
theorem AddConv_depth_le_two {σ : Type} (env : Env σ) (input_name : String)
    (strides pads dilations : List Int) (group : Int) (activation : Option String × FuseCode)
    (ori_weight_name : String) (bias_name : Option String) (output_name : String) :
    AddConv env input_name strides pads dilations group activation ori_weight_name bias_name
        output_name =
      AddConvN env 2 input_name strides pads dilations group activation ori_weight_name
        bias_name output_name ∧
    (∀ depth : Nat,
      AddConvN env (depth + 2) input_name strides pads dilations group activation
          ori_weight_name bias_name output_name =
        AddConvN env 2 input_name strides pads dilations group activation ori_weight_name
          bias_name output_name) ∧
    (∀ depth : Nat,
      AddConv env input_name strides pads [1, 1] group activation ori_weight_name bias_name
          output_name =
        AddConvN env (depth + 1) input_name strides pads [1, 1] group activation
          ori_weight_name bias_name output_name) := by
  refine ⟨AddConv_eq_AddConvN env 0 _ _ _ _ _ _ _ _ _, ?_, ?_⟩
  · intro depth
    rw [← AddConv_eq_AddConvN env depth, ← AddConv_eq_AddConvN env 0]
  · intro depth
    exact AddConv_plain_eq_AddConvN env depth _ _ _ _ _ _ _ _

/-! ## The inputs of the Concat layer -/

theorem concat_inputs_length (name_map_ : List (String × String)) :
    ∀ (inputs flat : List String), concat_inputs name_map_ inputs = some flat →
      flat.length = inputs.length := by
  intro inputs
  induction inputs with
  | nil =>
    intro flat h
    cases h
    rfl
  | cons x rest ih =>
    intro flat h
    simp only [concat_inputs, Option.bind_eq_bind, Option.bind_eq_some, Option.pure_def,
      Option.some.injEq] at h
    obtain ⟨a, _, others, ho, rfl⟩ := h
    simp [ih others ho]

/-- C21 at `Sample.concatAlias`: the Dropout aliases `d` to `input`, the Concat
reads `d` and `y`, `Convert` succeeds, and the first input of the emitted
Concat layer is `i`, not the resolved name `input`: `CreateString` is given
the buffer of the resolved name and the length of the source name, here 1. -/
theorem Convert_Concat_alias_cut :
    Convert Reference.env Sample.concatAlias Reference.fresh =
      Outcome.ok Sample.concatAliasModel Sample.concatAliasFinal ∧
    Sample.concatAliasModel.layers = [DNN.Layer.Concat ["i", "y"] 3 "out"] ∧
    ["d", "y"].map (m Sample.concatAliasFinal.name_map_) = ["input", "y"] ∧
    concat_inputs Sample.concatAliasFinal.name_map_ ["d", "y"] = some ["i", "y"] ∧
    CreateString (m Sample.concatAliasFinal.name_map_ "d") "d".length = some "i" ∧
    (["i", "y"] : List String) ≠ ["d", "y"].map (m Sample.concatAliasFinal.name_map_) := by
  refine ⟨rfl, rfl, rfl, rfl, rfl, by decide⟩

/-! ## The depthwise branch and the group attribute -/

/-- C22 at `Sample.convGroupNeg` and `Sample.convGroupZero`, on a converter
whose weight `w` has second dimension 1: with `group = -1` the Conv branch
takes the depthwise branch and emits a DepthwiseConv2D layer, whose multiplier
is `4 / 4294967295 = 0` since the division is done in `uint32_t`; with
`group = 0` it takes the depthwise branch too and reaches the division with a
zero divisor, after the shape table and `nnapi_tensors_` have been written.
The branch is entered whenever `group` is not 1. -/
theorem AddConv_depthwise_nonpositive_group :
    helper_get_int Sample.convGroupNeg "group" 1 = -1 ∧
    ConvertNode Reference.env { graph := { node := [Sample.convGroupNeg] } }
        Sample.convGroupNeg [] Sample.readyDw =
      Outcome.ok ([], false) (Sample.readyDw.extend
        [("c", [1, 7, 7, 4]), ("w_dwconv_w", [1, 1, 1, 4]), ("x", [1, 7, 7, 2])]
        [("w_dwconv_w", { data := List.replicate 4 float_one, shape := [1, 1, 1, 4] })]
        [DNN.Layer.DepthwiseConv2D "x" "w_dwconv_w" none [0, 0, 0, 0] [1, 1] 0
          DNN.FuseCode.None "c"]
        [{ data_type := DNN.DataType.Float32, float32_data := List.replicate 4 float_one,
           shape := [1, 1, 1, 4], name := "w_dwconv_w" }]) ∧
    (4 : Nat) / u32 (-1) = 0 ∧
    helper_get_int Sample.convGroupZero "group" 1 = 0 ∧
    ConvertNode Reference.env { graph := { node := [Sample.convGroupZero] } }
        Sample.convGroupZero [] Sample.readyDw =
      Outcome.throw "division by zero" (Sample.readyDw.extend
        [("c", [1, 7, 7, 4]), ("w_dwconv_w", [1, 1, 1, 4]), ("x", [1, 7, 7, 2])]
        [("w_dwconv_w", { data := List.replicate 4 float_one, shape := [1, 1, 1, 4] })]
        [] []) := by
  have h1 : ConvertNode Reference.env { graph := { node := [Sample.convGroupNeg] } }
        Sample.convGroupNeg [] Sample.readyDw =
      Outcome.ok ([], false) (Sample.readyDw.extend
        [("c", [1, 7, 7, 4]), ("w_dwconv_w", [1, 1, 1, 4]), ("x", [1, 7, 7, 2])]
        [("w_dwconv_w", { data := List.replicate 4 float_one, shape := [1, 1, 1, 4] })]
        [DNN.Layer.DepthwiseConv2D "x" "w_dwconv_w" none [0, 0, 0, 0] [1, 1] 0
          DNN.FuseCode.None "c"]
        [{ data_type := DNN.DataType.Float32, float32_data := List.replicate 4 float_one,
           shape := [1, 1, 1, 4], name := "w_dwconv_w" }]) := by
    simp only [ConvertNode, ConvertConv, AddConv_eq_AddConvN _ 0]
    rfl
  have h2 : ConvertNode Reference.env { graph := { node := [Sample.convGroupZero] } }
        Sample.convGroupZero [] Sample.readyDw =
      Outcome.throw "division by zero" (Sample.readyDw.extend
        [("c", [1, 7, 7, 4]), ("w_dwconv_w", [1, 1, 1, 4]), ("x", [1, 7, 7, 2])]
        [("w_dwconv_w", { data := List.replicate 4 float_one, shape := [1, 1, 1, 4] })]
        [] []) := by
    simp only [ConvertNode, ConvertConv, AddConv_eq_AddConvN _ 0]
    rfl
  exact ⟨rfl, h1, by decide, rfl, h2⟩

end OnnxConverter
